import Mathlib

/-!
# taiko-client: driver event loop, driver construction and RPC client construction

Shallow embedding of `driver/driver.go` and `pkg/rpc/client.go`.

* Go channels are FIFO buffers with a capacity.
* The event loop of `Driver.eventLoop` is a labelled transition system: a
  program counter, the shared driver fields, and the observable actions
  performed so far.  Go's `select` picks any ready case, so each ready case
  is a separate step label.
* Calls that leave the repository (RPC dials, `L2ChainSyncer.Sync`, the clock
  read by the backoff policy) take their outcome from the step label.
-/

namespace TaikoClient

/-! ## Data model -/

/-- L1 header snapshot handed around as `*types.Header`. -/
structure Header where
  number : Nat
  hash : Nat
deriving DecidableEq, Repr

instance : Inhabited Header := ⟨⟨0, 0⟩⟩

/-- Cause of an error as its producer knows it.  Code that only holds the Go
`error` interface value cannot branch on it. -/
inductive ErrKind
  | transient
  | protocolViolation
  | deepReorg
  | construction
deriving DecidableEq, Repr

/-- Go `error` value.  The field `permanent` says whether the value is a
`*backoff.PermanentError`, as `backoff.Permanent(e)` returns it, which is the
only property of an error that `backoff.Retry` looks at; `kind` and `msg` are
then those of the wrapped `e`, whose message `PermanentError.Error` returns. -/
structure GoError where
  kind : ErrKind
  msg : String
  permanent : Bool
deriving DecidableEq, Repr

/-- Field `Err` of a `*backoff.PermanentError`: the error `backoff.Permanent`
was given, a plain error with the same cause and message.  On an error that is
not permanent this is the error itself. -/
def GoError.permanentErr (e : GoError) : GoError := { e with permanent := false }

/-- Buffered Go channel: queued elements, oldest first, and the capacity given
to `make`. -/
structure Chan (α : Type) where
  buf : List α
  cap : Nat
deriving DecidableEq, Repr

/-- The channel `make(chan α, cap)`. -/
def Chan.make (α : Type) (cap : Nat) : Chan α := ⟨[], cap⟩

/-- Number of queued elements, `len(c)`. -/
def Chan.len {α : Type} (c : Chan α) : Nat := c.buf.length

/-- Blocking send `c <- v`: `none` when the buffer is full and the sender
would block. -/
def Chan.send? {α : Type} (c : Chan α) (v : α) : Option (Chan α) :=
  if c.buf.length < c.cap then some { c with buf := c.buf ++ [v] } else none

/-- Non-blocking send `select { case c <- v: default: }`. -/
def Chan.trySend {α : Type} (c : Chan α) (v : α) : Chan α :=
  if c.buf.length < c.cap then { c with buf := c.buf ++ [v] } else c

/-- Receive `<-c`: `none` when the buffer is empty and the receiver would
block. -/
def Chan.recv? {α : Type} (c : Chan α) : Option (α × Chan α) :=
  match c.buf with
  | [] => none
  | x :: xs => some (x, { c with buf := xs })

/-! ## Constants of `driver/driver.go` -/

/-- Constant `MaxReorgDepth` (driver.go:22). -/
def MaxReorgDepth : Nat := 500

/-- Constant `ReorgRollbackDepth` (driver.go:23). -/
def ReorgRollbackDepth : Nat := 20

/-- Capacity of `d.l1HeadCh` (driver.go:55). -/
def l1HeadChCap : Nat := 1024

/-- Capacity of `d.syncNotify` (driver.go:57). -/
def syncNotifyCap : Nat := 1

/-! ## The driver's shared fields -/

/-- Fields of `Driver` that the event loop, `Start` and `Close` touch.
`ctxDone` is `d.ctx.Err() != nil`; `l1Head` is what `d.state.GetL1Head()`
returns now; `wg` is the counter of `d.wg`; `stateClosed` records that
`d.state.Close()` has run. -/
structure Driver where
  l1HeadCh : Chan Header
  syncNotify : Chan Unit
  ctxDone : Bool
  l1Head : Header
  wg : Nat
  stateClosed : Bool
deriving DecidableEq, Repr

/-- Closure `reqSync` of `eventLoop` (driver.go:129-134): a non-blocking send
on `d.syncNotify`. -/
def reqSync (d : Driver) : Driver :=
  { d with syncNotify := d.syncNotify.trySend () }

/-- Method `Driver.doSync` (driver.go:161-176).  `syncResult` is what
`d.l2ChainSyncer.Sync` returns if it is called.  Result: the returned error
and the target `Sync` was called with, if it was called. -/
def doSync (d : Driver) (syncResult : Option GoError) : Option GoError × Option Header :=
  if d.ctxDone then (none, none)
  else (syncResult, some d.l1Head)

/-! ## The backoff policy

`github.com/cenkalti/backoff/v4`, imported at driver.go:9.  The policy reads
a clock and a random source; both readings are taken from the step label. -/

/-- Default `DefaultMaxElapsedTime` of the backoff package: 15 minutes, in
nanoseconds. -/
def DefaultMaxElapsedTime : Nat := 15 * 60 * 1000000000

/-- The part of `backoff.ExponentialBackOff` that decides whether retrying
stops.  `MaxElapsedTime = 0` means no limit. -/
structure ExponentialBackOff where
  MaxElapsedTime : Nat
deriving DecidableEq, Repr

/-- Constructor `backoff.NewExponentialBackOff()`: every field takes its
package default. -/
def NewExponentialBackOff : ExponentialBackOff := ⟨DefaultMaxElapsedTime⟩

/-- Method `ExponentialBackOff.NextBackOff`: `none` is the sentinel `Stop`.
`elapsed` is the time since `Reset` and `next` the randomized interval, both
in nanoseconds. -/
def ExponentialBackOff.NextBackOff (b : ExponentialBackOff) (elapsed next : Nat) : Option Nat :=
  if b.MaxElapsedTime ≠ 0 ∧ elapsed + next > b.MaxElapsedTime then none else some next

/-- Outcome of one iteration of the loop inside `backoff.Retry`. -/
inductive RetryOutcome
  | finished (err : Option GoError)
  | sleep (delay : Nat)
deriving DecidableEq, Repr

/-- One iteration of the loop of `backoff.Retry` after the operation returned
`err`: return `nil` on success; on a permanent error return the error it wraps
(`return permanent.Err`); return the error itself when the policy says `Stop`;
otherwise sleep and go round again. -/
def retryIter (b : ExponentialBackOff) (err : Option GoError) (elapsed next : Nat) : RetryOutcome :=
  match err with
  | none => .finished none
  | some e =>
    if e.permanent then .finished (some e.permanentErr)
    else
      match b.NextBackOff elapsed next with
      | none => .finished (some e)
      | some delay => .sleep delay

/-! ## The event loop as a transition system -/

/-- Program counter of the goroutine running `eventLoop`, and of the caller
of `Start`. -/
inductive Pc
  | notStarted
  | startup
  | retrying
  | selecting
  | returned
deriving DecidableEq, Repr

/-- Program counter of the caller of `Driver.Close`. -/
inductive ClosePc
  | notCalled
  | waiting
  | closed
deriving DecidableEq, Repr

/-- Observable actions, in the order they happen. -/
inductive Obs
  | passStart
  | ctxErrSeen
  | syncCall (target : Header)
  | backoffSleep (delay : Nat)
  | passEnd (logged : Option GoError)
  | recvHead (h : Header)
  | recvSyncNotify
  | loopReturn
  | stateClose
  | wgWaitReturn
deriving DecidableEq, Repr

/-- Step labels.  The first three are moves of the environment; `start`,
`closeState` and `closeWait` are the statements of `Start` and `Close`; the
rest are moves of the `eventLoop` goroutine. -/
inductive Step
  | headArrives (h : Header)
  | l1HeadUpdated (h : Header)
  | cancel
  | start
  | closeState
  | closeWait
  | startupPass
  | attempt (syncResult : Option GoError) (elapsed next : Nat)
  | selCtxDone
  | selSyncNotify
  | selL1Head
deriving DecidableEq, Repr

/-- Whole state: shared fields, the two program counters and the trace. -/
structure LoopState where
  d : Driver
  pc : Pc
  closePc : ClosePc
  trace : List Obs
deriving DecidableEq, Repr

/-- One pass iteration of `doSyncWithBackoff` (driver.go:137-141): call
`doSync` through `backoff.Retry`; when `Retry` returns, log a non-nil error
and go (back) to the `select`. -/
def attemptStep (s : LoopState) (syncResult : Option GoError) (elapsed next : Nat) : LoopState :=
  let r := doSync s.d syncResult
  let callObs : List Obs :=
    match r.2 with
    | some target => [Obs.syncCall target]
    | none => [Obs.ctxErrSeen]
  match retryIter NewExponentialBackOff r.1 elapsed next with
  | .finished err => { s with pc := .selecting, trace := s.trace ++ callObs ++ [Obs.passEnd err] }
  | .sleep delay => { s with trace := s.trace ++ callObs ++ [Obs.backoffSleep delay] }

/-- Transition function: `none` when the step is not enabled.  The system has
one `eventLoop` goroutine and one caller of `Close`: `start` is enabled only
before the goroutine exists and `closeState` only once, although `Start` and
`Close` themselves (driver.go:109-120) test nothing.  Executions with further
calls of `Start` are those of `fleetStep` below. -/
def step (st : Step) (s : LoopState) : Option LoopState :=
  match st with
  | .headArrives h =>
    (s.d.l1HeadCh.send? h).map fun c => { s with d := { s.d with l1HeadCh := c } }
  | .l1HeadUpdated h => some { s with d := { s.d with l1Head := h } }
  | .cancel => some { s with d := { s.d with ctxDone := true } }
  | .start =>
    -- Start (driver.go:109-114): d.wg.Add(1); go d.eventLoop()
    if s.pc = .notStarted then
      some { s with d := { s.d with wg := s.d.wg + 1 }, pc := .startup }
    else none
  | .closeState =>
    -- Close (driver.go:118): d.state.Close()
    if s.closePc = .notCalled then
      some { s with d := { s.d with stateClosed := true }, closePc := .waiting,
                    trace := s.trace ++ [Obs.stateClose] }
    else none
  | .closeWait =>
    -- Close (driver.go:119): d.wg.Wait() returns once the counter is zero
    if s.closePc = .waiting ∧ s.d.wg = 0 then
      some { s with closePc := .closed, trace := s.trace ++ [Obs.wgWaitReturn] }
    else none
  | .startupPass =>
    -- driver.go:144
    if s.pc = .startup then
      some { s with pc := .retrying, trace := s.trace ++ [Obs.passStart] }
    else none
  | .attempt r elapsed next =>
    if s.pc = .retrying then some (attemptStep s r elapsed next) else none
  | .selCtxDone =>
    -- driver.go:148-149, then the deferred d.wg.Done()
    if s.pc = .selecting ∧ s.d.ctxDone = true then
      some { s with d := { s.d with wg := s.d.wg - 1 }, pc := .returned,
                    trace := s.trace ++ [Obs.loopReturn] }
    else none
  | .selSyncNotify =>
    -- driver.go:150-151
    if s.pc = .selecting then
      match s.d.syncNotify.recv? with
      | some (_, c) =>
        some { s with d := { s.d with syncNotify := c }, pc := .retrying,
                      trace := s.trace ++ [Obs.recvSyncNotify, Obs.passStart] }
      | none => none
    else none
  | .selL1Head =>
    -- driver.go:152-153
    if s.pc = .selecting then
      match s.d.l1HeadCh.recv? with
      | some (h, c) =>
        some { s with d := reqSync { s.d with l1HeadCh := c },
                      trace := s.trace ++ [Obs.recvHead h] }
      | none => none
    else none

/-- Run a list of steps; `none` as soon as one is not enabled. -/
def run : List Step → LoopState → Option LoopState
  | [], s => some s
  | st :: rest, s =>
    match step st s with
    | some s' => run rest s'
    | none => none

/-- Channels and context as `InitFromConfig` leaves them (driver.go:55-58),
before `Start`. -/
def initDriver (ctxDone : Bool) (l1Head : Header) : Driver :=
  { l1HeadCh := Chan.make Header l1HeadChCap
    syncNotify := Chan.make Unit syncNotifyCap
    ctxDone := ctxDone
    l1Head := l1Head
    wg := 0
    stateClosed := false }

/-- State after a successful `InitFromConfig`. -/
def initState (ctxDone : Bool) (l1Head : Header) : LoopState :=
  { d := initDriver ctxDone l1Head, pc := .notStarted, closePc := .notCalled, trace := [] }

/-- A step of the `eventLoop` goroutine (as opposed to the environment or
the callers of `Start` and `Close`). -/
def Step.isLoop : Step → Bool
  | .startupPass => true
  | .attempt _ _ _ => true
  | .selCtxDone => true
  | .selSyncNotify => true
  | .selL1Head => true
  | _ => false

/-- A step that executes the `select` statement. -/
def Step.isSelect : Step → Bool
  | .selCtxDone => true
  | .selSyncNotify => true
  | .selL1Head => true
  | _ => false

/-- Number of sync passes started (`doSyncWithBackoff` invocations). -/
def passes (t : List Obs) : Nat := t.count Obs.passStart

/-- The observation is the receipt of a head notification. -/
def Obs.isRecvHead : Obs → Bool
  | .recvHead _ => true
  | _ => false

/-- The observation is the end of a sync pass. -/
def Obs.isPassEnd : Obs → Bool
  | .passEnd _ => true
  | _ => false

/-- Number of head notifications consumed from `l1HeadCh`. -/
def headsConsumed (t : List Obs) : Nat := t.countP Obs.isRecvHead

/-- Number of sync requests consumed from `syncNotify`. -/
def notifiesConsumed (t : List Obs) : Nat := t.count Obs.recvSyncNotify

/-- Number of sync passes that have ended (`doSyncWithBackoff` returned). -/
def passesEnded (t : List Obs) : Nat := t.countP Obs.isPassEnd

/-- Targets handed to `L2ChainSyncer.Sync`, oldest first. -/
def targets : List Obs → List Header
  | [] => []
  | Obs.syncCall h :: t => h :: targets t
  | _ :: t => targets t

/-- The loop is blocked in `select`: no case is ready. -/
def quiescent (s : LoopState) : Prop :=
  s.pc = .selecting ∧ s.d.syncNotify.buf = [] ∧ s.d.l1HeadCh.buf = [] ∧ s.d.ctxDone = false

instance (s : LoopState) : Decidable (quiescent s) := by
  unfold quiescent; infer_instance

/-- The slot invariant of `syncNotify`: capacity 1, never over-full. -/
def SlotInv (s : LoopState) : Prop :=
  s.d.syncNotify.cap = syncNotifyCap ∧ s.d.syncNotify.buf.length ≤ syncNotifyCap

/-- What an enabled step requires of the state it starts in, and the state it
produces. -/
def StepEffect (st : Step) (s s' : LoopState) : Prop :=
  match st with
  | .headArrives h =>
    s.d.l1HeadCh.buf.length < s.d.l1HeadCh.cap ∧
    s' = { s with d := { s.d with l1HeadCh := { s.d.l1HeadCh with buf := s.d.l1HeadCh.buf ++ [h] } } }
  | .l1HeadUpdated h => s' = { s with d := { s.d with l1Head := h } }
  | .cancel => s' = { s with d := { s.d with ctxDone := true } }
  | .start => s.pc = .notStarted ∧ s' = { s with d := { s.d with wg := s.d.wg + 1 }, pc := .startup }
  | .closeState =>
    s.closePc = .notCalled ∧
    s' = { s with d := { s.d with stateClosed := true }, closePc := .waiting,
                  trace := s.trace ++ [Obs.stateClose] }
  | .closeWait =>
    s.closePc = .waiting ∧ s.d.wg = 0 ∧
    s' = { s with closePc := .closed, trace := s.trace ++ [Obs.wgWaitReturn] }
  | .startupPass =>
    s.pc = .startup ∧ s' = { s with pc := .retrying, trace := s.trace ++ [Obs.passStart] }
  | .attempt r e n => s.pc = .retrying ∧ s' = attemptStep s r e n
  | .selCtxDone =>
    s.pc = .selecting ∧ s.d.ctxDone = true ∧
    s' = { s with d := { s.d with wg := s.d.wg - 1 }, pc := .returned,
                  trace := s.trace ++ [Obs.loopReturn] }
  | .selSyncNotify =>
    s.pc = .selecting ∧ ∃ c : Chan Unit, s.d.syncNotify.buf = () :: c.buf ∧ c.cap = s.d.syncNotify.cap ∧
    s' = { s with d := { s.d with syncNotify := c }, pc := .retrying,
                  trace := s.trace ++ [Obs.recvSyncNotify, Obs.passStart] }
  | .selL1Head =>
    s.pc = .selecting ∧ ∃ (h : Header) (c : Chan Header),
      s.d.l1HeadCh.buf = h :: c.buf ∧ c.cap = s.d.l1HeadCh.cap ∧
      s' = { s with d := reqSync { s.d with l1HeadCh := c }, trace := s.trace ++ [Obs.recvHead h] }

/-! ## Invariants, erasures and sample states used by the theorems -/

/-- Invariant behind the coalescing bounds: `p0` passes had been started and
`N` notifications were queued when the loop was left to itself. -/
def CoalesceInv (N p0 : Nat) (s : LoopState) : Prop :=
  s.d.ctxDone = false ∧ (s.pc = .retrying ∨ s.pc = .selecting) ∧
  s.d.syncNotify.cap = syncNotifyCap ∧
  passes s.trace + s.d.syncNotify.buf.length + s.d.l1HeadCh.buf.length ≤ p0 + N ∧
  ((s.d.l1HeadCh.buf.length = N ∧ s.d.syncNotify.buf = [] ∧ passes s.trace = p0) ∨
    p0 + 1 ≤ passes s.trace + s.d.syncNotify.buf.length)

/-- A state in which a sync pass is in flight and two notifications have
arrived meanwhile: reached from a fresh driver by `Start`, the startup pass
beginning, and two heads being delivered. -/
def burstState : Option LoopState :=
  run [.start, .startupPass, .headArrives ⟨7, 70⟩, .headArrives ⟨8, 80⟩] (initState false ⟨6, 60⟩)

/-- Loop-only schedule in which `select` takes the pending sync request
before the second queued notification. -/
def burstSchedule : List Step :=
  [.attempt none 0 0, .selL1Head, .selSyncNotify, .attempt none 0 0,
   .selL1Head, .selSyncNotify, .attempt none 0 0]

/-- State with one notification queued while the startup pass is in flight. -/
def oneHeadState : LoopState :=
  { d := { l1HeadCh := ⟨[⟨7, 70⟩], l1HeadChCap⟩, syncNotify := ⟨[], syncNotifyCap⟩,
           ctxDone := false, l1Head := ⟨7, 70⟩, wg := 1, stateClosed := false }
    pc := .retrying, closePc := .notCalled, trace := [Obs.passStart] }

/-- State `oneHeadState` after the loop has handled the notification. -/
def oneHeadEnd : LoopState :=
  { d := { l1HeadCh := ⟨[], l1HeadChCap⟩, syncNotify := ⟨[], syncNotifyCap⟩,
           ctxDone := false, l1Head := ⟨7, 70⟩, wg := 1, stateClosed := false }
    pc := .selecting, closePc := .notCalled
    trace := [Obs.passStart, Obs.syncCall ⟨7, 70⟩, Obs.passEnd none, Obs.recvHead ⟨7, 70⟩,
      Obs.recvSyncNotify, Obs.passStart, Obs.syncCall ⟨7, 70⟩, Obs.passEnd none] }

/-- Schedule that consumes two notifications in a row after the startup
pass. -/
def drainSchedule : List Step :=
  [.start, .startupPass, .headArrives ⟨7, 70⟩, .headArrives ⟨8, 80⟩, .attempt none 0 0,
   .selL1Head, .selL1Head]

/-- State reached by `drainSchedule` from a fresh driver. -/
def twoHeadsDrained : LoopState :=
  { d := { l1HeadCh := ⟨[], 1024⟩, syncNotify := ⟨[()], 1⟩, ctxDone := false,
           l1Head := ⟨6, 60⟩, wg := 1, stateClosed := false }
    pc := .selecting, closePc := .notCalled
    trace := [Obs.passStart, Obs.syncCall ⟨6, 60⟩, Obs.passEnd none, Obs.recvHead ⟨7, 70⟩,
      Obs.recvHead ⟨8, 80⟩] }

/-- Invariant of runs that have not yet executed the `select`. -/
def StartupInv (s : LoopState) : Prop :=
  (match s.pc with
    | .notStarted => passes s.trace = 0 ∧ passesEnded s.trace = 0
    | .startup => passes s.trace = 0 ∧ passesEnded s.trace = 0
    | .retrying => passes s.trace = 1 ∧ passesEnded s.trace = 0
    | .selecting => passes s.trace = 1 ∧ passesEnded s.trace = 1
    | .returned => False) ∧
  headsConsumed s.trace = 0 ∧ notifiesConsumed s.trace = 0 ∧ Obs.loopReturn ∉ s.trace ∧
  s.d.syncNotify.buf = []

/-- State of a driver whose context was cancelled before `Start`, after the
startup pass. -/
def cancelledAfterStartup : LoopState :=
  { d := { l1HeadCh := ⟨[⟨7, 70⟩], 1024⟩, syncNotify := ⟨[], 1⟩, ctxDone := true,
           l1Head := ⟨6, 60⟩, wg := 1, stateClosed := false }
    pc := .selecting, closePc := .notCalled
    trace := [Obs.passStart, Obs.ctxErrSeen, Obs.passEnd none] }

/-- State `cancelledAfterStartup` after the `select` took the cancellation
case. -/
def cancelledReturned : LoopState :=
  { d := { l1HeadCh := ⟨[⟨7, 70⟩], 1024⟩, syncNotify := ⟨[], 1⟩, ctxDone := true,
           l1Head := ⟨6, 60⟩, wg := 0, stateClosed := false }
    pc := .returned, closePc := .notCalled
    trace := [Obs.passStart, Obs.ctxErrSeen, Obs.passEnd none, Obs.loopReturn] }

/-- The goroutine of `eventLoop` exists and has not returned. -/
def loopRunning (s : LoopState) : Prop :=
  s.pc = .startup ∨ s.pc = .retrying ∨ s.pc = .selecting

instance (s : LoopState) : Decidable (loopRunning s) := by
  unfold loopRunning; infer_instance

/-- Number of `eventLoop` goroutines that have been added to the wait group
and have not yet called `Done`. -/
def liveLoops : Pc → Nat
  | .notStarted => 0
  | .startup => 1
  | .retrying => 1
  | .selecting => 1
  | .returned => 0

/-- Invariant tying the wait-group counter to the loop and the trace to the
progress of `Close`. -/
def CloseInv (s : LoopState) : Prop :=
  s.d.wg = liveLoops s.pc ∧
  (s.closePc ≠ .notCalled → s.d.stateClosed = true ∧ Obs.stateClose ∈ s.trace) ∧
  (Obs.wgWaitReturn ∈ s.trace → s.closePc = .closed)

/-- State of a driver that was started, cancelled, whose loop has returned,
and on which `Close` has called `State.Close`. -/
def closingState : LoopState :=
  { d := { l1HeadCh := ⟨[], 1024⟩, syncNotify := ⟨[], 1⟩, ctxDone := true,
           l1Head := ⟨6, 60⟩, wg := 0, stateClosed := true }
    pc := .returned, closePc := .waiting
    trace := [Obs.passStart, Obs.syncCall ⟨6, 60⟩, Obs.passEnd none, Obs.stateClose,
      Obs.loopReturn] }

/-- Steps in which `doSync` fails once for each listed error; every entry
carries the error, the elapsed time read by the policy and the randomized
interval. -/
def failingAttempts (errs : List (GoError × Nat × Nat)) : List Step :=
  errs.map fun x => Step.attempt (some x.1) x.2.1 x.2.2

/-- A transient error met 16 minutes after the pass began. -/
def lateTimeout : Step :=
  .attempt (some ⟨.transient, "rpc timeout", false⟩) (16 * 60 * 1000000000) 500000000

/-- Modelled from the spec: the error the missing `L2ChainSyncer.Sync` returns
when no common ancestor lies within `MaxReorgDepth`, which section 4.2 calls a
non-retriable error surfaced to the Orchestrator.  The driver hands every error
of `Sync` to `backoff.Retry` unchanged (driver.go:138, 170-173), and the only
errors `backoff.Retry` does not retry are those made with `backoff.Permanent`;
so the error is one of these. -/
def deepReorgError : GoError := ⟨.deepReorg, "no common ancestor within MaxReorgDepth", true⟩

/-- Replace the payload of a delivered notification by a fixed header. -/
def Step.forgetPayload : Step → Step
  | .headArrives _ => .headArrives default
  | st => st

/-- Replace the payload of a received notification by a fixed header. -/
def Obs.forgetPayload : Obs → Obs
  | .recvHead _ => .recvHead default
  | o => o

/-- Replace every notification payload in the state, queued or recorded, by a
fixed header. -/
def LoopState.forgetPayloads (s : LoopState) : LoopState :=
  { s with d := { s.d with l1HeadCh := { s.d.l1HeadCh with
                    buf := s.d.l1HeadCh.buf.map fun _ => default } },
           trace := s.trace.map Obs.forgetPayload }

/-! ## `rpc.NewClient` (pkg/rpc/client.go) -/

/-- Struct `ClientConfig` (client.go:34-41). -/
structure ClientConfig where
  L1Endpoint : String
  L2Endpoint : String
  TaikoL1Address : Nat
  TaikoL2Address : Nat
  L2EngineEndpoint : String
  JwtSecret : String
deriving DecidableEq, Repr

/-- Struct `Client` (client.go:14-29).  Client handles are numbers; the
pointer `L2Engine` may be nil. -/
structure Client where
  L1 : Nat
  L2 : Nat
  L1RawRPC : Nat
  L2RawRPC : Nat
  L2Engine : Option Nat
  TaikoL1 : Nat
  TaikoL2 : Nat
  L1ChainID : Nat
  L2ChainID : Nat
deriving DecidableEq, Repr

/-- Outcomes of the calls `NewClient` makes outside this file: dialing,
contract bindings, chain-id fetches and the genesis check. -/
structure RpcWorld where
  dialClient : String → Except GoError Nat
  newTaikoL1Client : Nat → Nat → Except GoError Nat
  newV1TaikoL2Client : Nat → Nat → Except GoError Nat
  rawDial : String → Except GoError Nat
  chainID : Nat → Except GoError Nat
  dialEngine : String → String → Except GoError Nat
  ensureGenesisMatched : Client → Option GoError

/-- Calls made by `NewClient`, in order. -/
inductive RpcCall
  | dialClient (endpoint : String)
  | newTaikoL1Client (address : Nat)
  | newV1TaikoL2Client (address : Nat)
  | rawDial (endpoint : String)
  | chainID (client : Nat)
  | dialEngine (endpoint jwtSecret : String)
  | ensureGenesisMatched
deriving DecidableEq, Repr

/-- Result pair `(*Client, error)` of `NewClient`, with the calls made. -/
structure NewClientResult where
  client : Option Client
  err : Option GoError
  calls : List RpcCall
deriving DecidableEq, Repr

/-- Lines 95-111 of `NewClient`: build the client, check the genesis. -/
def NewClient.finish (w : RpcWorld) (client : Client) (calls : List RpcCall) : NewClientResult :=
  match w.ensureGenesisMatched client with
  | some err => ⟨none, some err, calls ++ [.ensureGenesisMatched]⟩
  | none => ⟨some client, none, calls ++ [.ensureGenesisMatched]⟩

/-- Function `NewClient` (client.go:44-112). -/
def NewClient (w : RpcWorld) (cfg : ClientConfig) : NewClientResult :=
  match w.dialClient cfg.L1Endpoint with
  | .error err => ⟨none, some err, [.dialClient cfg.L1Endpoint]⟩
  | .ok l1RPC =>
  match w.newTaikoL1Client cfg.TaikoL1Address l1RPC with
  | .error err => ⟨none, some err, [.dialClient cfg.L1Endpoint, .newTaikoL1Client cfg.TaikoL1Address]⟩
  | .ok taikoL1 =>
  match w.dialClient cfg.L2Endpoint with
  | .error err =>
    ⟨none, some err, [.dialClient cfg.L1Endpoint, .newTaikoL1Client cfg.TaikoL1Address,
      .dialClient cfg.L2Endpoint]⟩
  | .ok l2RPC =>
  match w.newV1TaikoL2Client cfg.TaikoL2Address l2RPC with
  | .error err =>
    ⟨none, some err, [.dialClient cfg.L1Endpoint, .newTaikoL1Client cfg.TaikoL1Address,
      .dialClient cfg.L2Endpoint, .newV1TaikoL2Client cfg.TaikoL2Address]⟩
  | .ok taikoL2 =>
  match w.rawDial cfg.L1Endpoint with
  | .error err =>
    ⟨none, some err, [.dialClient cfg.L1Endpoint, .newTaikoL1Client cfg.TaikoL1Address,
      .dialClient cfg.L2Endpoint, .newV1TaikoL2Client cfg.TaikoL2Address,
      .rawDial cfg.L1Endpoint]⟩
  | .ok l1RawRPC =>
  match w.rawDial cfg.L2Endpoint with
  | .error err =>
    ⟨none, some err, [.dialClient cfg.L1Endpoint, .newTaikoL1Client cfg.TaikoL1Address,
      .dialClient cfg.L2Endpoint, .newV1TaikoL2Client cfg.TaikoL2Address,
      .rawDial cfg.L1Endpoint, .rawDial cfg.L2Endpoint]⟩
  | .ok l2RawRPC =>
  match w.chainID l1RPC with
  | .error err =>
    ⟨none, some err, [.dialClient cfg.L1Endpoint, .newTaikoL1Client cfg.TaikoL1Address,
      .dialClient cfg.L2Endpoint, .newV1TaikoL2Client cfg.TaikoL2Address,
      .rawDial cfg.L1Endpoint, .rawDial cfg.L2Endpoint, .chainID l1RPC]⟩
  | .ok l1ChainID =>
  match w.chainID l2RPC with
  | .error err =>
    ⟨none, some err, [.dialClient cfg.L1Endpoint, .newTaikoL1Client cfg.TaikoL1Address,
      .dialClient cfg.L2Endpoint, .newV1TaikoL2Client cfg.TaikoL2Address,
      .rawDial cfg.L1Endpoint, .rawDial cfg.L2Endpoint, .chainID l1RPC, .chainID l2RPC]⟩
  | .ok l2ChainID =>
  let calls : List RpcCall :=
    [.dialClient cfg.L1Endpoint, .newTaikoL1Client cfg.TaikoL1Address,
      .dialClient cfg.L2Endpoint, .newV1TaikoL2Client cfg.TaikoL2Address,
      .rawDial cfg.L1Endpoint, .rawDial cfg.L2Endpoint, .chainID l1RPC, .chainID l2RPC]
  if cfg.L2EngineEndpoint.length ≠ 0 ∧ cfg.JwtSecret.length ≠ 0 then
    match w.dialEngine cfg.L2EngineEndpoint cfg.JwtSecret with
    | .error err =>
      ⟨none, some err, calls ++ [.dialEngine cfg.L2EngineEndpoint cfg.JwtSecret]⟩
    | .ok l2AuthRPC =>
      NewClient.finish w
        { L1 := l1RPC, L2 := l2RPC, L1RawRPC := l1RawRPC, L2RawRPC := l2RawRPC,
          L2Engine := some l2AuthRPC, TaikoL1 := taikoL1, TaikoL2 := taikoL2,
          L1ChainID := l1ChainID, L2ChainID := l2ChainID }
        (calls ++ [.dialEngine cfg.L2EngineEndpoint cfg.JwtSecret])
  else
    NewClient.finish w
      { L1 := l1RPC, L2 := l2RPC, L1RawRPC := l1RawRPC, L2RawRPC := l2RawRPC,
        L2Engine := none, TaikoL1 := taikoL1, TaikoL2 := taikoL2,
        L1ChainID := l1ChainID, L2ChainID := l2ChainID }
      calls

/-- The call is a dial of the engine API client. -/
def RpcCall.isDialEngine : RpcCall → Bool
  | .dialEngine _ _ => true
  | _ => false

/-- The eight steps of `NewClient` before the engine guard (client.go:45-83)
all succeed. -/
def reachesEngineGuard (w : RpcWorld) (cfg : ClientConfig) : Prop :=
  ∃ l1RPC taikoL1 l2RPC taikoL2 l1RawRPC l2RawRPC l1ChainID l2ChainID,
    w.dialClient cfg.L1Endpoint = .ok l1RPC ∧
    w.newTaikoL1Client cfg.TaikoL1Address l1RPC = .ok taikoL1 ∧
    w.dialClient cfg.L2Endpoint = .ok l2RPC ∧
    w.newV1TaikoL2Client cfg.TaikoL2Address l2RPC = .ok taikoL2 ∧
    w.rawDial cfg.L1Endpoint = .ok l1RawRPC ∧
    w.rawDial cfg.L2Endpoint = .ok l2RawRPC ∧
    w.chainID l1RPC = .ok l1ChainID ∧
    w.chainID l2RPC = .ok l2ChainID

/-- A world in which every call succeeds. -/
def healthyRpcWorld : RpcWorld :=
  { dialClient := fun ep => .ok ep.length
    newTaikoL1Client := fun a _ => .ok a
    newV1TaikoL2Client := fun a _ => .ok a
    rawDial := fun ep => .ok (ep.length + 100)
    chainID := fun c => .ok (c + 1000)
    dialEngine := fun ep _ => .ok (ep.length + 200)
    ensureGenesisMatched := fun _ => none }

/-- A configuration without engine endpoint and without JWT secret. -/
def noEngineConfig : ClientConfig :=
  { L1Endpoint := "ws://l1", L2Endpoint := "ws://l2node", TaikoL1Address := 1, TaikoL2Address := 2,
    L2EngineEndpoint := "", JwtSecret := "" }

/-! ## `InitFromConfig` (driver/driver.go) -/

/-- Fields of the driver's `Config` that `InitFromConfig` reads. -/
structure Config where
  L1Endpoint : String
  L2Endpoint : String
  TaikoL1Address : Nat
  TaikoL2Address : Nat
  L2EngineEndpoint : String
  JwtSecret : String
  ThrowawayBlocksBuilderPrivKey : Nat
  P2PSyncVerifiedBlocks : Bool
deriving DecidableEq, Repr

/-- The arguments `NewL2ChainSyncer` was given, which is all the driver knows
of the syncer it holds. -/
structure L2ChainSyncer where
  throwawayBlocksBuilderPrivKey : Nat
  p2pSyncVerifiedBlocks : Bool
deriving DecidableEq, Repr

/-- Outcomes of the calls `InitFromConfig` makes outside driver.go.  The
`*rpc.Client` pointer is passed on as it is, nil or not; `newState` yields the
L1 head the new `State` starts with. -/
structure InitWorld where
  rpc : RpcWorld
  newState : Option Client → Except GoError Header
  pubkeyToAddress : Nat → Nat
  balanceAt : Option Client → Nat → Except GoError Int
  peerCount : Option Client → Except GoError Nat
  newL2ChainSyncer : Option Client → Header → Nat → Bool → Option GoError

/-- Calls made by `InitFromConfig`, in order. -/
inductive InitCall
  | rpcNewClient
  | newState
  | balanceAt (address : Nat)
  | peerCount
  | logWarn
  | newL2ChainSyncer (privKey : Nat) (p2pSyncVerifiedBlocks : Bool)
  | subL1HeadsFeed
deriving DecidableEq, Repr

/-- Fields of `Driver` as `InitFromConfig` leaves them.  `state` holds the L1
head of the `State`; `l1HeadSub` says whether the subscription exists. -/
structure DriverFields where
  rpc : Option Client
  state : Option Header
  l2ChainSyncer : Option L2ChainSyncer
  l1HeadSub : Bool
  l1HeadCh : Chan Header
  syncNotify : Chan Unit
  ctxDone : Bool
  wg : Nat
deriving DecidableEq, Repr

/-- Returned error of `InitFromConfig`, the driver it filled in, and the calls
it made. -/
structure InitResult where
  err : Option GoError
  d : DriverFields
  calls : List InitCall
deriving DecidableEq, Repr

/-- Error built by `fmt.Errorf(msg + ": %w", err)`: the message is extended,
the wrapped error stays reachable for `errors.As`. -/
def wrapError (msg : String) (err : GoError) : GoError :=
  { err with msg := msg ++ ": " ++ err.msg }

/-- Error returned at driver.go:81. -/
def noFundError : GoError := ⟨.construction, "throwaway blocks builder has no fund", false⟩

/-- The `rpc.ClientConfig` literal built at driver.go:60-67. -/
def clientConfigOf (cfg : Config) : ClientConfig :=
  { L1Endpoint := cfg.L1Endpoint, L2Endpoint := cfg.L2Endpoint,
    TaikoL1Address := cfg.TaikoL1Address, TaikoL2Address := cfg.TaikoL2Address,
    L2EngineEndpoint := cfg.L2EngineEndpoint, JwtSecret := cfg.JwtSecret }

/-- Function `InitFromConfig` (driver.go:52-106). -/
def InitFromConfig (w : InitWorld) (ctxDone : Bool) (cfg : Config) : InitResult :=
  let d0 : DriverFields :=
    { rpc := none, state := none, l2ChainSyncer := none, l1HeadSub := false,
      l1HeadCh := Chan.make Header l1HeadChCap, syncNotify := Chan.make Unit syncNotifyCap,
      ctxDone := ctxDone, wg := 0 }
  let nc := NewClient w.rpc (clientConfigOf cfg)
  let d1 := { d0 with rpc := nc.client }
  match nc.err with
  | some err => ⟨some err, d1, [.rpcNewClient]⟩
  | none =>
  match w.newState d1.rpc with
  | .error err => ⟨some err, d1, [.rpcNewClient, .newState]⟩
  | .ok st =>
  let d2 := { d1 with state := some st }
  let address := w.pubkeyToAddress cfg.ThrowawayBlocksBuilderPrivKey
  match w.balanceAt d2.rpc address with
  | .error err =>
    ⟨some (wrapError "failed to get throwaway blocks builder balance" err), d2,
      [.rpcNewClient, .newState, .balanceAt address]⟩
  | .ok balance =>
  if balance = 0 then
    ⟨some noFundError, d2, [.rpcNewClient, .newState, .balanceAt address]⟩
  else
  match w.peerCount d2.rpc with
  | .error err => ⟨some err, d2, [.rpcNewClient, .newState, .balanceAt address, .peerCount]⟩
  | .ok peers =>
  let warn : List InitCall :=
    if cfg.P2PSyncVerifiedBlocks = true ∧ peers = 0 then [.logWarn] else []
  let calls : List InitCall :=
    [.rpcNewClient, .newState, .balanceAt address, .peerCount] ++ warn ++
      [.newL2ChainSyncer cfg.ThrowawayBlocksBuilderPrivKey cfg.P2PSyncVerifiedBlocks]
  match w.newL2ChainSyncer d2.rpc st cfg.ThrowawayBlocksBuilderPrivKey
      cfg.P2PSyncVerifiedBlocks with
  | some err => ⟨some err, d2, calls⟩
  | none =>
    ⟨none,
      { d2 with l2ChainSyncer :=
                  some ⟨cfg.ThrowawayBlocksBuilderPrivKey, cfg.P2PSyncVerifiedBlocks⟩,
                l1HeadSub := true },
      calls ++ [.subL1HeadsFeed]⟩

/-- A world in which every call succeeds, the builder's balance being given. -/
def healthyInitWorld (balance : Int) (peers : Nat) : InitWorld :=
  { rpc := healthyRpcWorld
    newState := fun _ => .ok ⟨6, 60⟩
    pubkeyToAddress := fun k => k + 1
    balanceAt := fun _ _ => .ok balance
    peerCount := fun _ => .ok peers
    newL2ChainSyncer := fun _ _ _ _ => none }

/-- A driver configuration with an engine endpoint and peer-assisted sync. -/
def sampleConfig : Config :=
  { L1Endpoint := "ws://l1", L2Endpoint := "ws://l2node", TaikoL1Address := 1, TaikoL2Address := 2,
    L2EngineEndpoint := "http://engine", JwtSecret := "secret",
    ThrowawayBlocksBuilderPrivKey := 41, P2PSyncVerifiedBlocks := true }

/-! ## `TaikoL1ClientCaller.State` (bindings/gen_taiko_l1.go) -/

/-- The anonymous struct returned by `TaikoL1ClientCaller.State`
(gen_taiko_l1.go:674-680); the fields are `uint64` values. -/
structure ChainState where
  StatusBits : Nat
  GenesisHeight : Nat
  LatestVerifiedHeight : Nat
  LatestVerifiedId : Nat
  NextBlockId : Nat
deriving DecidableEq, Repr

/-- What `_TaikoL1Client.contract.Call(opts, &out, "state")` leaves behind:
the returned error and the decoded outputs stored in `out`. -/
structure CallOutcome where
  err : Option GoError
  out : List Nat
deriving DecidableEq, Repr

/-- The zero value `*new(struct{...})` of the result struct. -/
def ChainState.zero : ChainState := ⟨0, 0, 0, 0, 0⟩

/-- Method `TaikoL1ClientCaller.State` (gen_taiko_l1.go:674-703).  The result
is `none` when an index `out[i]` is out of range, which panics in Go. -/
def TaikoL1ClientCaller.State (call : CallOutcome) : Option (ChainState × Option GoError) :=
  match call.err with
  | some err => some (ChainState.zero, some err)
  | none =>
    match call.out[0]?, call.out[1]?, call.out[2]?, call.out[3]?, call.out[4]? with
    | some o0, some o1, some o2, some o3, some o4 =>
      some ({ StatusBits := o0, GenesisHeight := o1, LatestVerifiedHeight := o2,
              LatestVerifiedId := o3, NextBlockId := o4 }, none)
    | _, _, _, _, _ => none

/-! ## The `BlockProposed` log iterator (bindings/gen_taiko_l1.go) -/

/-- A raw contract log, `types.Log`, reduced to what identifies it. -/
structure Log where
  blockNumber : Nat
  index : Nat
  topics : List Nat
  data : List Nat
deriving DecidableEq, Repr

/-- Struct `LibDataBlockMetadata` (gen_taiko_l1.go:32-44); hashes and
addresses are numbers. -/
structure LibDataBlockMetadata where
  Id : Nat
  L1Height : Nat
  L1Hash : Nat
  Beneficiary : Nat
  TxListHash : Nat
  MixHash : Nat
  ExtraData : List Nat
  GasLimit : Nat
  Timestamp : Nat
  CommitHeight : Nat
  CommitSlot : Nat
deriving DecidableEq, Repr

/-- Struct `TaikoL1ClientBlockProposed` (gen_taiko_l1.go:1144-1148). -/
structure TaikoL1ClientBlockProposed where
  Id : Nat
  Meta : LibDataBlockMetadata
  Raw : Log
deriving DecidableEq, Repr

/-- The zero value `new(TaikoL1ClientBlockProposed)`. -/
def TaikoL1ClientBlockProposed.new : TaikoL1ClientBlockProposed :=
  { Id := 0
    Meta := ⟨0, 0, 0, 0, 0, 0, [], 0, 0, 0, 0⟩
    Raw := ⟨0, 0, [], []⟩ }

/-- The bound contract's `UnpackLog(out, "BlockProposed", log)`: given the
event to fill in and the log, the event as it is left and the returned
error.  The decoder itself lives outside the repository. -/
abbrev Unpacker := TaikoL1ClientBlockProposed → Log → TaikoL1ClientBlockProposed × Option GoError

/-- Struct `TaikoL1ClientBlockProposedIterator` (gen_taiko_l1.go:1079-1089).
`logs` is the content of the log channel, oldest first; `subErr` is what a
receive on `it.sub.Err()` would deliver now, if anything (`some none` is the
nil read from the channel closed at normal completion). -/
structure TaikoL1ClientBlockProposedIterator where
  Event : Option TaikoL1ClientBlockProposed
  logs : List Log
  subErr : Option (Option GoError)
  done : Bool
  fail : Option GoError
deriving DecidableEq, Repr

/-- The case Go's `select` takes when both the log channel and the error
channel are ready. -/
inductive Pick
  | log
  | err
deriving DecidableEq, Repr

/-- How a call of `Next` ends: it returns a boolean, leaving the iterator in
a new state after a number of calls of itself; or it blocks in the `select`
because neither channel is ready; or the evaluation ran out of fuel. -/
inductive NextResult
  | returned (more : Bool) (it : TaikoL1ClientBlockProposedIterator) (selfCalls : Nat)
  | blocked
  | outOfFuel
deriving DecidableEq, Repr

/-- What `return it.Next()` (gen_taiko_l1.go:1129) returns, given how the
inner call ended: the same, with one more call of itself on the count. -/
def NextResult.afterSelfCall : NextResult → NextResult
  | .returned more it n => .returned more it (n + 1)
  | r => r

/-- The body shared by both `case log := <-it.logs` branches of `Next`
(gen_taiko_l1.go:1102-1109 and 1117-1124): a fresh event is stored, the log is
unpacked into it, and on success the log becomes its `Raw`. -/
def deliverLog (unpack : Unpacker) (it : TaikoL1ClientBlockProposedIterator) (log : Log)
    (rest : List Log) : NextResult :=
  match unpack TaikoL1ClientBlockProposed.new log with
  | (ev, some err) => .returned false { it with logs := rest, Event := some ev, fail := some err } 0
  | (ev, none) => .returned true { it with logs := rest, Event := some { ev with Raw := log } } 0

/-- Method `Next` (gen_taiko_l1.go:1094-1130) with a bound on the depth of
its calls of itself. -/
def NextFuel (unpack : Unpacker) (pick : Pick) :
    Nat → TaikoL1ClientBlockProposedIterator → NextResult
  | 0, _ => .outOfFuel
  | fuel + 1, it =>
    if it.fail ≠ none then .returned false it 0
    else if it.done = true then
      match it.logs with
      | log :: rest => deliverLog unpack it log rest
      | [] => .returned false it 0
    else
      match it.logs, it.subErr with
      | [], none => .blocked
      | log :: rest, none => deliverLog unpack it log rest
      | [], some err =>
        (NextFuel unpack pick fuel { it with done := true, fail := err }).afterSelfCall
      | log :: rest, some err =>
        match pick with
        | .log => deliverLog unpack it log rest
        | .err =>
          (NextFuel unpack pick fuel { it with done := true, fail := err }).afterSelfCall

/-- Method `Next`: two levels are enough, the call of itself being made with
`done` set. -/
def TaikoL1ClientBlockProposedIterator.Next (unpack : Unpacker) (pick : Pick)
    (it : TaikoL1ClientBlockProposedIterator) : NextResult :=
  NextFuel unpack pick 2 it

/-- Method `Error` (gen_taiko_l1.go:1133-1135). -/
def TaikoL1ClientBlockProposedIterator.Error (it : TaikoL1ClientBlockProposedIterator) :
    Option GoError :=
  it.fail

/-- Moves around an iterator: a call of `Next`, the arrival of a log on the
log channel, the end of the subscription. -/
inductive IterStep
  | next (pick : Pick)
  | logArrives (log : Log)
  | subEnds (err : Option GoError)
deriving DecidableEq, Repr

/-- Run moves in order, collecting what each call of `Next` returned; `none`
when a call of `Next` blocks. -/
def runIter (unpack : Unpacker) :
    List IterStep → TaikoL1ClientBlockProposedIterator →
      Option (List Bool × TaikoL1ClientBlockProposedIterator)
  | [], it => some ([], it)
  | .logArrives log :: rest, it => runIter unpack rest { it with logs := it.logs ++ [log] }
  | .subEnds err :: rest, it =>
    runIter unpack rest { it with subErr := match it.subErr with
                                            | none => some err
                                            | some e => some e }
  | .next pick :: rest, it =>
    match it.Next unpack pick with
    | .returned more it' _ =>
      (runIter unpack rest it').map fun r => (more :: r.1, r.2)
    | _ => none

/-- Logs that arrive during a list of moves. -/
def arrivedLogs : List IterStep → List Log
  | [] => []
  | .logArrives log :: rest => log :: arrivedLogs rest
  | _ :: rest => arrivedLogs rest

/-- Number of calls of `Next` in a list of moves. -/
def nextCalls : List IterStep → Nat
  | [] => 0
  | .next _ :: rest => nextCalls rest + 1
  | _ :: rest => nextCalls rest

/-- A decoder that rejects logs without data and otherwise reads the id from
the first topic and the L1 height from the first data word. -/
def sampleUnpack : Unpacker := fun ev log =>
  match log.data with
  | [] => (ev, some ⟨.protocolViolation, "abi: cannot unmarshal empty data", false⟩)
  | h :: _ => ({ ev with Id := log.topics.headD 0,
                         Meta := { ev.Meta with Id := log.topics.headD 0, L1Height := h } }, none)

/-- The iterator `FilterBlockProposed` returns (gen_taiko_l1.go:1163), with
the given logs already queued. -/
def freshIterator (logs : List Log) : TaikoL1ClientBlockProposedIterator :=
  { Event := none, logs := logs, subErr := none, done := false, fail := none }

/-! ## Several event loops and outside callers of `Sync`

`Start` (driver.go:109-114) has no guard against a second call, and
`ChainSyncer` (driver.go:179-181) returns the syncer pointer.  Here every call
of `Start` adds a goroutine running `eventLoop` on the same driver, and a call
of `Sync` is split in its beginning and its end so that two of them can be
seen to overlap. -/

/-- Program counter of one `eventLoop` goroutine; `syncing` is the time
between `doSync` calling `d.l2ChainSyncer.Sync` and that call returning. -/
inductive FleetPc
  | startup
  | retrying
  | syncing
  | selecting
  | returned
deriving DecidableEq, Repr

/-- The driver, one program counter per started `eventLoop`, and the number
of `Sync` calls in flight made through the pointer `ChainSyncer` returned. -/
structure Fleet where
  d : Driver
  loops : List FleetPc
  outsideSyncs : Nat
deriving DecidableEq, Repr

/-- Step labels of the fleet; the index says which goroutine moves. -/
inductive FleetStep
  | start
  | headArrives (h : Header)
  | l1HeadUpdated (h : Header)
  | cancel
  | outsideSyncBegin
  | outsideSyncEnd
  | startupPass (i : Nat)
  | syncBegin (i : Nat)
  | skipSync (i : Nat)
  | syncEnd (i : Nat) (syncResult : Option GoError) (elapsed next : Nat)
  | selCtxDone (i : Nat)
  | selSyncNotify (i : Nat)
  | selL1Head (i : Nat)
deriving DecidableEq, Repr

/-- Move goroutine `i` from program counter `src` to `dst`, changing the
driver to `d`; `none` when goroutine `i` is not at `src`. -/
def Fleet.move (f : Fleet) (i : Nat) (src dst : FleetPc) (d : Driver) : Option Fleet :=
  if f.loops[i]? = some src then some { f with d := d, loops := f.loops.set i dst } else none

/-- Transition function of the fleet: `none` when the step is not enabled. -/
def fleetStep (st : FleetStep) (f : Fleet) : Option Fleet :=
  match st with
  | .start =>
    -- Start: d.wg.Add(1); go d.eventLoop()
    some { f with d := { f.d with wg := f.d.wg + 1 }, loops := f.loops ++ [.startup] }
  | .headArrives h =>
    (f.d.l1HeadCh.send? h).map fun c => { f with d := { f.d with l1HeadCh := c } }
  | .l1HeadUpdated h => some { f with d := { f.d with l1Head := h } }
  | .cancel => some { f with d := { f.d with ctxDone := true } }
  | .outsideSyncBegin => some { f with outsideSyncs := f.outsideSyncs + 1 }
  | .outsideSyncEnd =>
    if 0 < f.outsideSyncs then some { f with outsideSyncs := f.outsideSyncs - 1 } else none
  | .startupPass i => f.move i .startup .retrying f.d
  | .syncBegin i =>
    -- doSync: the context is not cancelled, Sync is called
    if f.d.ctxDone = false then f.move i .retrying .syncing f.d else none
  | .skipSync i =>
    -- doSync: the context is cancelled, nil is returned and the pass ends
    if f.d.ctxDone = true then f.move i .retrying .selecting f.d else none
  | .syncEnd i r elapsed next =>
    match retryIter NewExponentialBackOff r elapsed next with
    | .finished _ => f.move i .syncing .selecting f.d
    | .sleep _ => f.move i .syncing .retrying f.d
  | .selCtxDone i =>
    if f.d.ctxDone = true then f.move i .selecting .returned { f.d with wg := f.d.wg - 1 }
    else none
  | .selSyncNotify i =>
    match f.d.syncNotify.recv? with
    | some (_, c) => f.move i .selecting .retrying { f.d with syncNotify := c }
    | none => none
  | .selL1Head i =>
    match f.d.l1HeadCh.recv? with
    | some (_, c) => f.move i .selecting .selecting (reqSync { f.d with l1HeadCh := c })
    | none => none

/-- Run a list of fleet steps; `none` as soon as one is not enabled. -/
def fleetRun : List FleetStep → Fleet → Option Fleet
  | [], f => some f
  | st :: rest, f =>
    match fleetStep st f with
    | some f' => fleetRun rest f'
    | none => none

/-- The fleet after a successful `InitFromConfig`: no goroutine yet. -/
def initFleet (ctxDone : Bool) (l1Head : Header) : Fleet :=
  { d := initDriver ctxDone l1Head, loops := [], outsideSyncs := 0 }

/-- Number of invocations of `L2ChainSyncer.Sync` executing now. -/
def syncsInFlight (f : Fleet) : Nat := f.loops.count .syncing + f.outsideSyncs

/-! ## The Derivation Engine (`L2ChainSyncer.Sync`)

The driver only calls `L2ChainSyncer.Sync` (driver.go:170); its definition
lies outside the files embedded here.  The definitions of this section follow
sections 3, 4.2 and 6 of the specification.  The optional peer-assisted path
of step 4, which the specification calls an optimisation and not a correctness
requirement, is left out: blocks are always derived from L1 logs. -/

/-- Modelled from the spec: a derived L2 block as the missing
`L2ChainSyncer` keeps it, with the L1 height and L1 hash recorded from the
proposal's metadata (section 4.2, reorg detection). -/
structure L2Block where
  id : Nat
  hash : Nat
  parentHash : Nat
  l1Height : Nat
  l1Hash : Nat
  invalid : Bool
deriving DecidableEq, Repr

/-- Modelled from the spec: the execution payload of section 4.2 step 3c,
built by the missing `L2ChainSyncer`; `invalid` marks the placeholder of an
invalid block, which still consumes an id. -/
structure ExecutionPayload where
  id : Nat
  parentHash : Nat
  feeRecipient : Nat
  gasLimit : Nat
  timestamp : Nat
  extraData : List Nat
  invalid : Bool
deriving DecidableEq, Repr

/-- Modelled from the spec: the outcomes of resolving a proposal's
transaction-list commitment in the missing `L2ChainSyncer` (section 4.2 step
3b): resolved; unresolved with an invalid-block marker; unresolved without. -/
inductive CommitOutcome
  | resolved
  | invalidBlock
  | unresolved
deriving DecidableEq, Repr

/-- Modelled from the spec: the Chain Gateway operations of section 6 that the
missing `L2ChainSyncer.Sync` uses.  `getBlockProposedLogs lo hi` returns the
proposals of L1 heights `lo..hi` in canonical order; `canonicalHash` is a
fresh header fetch; `submitExecutionPayload` returns the hash of the new
block. -/
structure ChainGateway where
  getBlockProposedLogs : Nat → Nat → Except GoError (List LibDataBlockMetadata)
  canonicalHash : Nat → Nat
  resolveCommit : LibDataBlockMetadata → CommitOutcome
  submitExecutionPayload : ExecutionPayload → Except GoError Nat
  updateForkchoice : Nat → Option GoError

/-- Modelled from the spec: the control-plane calls the missing
`L2ChainSyncer.Sync` issues through the Chain Gateway, its side effects
(section 4.2, contract and reorg recovery). -/
inductive GatewayCall
  | submitPayload (p : ExecutionPayload)
  | forkchoice (headHash : Nat)
  | resetHead (id : Nat)
deriving DecidableEq, Repr

/-- Modelled from the spec: the state of the missing `L2ChainSyncer`
(section 3): the sync cursor, the derived chain (oldest first, genesis left
out), the optional fee-recipient override, and how many of the last derived
blocks reorg detection compares ("the last several"). -/
structure SyncerState where
  cursor : Nat
  genesisHash : Nat
  chain : List L2Block
  throwawayFeeRecipient : Option Nat
  checkDepth : Nat
deriving DecidableEq, Repr

/-- Modelled from the spec: what a call of the missing `L2ChainSyncer.Sync`
returns and leaves behind: the error, the new state, the control-plane calls
made. -/
structure SyncResult where
  err : Option GoError
  state : SyncerState
  effects : List GatewayCall
deriving DecidableEq, Repr

/-- Modelled from the spec: the id of the last block derived by the missing
`L2ChainSyncer`, 0 standing for genesis. -/
def SyncerState.lastId (st : SyncerState) : Nat :=
  match st.chain.getLast? with
  | some b => b.id
  | none => 0

/-- Modelled from the spec: the hash of the last block derived by the missing
`L2ChainSyncer`, the genesis hash when there is none (section 4.2 step 3c). -/
def SyncerState.lastHash (st : SyncerState) : Nat :=
  match st.chain.getLast? with
  | some b => b.hash
  | none => st.genesisHash

/-- Modelled from the spec: the error of the missing `L2ChainSyncer.Sync` on
an id gap or duplicate (section 4.2 step 3a, section 7). -/
def gapError : GoError := ⟨.protocolViolation, "proposal id is not the previous id plus one", false⟩

/-- Modelled from the spec: the error of the missing `L2ChainSyncer.Sync` on
a commitment that is unresolved and has no invalid-block marker (section 4.2
step 3b, section 7). -/
def unresolvedCommitError : GoError :=
  ⟨.protocolViolation, "transaction-list commitment unresolved", false⟩

/-- Modelled from the spec: step 3 of the algorithm of the missing
`L2ChainSyncer.Sync` for one proposal (section 4.2): validate the id, resolve
the commitment, build the payload on the previous block's hash, submit it and
make it canonical; any failure is returned to the caller. -/
def deriveBlock (g : ChainGateway) (st : SyncerState) (m : LibDataBlockMetadata) : SyncResult :=
  if m.Id ≠ st.lastId + 1 then ⟨some gapError, st, []⟩
  else
    match g.resolveCommit m with
    | .unresolved => ⟨some unresolvedCommitError, st, []⟩
    | outcome =>
      let payload : ExecutionPayload :=
        { id := m.Id, parentHash := st.lastHash,
          feeRecipient := st.throwawayFeeRecipient.getD m.Beneficiary,
          gasLimit := m.GasLimit, timestamp := m.Timestamp, extraData := m.ExtraData,
          invalid := decide (outcome = .invalidBlock) }
      match g.submitExecutionPayload payload with
      | .error e => ⟨some e, st, [.submitPayload payload]⟩
      | .ok hash =>
        match g.updateForkchoice hash with
        | some e => ⟨some e, st, [.submitPayload payload, .forkchoice hash]⟩
        | none =>
          ⟨none,
            { st with chain := st.chain ++
                [{ id := m.Id, hash := hash, parentHash := st.lastHash, l1Height := m.L1Height,
                   l1Hash := m.L1Hash, invalid := decide (outcome = .invalidBlock) }] },
            [.submitPayload payload, .forkchoice hash]⟩

/-- Modelled from the spec: step 3 of the missing `L2ChainSyncer.Sync` over
the fetched proposals, in order, stopping at the first failure (section
4.2). -/
def deriveAll (g : ChainGateway) : List LibDataBlockMetadata → SyncerState → SyncResult
  | [], st => ⟨none, st, []⟩
  | m :: rest, st =>
    match deriveBlock g st m with
    | ⟨some e, st1, eff⟩ => ⟨some e, st1, eff⟩
    | ⟨none, st1, eff⟩ =>
      match deriveAll g rest st1 with
      | ⟨err, st2, eff2⟩ => ⟨err, st2, eff ++ eff2⟩

/-- Modelled from the spec: steps 1 to 3 of the missing `L2ChainSyncer.Sync`
(section 4.2): an empty window `(cursor, target]` is a no-op; otherwise the
proposals of the window are fetched and derived, and on success the cursor
advances to the target's number.  A failed pass leaves the cursor where it
was. -/
def syncForward (g : ChainGateway) (st : SyncerState) (target : Header) : SyncResult :=
  if target.number ≤ st.cursor then ⟨none, st, []⟩
  else
    match g.getBlockProposedLogs (st.cursor + 1) target.number with
    | .error e => ⟨some e, st, []⟩
    | .ok events =>
      match deriveAll g events st with
      | ⟨some e, st1, eff⟩ => ⟨some e, st1, eff⟩
      | ⟨none, st1, eff⟩ => ⟨none, { st1 with cursor := target.number }, eff⟩

/-- Modelled from the spec: the trigger of the transition `Normal →
RollingBack` in the missing `L2ChainSyncer` (section 4.2): among the last
several derived blocks one records an L1 hash that differs from the canonical
hash now fetched for its L1 height. -/
def reorgDetected (g : ChainGateway) (st : SyncerState) : Bool :=
  (st.chain.reverse.take st.checkDepth).any fun b => decide (b.l1Hash ≠ g.canonicalHash b.l1Height)

/-- Modelled from the spec: in the missing `L2ChainSyncer`, the locally
recorded hash of L1 height `h` matches the canonical hash (section 4.2,
`RollingBack`). -/
def recordedMatch (g : ChainGateway) (st : SyncerState) (h : Nat) : Bool :=
  st.chain.any fun b => decide (b.l1Height = h ∧ b.l1Hash = g.canonicalHash h)

/-- Modelled from the spec: one batch of `ReorgRollbackDepth` heights of the
backward walk of the missing `L2ChainSyncer` (section 4.2), batch `k`
covering the depths `20k .. 20k+19` below the cursor. -/
def searchBatch (g : ChainGateway) (st : SyncerState) (k : Nat) : Option Nat :=
  (List.range ReorgRollbackDepth).findSome? fun j =>
    if k * ReorgRollbackDepth + j ≤ st.cursor ∧
        recordedMatch g st (st.cursor - (k * ReorgRollbackDepth + j)) = true then
      some (st.cursor - (k * ReorgRollbackDepth + j))
    else none

/-- Modelled from the spec: the backward walk of the missing `L2ChainSyncer`
in `RollingBack` (section 4.2): batch after batch from the cursor down, until
a matching height is found or `MaxReorgDepth` heights have been walked. -/
def findCommonAncestor (g : ChainGateway) (st : SyncerState) : Option Nat :=
  (List.range (MaxReorgDepth / ReorgRollbackDepth)).findSome? (searchBatch g st)

/-- Modelled from the spec: the rollback of the missing `L2ChainSyncer` to a
common ancestor (section 4.2): the cursor is set to that height and the
derived blocks above it are discarded. -/
def rollbackTo (st : SyncerState) (ancestor : Nat) : SyncerState :=
  { st with cursor := ancestor, chain := st.chain.filter fun b => decide (b.l1Height ≤ ancestor) }

/-- Modelled from the spec: the missing method `L2ChainSyncer.Sync` (section
4.2).  Reorg detection comes first; a detected reorg is recovered from by
rolling back to the common ancestor and resuming at step 1, or ends the call
with the deep-reorg error, the state untouched, when no ancestor lies within
`MaxReorgDepth`. -/
def Sync (g : ChainGateway) (st : SyncerState) (target : Header) : SyncResult :=
  if reorgDetected g st = true then
    match findCommonAncestor g st with
    | none => ⟨some deepReorgError, st, []⟩
    | some ancestor =>
      match syncForward g (rollbackTo st ancestor) target with
      | ⟨err, st1, eff⟩ => ⟨err, st1, .resetHead (rollbackTo st ancestor).lastId :: eff⟩
  else syncForward g st target

/-- Modelled from the spec: each block's parent hash is the hash of the block
before it, the first one's being `parent` (section 8, first property). -/
def chainedFrom (parent : Nat) : List L2Block → Prop
  | [] => True
  | b :: rest => b.parentHash = parent ∧ chainedFrom b.hash rest

/-- Ids of the payloads submitted among a list of control-plane calls. -/
def submittedIds : List GatewayCall → List Nat
  | [] => []
  | .submitPayload p :: rest => p.id :: submittedIds rest
  | _ :: rest => submittedIds rest

/-- A proposal with the given id, L1 height and L1 hash. -/
def proposalAt (id height l1Hash : Nat) : LibDataBlockMetadata :=
  { Id := id, L1Height := height, L1Hash := l1Hash, Beneficiary := 77, TxListHash := 0,
    MixHash := 0, ExtraData := [], GasLimit := 5000000, Timestamp := 1000 + height,
    CommitHeight := height - 1, CommitSlot := 0 }

/-- A gateway that serves the given proposals by L1 height, resolves every
commitment, accepts every payload (the block hash being 1000 plus the id) and
every forkchoice update; `canonicalHash` is given. -/
def gatewayOf (events : List LibDataBlockMetadata) (canonicalHash : Nat → Nat) : ChainGateway :=
  { getBlockProposedLogs := fun lo hi =>
      .ok (events.filter fun m => decide (lo ≤ m.L1Height ∧ m.L1Height ≤ hi))
    canonicalHash := canonicalHash
    resolveCommit := fun _ => .resolved
    submitExecutionPayload := fun p => .ok (1000 + p.id)
    updateForkchoice := fun _ => none }

/-- A syncer that has derived nothing yet, its cursor at L1 height 100. -/
def freshSyncer : SyncerState :=
  { cursor := 100, genesisHash := 999, chain := [], throwawayFeeRecipient := none, checkDepth := 3 }

/-- Canonical L1 hashes before the sample reorg: ten times the height. -/
def canonBefore (h : Nat) : Nat := 10 * h

/-- The state of `freshSyncer` after deriving proposals 1, 2 and 3 (L1
heights 101, 102, 104) up to L1 height 110. -/
def syncedTo110 : SyncerState :=
  { cursor := 110, genesisHash := 999
    chain := [⟨1, 1001, 999, 101, 1010, false⟩, ⟨2, 1002, 1001, 102, 1020, false⟩,
              ⟨3, 1003, 1002, 104, 1040, false⟩]
    throwawayFeeRecipient := none, checkDepth := 3 }

/-- Canonical L1 hashes after a reorg that replaced every block. -/
def canonReplaced (h : Nat) : Nat := 10 * h + 7

/-- Number of sync passes `eventLoop` starts without a pending request: the
startup pass, once the loop has reached it. -/
def startupPasses : Pc → Nat
  | .notStarted => 0
  | .startup => 0
  | .retrying => 1
  | .selecting => 1
  | .returned => 1

/-- Invariant behind the bound on sync passes: every pass but the startup
pass, and every pending request, is paid for by a consumed notification. -/
def PassInv (s : LoopState) : Prop :=
  passes s.trace + s.d.syncNotify.buf.length ≤ startupPasses s.pc + headsConsumed s.trace

/-- State reached from a fresh driver by `Start`, the startup pass, two heads
arriving during it, and then `burstSchedule`: three passes, two notifications
consumed. -/
def burstEnd : LoopState :=
  { d := { l1HeadCh := ⟨[], 1024⟩, syncNotify := ⟨[], 1⟩, ctxDone := false,
           l1Head := ⟨6, 60⟩, wg := 1, stateClosed := false }
    pc := .selecting, closePc := .notCalled
    trace := [Obs.passStart, Obs.syncCall ⟨6, 60⟩, Obs.passEnd none, Obs.recvHead ⟨7, 70⟩,
      Obs.recvSyncNotify, Obs.passStart, Obs.syncCall ⟨6, 60⟩, Obs.passEnd none,
      Obs.recvHead ⟨8, 80⟩, Obs.recvSyncNotify, Obs.passStart, Obs.syncCall ⟨6, 60⟩,
      Obs.passEnd none] }

/-- State after the startup pass with one of two queued notifications
consumed: the slot is full and a notification is still queued. -/
def oneHeadDrained : LoopState :=
  { d := { l1HeadCh := ⟨[⟨8, 80⟩], 1024⟩, syncNotify := ⟨[()], 1⟩, ctxDone := false,
           l1Head := ⟨6, 60⟩, wg := 1, stateClosed := false }
    pc := .selecting, closePc := .notCalled
    trace := [Obs.passStart, Obs.syncCall ⟨6, 60⟩, Obs.passEnd none, Obs.recvHead ⟨7, 70⟩] }

/-- The values the eight steps of `NewClient` before the engine guard
(client.go:45-83) produce when they succeed. -/
structure Dialled where
  l1RPC : Nat
  taikoL1 : Nat
  l2RPC : Nat
  taikoL2 : Nat
  l1RawRPC : Nat
  l2RawRPC : Nat
  l1ChainID : Nat
  l2ChainID : Nat
deriving DecidableEq, Repr

/-- The eight steps of `NewClient` before the engine guard succeed with the
values `x`. -/
def guardReachedWith (w : RpcWorld) (cfg : ClientConfig) (x : Dialled) : Prop :=
  w.dialClient cfg.L1Endpoint = .ok x.l1RPC ∧
  w.newTaikoL1Client cfg.TaikoL1Address x.l1RPC = .ok x.taikoL1 ∧
  w.dialClient cfg.L2Endpoint = .ok x.l2RPC ∧
  w.newV1TaikoL2Client cfg.TaikoL2Address x.l2RPC = .ok x.taikoL2 ∧
  w.rawDial cfg.L1Endpoint = .ok x.l1RawRPC ∧
  w.rawDial cfg.L2Endpoint = .ok x.l2RawRPC ∧
  w.chainID x.l1RPC = .ok x.l1ChainID ∧
  w.chainID x.l2RPC = .ok x.l2ChainID

/-- The calls of the eight steps of `NewClient` before the engine guard. -/
def preGuardCalls (cfg : ClientConfig) (x : Dialled) : List RpcCall :=
  [.dialClient cfg.L1Endpoint, .newTaikoL1Client cfg.TaikoL1Address,
    .dialClient cfg.L2Endpoint, .newV1TaikoL2Client cfg.TaikoL2Address,
    .rawDial cfg.L1Endpoint, .rawDial cfg.L2Endpoint, .chainID x.l1RPC, .chainID x.l2RPC]

/-- The struct literal of client.go:95-105 for the values `x` and the given
engine client. -/
def builtClient (x : Dialled) (l2Engine : Option Nat) : Client :=
  { L1 := x.l1RPC, L2 := x.l2RPC, L1RawRPC := x.l1RawRPC, L2RawRPC := x.l2RawRPC,
    L2Engine := l2Engine, TaikoL1 := x.taikoL1, TaikoL2 := x.taikoL2,
    L1ChainID := x.l1ChainID, L2ChainID := x.l2ChainID }

/-- The guard of client.go:88. -/
def engineConfigured (cfg : ClientConfig) : Prop :=
  cfg.L2EngineEndpoint.length ≠ 0 ∧ cfg.JwtSecret.length ≠ 0

instance (cfg : ClientConfig) : Decidable (engineConfigured cfg) := by
  unfold engineConfigured; infer_instance

/-- A configuration with an engine endpoint and a JWT secret. -/
def engineConfig : ClientConfig :=
  { noEngineConfig with L2EngineEndpoint := "http://engine", JwtSecret := "secret" }

/-- A world in which every call succeeds except the genesis check. -/
def genesisMismatchWorld : RpcWorld :=
  { healthyRpcWorld with
    ensureGenesisMatched := fun _ => some ⟨.construction, "genesis header hash mismatch", false⟩ }

/-- The address whose balance `InitFromConfig` reads (driver.go:75). -/
def builderAddress (w : InitWorld) (cfg : Config) : Nat :=
  w.pubkeyToAddress cfg.ThrowawayBlocksBuilderPrivKey

/-- The steps of `InitFromConfig` in source order, the warning left out. -/
def initSequence (w : InitWorld) (cfg : Config) : List InitCall :=
  [.rpcNewClient, .newState, .balanceAt (builderAddress w cfg), .peerCount,
    .newL2ChainSyncer cfg.ThrowawayBlocksBuilderPrivKey cfg.P2PSyncVerifiedBlocks,
    .subL1HeadsFeed]

/-- Every step of `InitFromConfig` succeeds and the balance is not zero. -/
def initSucceeds (w : InitWorld) (cfg : Config) : Prop :=
  (NewClient w.rpc (clientConfigOf cfg)).err = none ∧
  ∃ (st : Header) (balance : Int) (peers : Nat),
    w.newState (NewClient w.rpc (clientConfigOf cfg)).client = .ok st ∧
    w.balanceAt (NewClient w.rpc (clientConfigOf cfg)).client (builderAddress w cfg) =
      .ok balance ∧
    balance ≠ 0 ∧
    w.peerCount (NewClient w.rpc (clientConfigOf cfg)).client = .ok peers ∧
    w.newL2ChainSyncer (NewClient w.rpc (clientConfigOf cfg)).client st
      cfg.ThrowawayBlocksBuilderPrivKey cfg.P2PSyncVerifiedBlocks = none

/-- The calls of `InitFromConfig` other than the warning. -/
def InitResult.steps (r : InitResult) : List InitCall :=
  r.calls.filter fun c => decide (c ≠ .logWarn)

/-- In `InitFromConfig`, `NewClient` and `NewState` have succeeded, the state
starting at L1 head `st`: `BalanceAt` is reached. -/
def reachedBalance (w : InitWorld) (cfg : Config) (st : Header) : Prop :=
  (NewClient w.rpc (clientConfigOf cfg)).err = none ∧
  w.newState (NewClient w.rpc (clientConfigOf cfg)).client = .ok st

/-- In `InitFromConfig`, the balance was read and is not zero: `PeerCount` is
reached. -/
def reachedPeerCount (w : InitWorld) (cfg : Config) (st : Header) (balance : Int) : Prop :=
  reachedBalance w cfg st ∧
  w.balanceAt (NewClient w.rpc (clientConfigOf cfg)).client (builderAddress w cfg) =
    .ok balance ∧
  balance ≠ 0

/-- In `InitFromConfig`, the peers were counted: `NewL2ChainSyncer` is
reached. -/
def reachedSyncer (w : InitWorld) (cfg : Config) (st : Header) (balance : Int)
    (peers : Nat) : Prop :=
  reachedPeerCount w cfg st balance ∧
  w.peerCount (NewClient w.rpc (clientConfigOf cfg)).client = .ok peers

/-- The calls of `InitFromConfig` up to and including `NewL2ChainSyncer`, for
the given peer count. -/
def callsThroughSyncer (w : InitWorld) (cfg : Config) (peers : Nat) : List InitCall :=
  [.rpcNewClient, .newState, .balanceAt (builderAddress w cfg), .peerCount] ++
    (if cfg.P2PSyncVerifiedBlocks = true ∧ peers = 0 then [.logWarn] else []) ++
    [.newL2ChainSyncer cfg.ThrowawayBlocksBuilderPrivKey cfg.P2PSyncVerifiedBlocks]

/-- The world `w` with an L2 node that reports `peers` connected peers. -/
def withPeerCount (w : InitWorld) (peers : Nat) : InitWorld :=
  { w with peerCount := fun _ => .ok peers }

/-- Method `ParseBlockProposed` (gen_taiko_l1.go:1213-1220): a new event is
unpacked from the log by the same bound contract and event name
(`"BlockProposed"`, which is also the iterator's `event` as set at
gen_taiko_l1.go:1163); on an error nil is returned with it, otherwise the
event with the log as its `Raw`. -/
def ParseBlockProposed (unpack : Unpacker) (log : Log) :
    Option TaikoL1ClientBlockProposed × Option GoError :=
  match unpack TaikoL1ClientBlockProposed.new log with
  | (_, some err) => (none, some err)
  | (event, none) => (some { event with Raw := log }, none)

/-- What a call of `Next` on `it` that ended with `r` did to the log channel:
a call that returned true took the first log and left its parsed form in
`Event`; a call that returned false took nothing, or took the first log and
failed on it; a blocked call found nothing to take. -/
def NextEffect (unpack : Unpacker) (it : TaikoL1ClientBlockProposedIterator) :
    NextResult → Prop
  | .returned true it' _ =>
    ∃ log rest, it.logs = log :: rest ∧ it'.logs = rest ∧
      ParseBlockProposed unpack log = (it'.Event, none) ∧
      (∃ ev, it'.Event = some ev ∧ ev.Raw = log) ∧ it'.fail = none
  | .returned false it' _ =>
    it'.logs = it.logs ∨
      ∃ log rest e, it.logs = log :: rest ∧ it'.logs = rest ∧
        (ParseBlockProposed unpack log).2 = some e ∧ it'.fail = some e
  | .blocked => it.logs = [] ∧ it.subErr = none ∧ it.done = false ∧ it.fail = none
  | .outOfFuel => True

/-- Run moves in order, collecting what the caller reads in `it.Event` after
each call of `Next` that returned true; `none` when a call of `Next`
blocks. -/
def deliveries (unpack : Unpacker) :
    List IterStep → TaikoL1ClientBlockProposedIterator →
      Option (List (Option TaikoL1ClientBlockProposed) × TaikoL1ClientBlockProposedIterator)
  | [], it => some ([], it)
  | .logArrives log :: rest, it => deliveries unpack rest { it with logs := it.logs ++ [log] }
  | .subEnds err :: rest, it =>
    deliveries unpack rest { it with subErr := match it.subErr with
                                               | none => some err
                                               | some e => some e }
  | .next pick :: rest, it =>
    match it.Next unpack pick with
    | .returned true it' _ =>
      (deliveries unpack rest it').map fun r => (it'.Event :: r.1, r.2)
    | .returned false it' _ => deliveries unpack rest it'
    | _ => none

/-- The clock readings of successive failed attempts are consistent: the
elapsed time read at an attempt is at least the elapsed time read at the
attempt before plus the interval slept in between. -/
def clockConsistent : List (GoError × Nat × Nat) → Prop
  | [] => True
  | [_] => True
  | x :: y :: rest => x.2.1 + x.2.2 ≤ y.2.1 ∧ clockConsistent (y :: rest)

instance decClockConsistent : (l : List (GoError × Nat × Nat)) → Decidable (clockConsistent l)
  | [] => .isTrue trivial
  | [_] => .isTrue trivial
  | x :: y :: rest =>
    have : Decidable (clockConsistent (y :: rest)) := decClockConsistent (y :: rest)
    inferInstanceAs (Decidable (x.2.1 + x.2.2 ≤ y.2.1 ∧ clockConsistent (y :: rest)))

/-- The fleet step begins a sync pass, a call of `doSyncWithBackoff`: the
startup pass (driver.go:144) or the `syncNotify` case (driver.go:150-151). -/
def FleetStep.startsPass : FleetStep → Bool
  | .startupPass _ => true
  | .selSyncNotify _ => true
  | _ => false

/-- The fleet step consumes a head notification from `l1HeadCh`
(driver.go:152). -/
def FleetStep.consumesHead : FleetStep → Bool
  | .selL1Head _ => true
  | _ => false

/-- The fleet step is a move of goroutine `i`. -/
def FleetStep.byLoop (i : Nat) : FleetStep → Bool
  | .startupPass j => decide (j = i)
  | .syncBegin j => decide (j = i)
  | .skipSync j => decide (j = i)
  | .syncEnd j _ _ _ => decide (j = i)
  | .selCtxDone j => decide (j = i)
  | .selSyncNotify j => decide (j = i)
  | .selL1Head j => decide (j = i)
  | _ => false

/-- Number of sync passes started in a schedule of the fleet, by all event
loops together. -/
def fleetPasses (ss : List FleetStep) : Nat := ss.countP FleetStep.startsPass

/-- Number of head notifications consumed from `l1HeadCh` in a schedule of
the fleet, by all event loops together. -/
def fleetHeads (ss : List FleetStep) : Nat := ss.countP FleetStep.consumesHead

/-- Number of sync passes goroutine `i` started in a schedule of the fleet. -/
def fleetPassesOf (i : Nat) (ss : List FleetStep) : Nat :=
  ss.countP fun st => st.startsPass && st.byLoop i

/-- Number of head notifications goroutine `i` consumed in a schedule of the
fleet. -/
def fleetHeadsOf (i : Nat) (ss : List FleetStep) : Nat :=
  ss.countP fun st => st.consumesHead && st.byLoop i

/-- Two calls of `Start`, one head arriving, both startup passes run to their
end, then the second loop consumes the head and the first loop takes the
request this left in `syncNotify`. -/
def twoLoopsSchedule : List FleetStep :=
  [.start, .start, .headArrives ⟨7, 70⟩, .startupPass 0, .syncBegin 0, .syncEnd 0 none 0 0,
   .startupPass 1, .syncBegin 1, .syncEnd 1 none 0 0, .selL1Head 1, .selSyncNotify 0]

/-! # Theorems -/

/-! ## Basic facts about channels and steps -/

theorem Chan.trySend_cap {α : Type} (c : Chan α) (v : α) : (c.trySend v).cap = c.cap := by
  unfold Chan.trySend; split <;> rfl

theorem Chan.trySend_len_le {α : Type} (c : Chan α) (v : α) (h : c.buf.length ≤ c.cap) :
    (c.trySend v).buf.length ≤ c.cap := by
  unfold Chan.trySend
  split
  · simp; omega
  · exact h

theorem Chan.recv?_some {α : Type} {c c' : Chan α} {x : α} (h : c.recv? = some (x, c')) :
    c.buf = x :: c'.buf ∧ c'.cap = c.cap := by
  unfold Chan.recv? at h
  split at h
  · cases h
  · rename_i y ys hb
    simp only [Option.some.injEq, Prod.mk.injEq] at h
    obtain ⟨h1, h2⟩ := h
    subst h1; subst h2
    exact ⟨hb, rfl⟩

theorem attemptStep_d (s : LoopState) (r : Option GoError) (e n : Nat) :
    (attemptStep s r e n).d = s.d := by
  unfold attemptStep
  dsimp only
  split <;> rfl

theorem step_slotInv {st : Step} {s s' : LoopState} (h : step st s = some s')
    (hi : SlotInv s) : SlotInv s' := by
  obtain ⟨hc, hl⟩ := hi
  cases st <;> simp only [step] at h
  case headArrives hd =>
    cases hs : s.d.l1HeadCh.send? hd <;> rw [hs] at h <;> simp at h
    subst h; exact ⟨hc, hl⟩
  case l1HeadUpdated hd => cases h; exact ⟨hc, hl⟩
  case cancel => cases h; exact ⟨hc, hl⟩
  case start => split at h <;> cases h; exact ⟨hc, hl⟩
  case closeState => split at h <;> cases h; exact ⟨hc, hl⟩
  case closeWait => split at h <;> cases h; exact ⟨hc, hl⟩
  case startupPass => split at h <;> cases h; exact ⟨hc, hl⟩
  case attempt r e n =>
    split at h <;> cases h
    unfold SlotInv; rw [attemptStep_d]; exact ⟨hc, hl⟩
  case selCtxDone => split at h <;> cases h; exact ⟨hc, hl⟩
  case selSyncNotify =>
    split at h
    · split at h
      · rename_i u c hr
        cases h
        obtain ⟨hb, hcap⟩ := Chan.recv?_some hr
        refine ⟨hcap.trans hc, ?_⟩
        show c.buf.length ≤ syncNotifyCap
        rw [hb] at hl; simp at hl; omega
      · cases h
    · cases h
  case selL1Head =>
    split at h
    · split at h
      · rename_i hd c hr
        cases h
        refine ⟨?_, ?_⟩
        · show (s.d.syncNotify.trySend ()).cap = syncNotifyCap
          rw [Chan.trySend_cap]; exact hc
        · show (s.d.syncNotify.trySend ()).buf.length ≤ syncNotifyCap
          rw [← hc]; apply Chan.trySend_len_le; rw [hc]; exact hl
      · cases h
    · cases h

theorem run_slotInv {ss : List Step} {s s' : LoopState} (h : run ss s = some s')
    (hi : SlotInv s) : SlotInv s' := by
  induction ss generalizing s with
  | nil => simp only [run, Option.some.injEq] at h; subst h; exact hi
  | cons st rest ih =>
    simp only [run] at h
    cases hs : step st s with
    | none => rw [hs] at h; cases h
    | some s1 => rw [hs] at h; exact ih h (step_slotInv hs hi)

theorem step_effect {st : Step} {s s' : LoopState} (h : step st s = some s') :
    StepEffect st s s' := by
  cases st <;> simp only [step] at h <;> simp only [StepEffect]
  case headArrives hd =>
    unfold Chan.send? at h
    split at h
    · simp at h; subst h; rename_i hlt; exact ⟨hlt, rfl⟩
    · simp at h
  case l1HeadUpdated hd => cases h; rfl
  case cancel => cases h; rfl
  case start => split at h <;> cases h; rename_i hp; exact ⟨hp, rfl⟩
  case closeState => split at h <;> cases h; rename_i hp; exact ⟨hp, rfl⟩
  case closeWait => split at h <;> cases h; rename_i hp; exact ⟨hp.1, hp.2, rfl⟩
  case startupPass => split at h <;> cases h; rename_i hp; exact ⟨hp, rfl⟩
  case attempt r e n => split at h <;> cases h; rename_i hp; exact ⟨hp, rfl⟩
  case selCtxDone => split at h <;> cases h; rename_i hp; exact ⟨hp.1, hp.2, rfl⟩
  case selSyncNotify =>
    split at h
    · rename_i hp
      split at h
      · rename_i u c hr
        cases h
        obtain ⟨hb, hcap⟩ := Chan.recv?_some hr
        exact ⟨hp, c, hb, hcap, rfl⟩
      · cases h
    · cases h
  case selL1Head =>
    split at h
    · rename_i hp
      split at h
      · rename_i hd c hr
        cases h
        obtain ⟨hb, hcap⟩ := Chan.recv?_some hr
        exact ⟨hp, hd, c, hb, hcap, rfl⟩
      · cases h
    · cases h

theorem run_cons {st : Step} {rest : List Step} {s s' : LoopState}
    (h : run (st :: rest) s = some s') : ∃ s1, step st s = some s1 ∧ run rest s1 = some s' := by
  simp only [run] at h
  cases hs : step st s with
  | none => rw [hs] at h; cases h
  | some s1 => rw [hs] at h; exact ⟨s1, rfl, h⟩

theorem run_append {ss1 ss2 : List Step} {s s' : LoopState}
    (h : run (ss1 ++ ss2) s = some s') : ∃ s1, run ss1 s = some s1 ∧ run ss2 s1 = some s' := by
  induction ss1 generalizing s with
  | nil => exact ⟨s, rfl, h⟩
  | cons st rest ih =>
    obtain ⟨s1, h1, h2⟩ := run_cons h
    obtain ⟨s2, h3, h4⟩ := ih h2
    refine ⟨s2, ?_, h4⟩
    simp only [run, h1, h3]

/-- Invariants are carried along runs. -/
theorem run_induction {P : LoopState → Prop}
    (hstep : ∀ st s s', P s → step st s = some s' → P s')
    {ss : List Step} {s s' : LoopState} (h : run ss s = some s') (h0 : P s) : P s' := by
  induction ss generalizing s with
  | nil => simp only [run, Option.some.injEq] at h; subst h; exact h0
  | cons st rest ih =>
    obtain ⟨s1, h1, h2⟩ := run_cons h
    exact ih h2 (hstep st s s1 h0 h1)

/-! ## The trace of one attempt -/

theorem attemptStep_trace (s : LoopState) (r : Option GoError) (e n : Nat) :
    ∃ a b : Obs, (attemptStep s r e n).trace = s.trace ++ [a, b] ∧
      (a = Obs.ctxErrSeen ∨ a = Obs.syncCall s.d.l1Head) ∧
      (a = Obs.ctxErrSeen ↔ s.d.ctxDone = true) ∧
      ((∃ err, b = Obs.passEnd err) ∨ (∃ dl, b = Obs.backoffSleep dl)) := by
  unfold attemptStep doSync
  by_cases hc : s.d.ctxDone = true
  · simp only [hc, if_true, retryIter]
    exact ⟨Obs.ctxErrSeen, Obs.passEnd none, by simp, Or.inl rfl, by simp [hc], Or.inl ⟨_, rfl⟩⟩
  · simp only [hc]
    cases hr : retryIter NewExponentialBackOff r e n with
    | finished err =>
      exact ⟨Obs.syncCall s.d.l1Head, Obs.passEnd err, by simp [hr], Or.inr rfl, by simp [hc],
        Or.inl ⟨_, rfl⟩⟩
    | sleep dl =>
      exact ⟨Obs.syncCall s.d.l1Head, Obs.backoffSleep dl, by simp [hr], Or.inr rfl, by simp [hc],
        Or.inr ⟨_, rfl⟩⟩

theorem attemptStep_pc (s : LoopState) (r : Option GoError) (e n : Nat) :
    (attemptStep s r e n).pc = s.pc ∨ (attemptStep s r e n).pc = .selecting := by
  unfold attemptStep
  dsimp only
  split
  · right; rfl
  · left; rfl

theorem attemptStep_closePc (s : LoopState) (r : Option GoError) (e n : Nat) :
    (attemptStep s r e n).closePc = s.closePc := by
  unfold attemptStep
  dsimp only
  split <;> rfl

/-! ## Coalescing and the single slot -/

theorem passes_append (t u : List Obs) : passes (t ++ u) = passes t + passes u := by
  simp [passes, List.count_append]

theorem passes_attemptStep (s : LoopState) (r : Option GoError) (e n : Nat) :
    passes (attemptStep s r e n).trace = passes s.trace := by
  obtain ⟨a, b, ht, ha, _, hb⟩ := attemptStep_trace s r e n
  rw [ht, passes_append]
  have : passes [a, b] = 0 := by
    rcases ha with ha | ha <;> rcases hb with ⟨x, hb⟩ | ⟨x, hb⟩ <;> subst ha <;> subst hb <;>
      simp [passes]
  omega

theorem trySend_unit_len (c : Chan Unit) :
    (c.trySend ()).buf.length = if c.buf.length < c.cap then c.buf.length + 1 else c.buf.length := by
  unfold Chan.trySend
  split <;> simp

theorem step_coalesceInv {N p0 : Nat} {st : Step} {s s' : LoopState} (hl : st.isLoop = true)
    (hi : CoalesceInv N p0 s) (h : step st s = some s') : CoalesceInv N p0 s' := by
  obtain ⟨hctx, hpc, hcap, hub, hlb⟩ := hi
  have he := step_effect h
  cases st <;> simp only [StepEffect] at he <;> simp only [Step.isLoop] at hl <;>
    try (exact absurd hl (by decide))
  case startupPass =>
    obtain ⟨hp, _⟩ := he
    rcases hpc with hpc | hpc <;> rw [hpc] at hp <;> cases hp
  case attempt r e n =>
    obtain ⟨hp, rfl⟩ := he
    refine ⟨?_, ?_, ?_, ?_, ?_⟩
    · rw [attemptStep_d]; exact hctx
    · rcases attemptStep_pc s r e n with h1 | h1
      · rw [h1]; exact hpc
      · right; exact h1
    · rw [attemptStep_d]; exact hcap
    · rw [attemptStep_d, passes_attemptStep]; exact hub
    · rw [attemptStep_d, passes_attemptStep]; exact hlb
  case selCtxDone =>
    obtain ⟨_, hd, _⟩ := he
    rw [hctx] at hd; cases hd
  case selSyncNotify =>
    obtain ⟨_, c, hb, hc, rfl⟩ := he
    have hlen : s.d.syncNotify.buf.length = c.buf.length + 1 := by rw [hb]; simp
    refine ⟨hctx, Or.inl rfl, hc.trans hcap, ?_, ?_⟩
    · show passes (s.trace ++ [Obs.recvSyncNotify, Obs.passStart]) + c.buf.length +
        s.d.l1HeadCh.buf.length ≤ p0 + N
      rw [passes_append]
      have : passes [Obs.recvSyncNotify, Obs.passStart] = 1 := by simp [passes]
      omega
    · right
      show p0 + 1 ≤ passes (s.trace ++ [Obs.recvSyncNotify, Obs.passStart]) + c.buf.length
      rw [passes_append]
      have : passes [Obs.recvSyncNotify, Obs.passStart] = 1 := by simp [passes]
      rcases hlb with ⟨_, h2, _⟩ | h2
      · rw [h2] at hb; cases hb
      · omega
  case selL1Head =>
    obtain ⟨_, hd, c, hb, _, rfl⟩ := he
    have hlen : s.d.l1HeadCh.buf.length = c.buf.length + 1 := by rw [hb]; simp
    have hp : passes (s.trace ++ [Obs.recvHead hd]) = passes s.trace := by
      rw [passes_append]; simp [passes]
    have hts := trySend_unit_len s.d.syncNotify
    refine ⟨hctx, hpc, ?_, ?_, ?_⟩
    · show (s.d.syncNotify.trySend ()).cap = syncNotifyCap
      rw [Chan.trySend_cap]; exact hcap
    · show passes (s.trace ++ [Obs.recvHead hd]) + (s.d.syncNotify.trySend ()).buf.length +
        c.buf.length ≤ p0 + N
      rw [hp, hts]
      split <;> omega
    · right
      show p0 + 1 ≤ passes (s.trace ++ [Obs.recvHead hd]) + (s.d.syncNotify.trySend ()).buf.length
      rw [hp, hts]
      rcases hlb with ⟨_, h2, h3⟩ | h2
      · rw [h2, hcap]; simp [syncNotifyCap]; omega
      · split <;> omega

theorem run_coalesceInv {N p0 : Nat} {ss : List Step} {s s' : LoopState}
    (hl : ∀ st ∈ ss, st.isLoop = true) (hi : CoalesceInv N p0 s) (h : run ss s = some s') :
    CoalesceInv N p0 s' := by
  induction ss generalizing s with
  | nil => simp only [run, Option.some.injEq] at h; subst h; exact hi
  | cons st rest ih =>
    obtain ⟨s1, h1, h2⟩ := run_cons h
    exact ih (fun x hx => hl x (List.mem_cons_of_mem _ hx))
      (step_coalesceInv (hl st (List.mem_cons_self _ _)) hi h1) h2

/-- C1 (as stated, refuted): with N = 2 notifications queued while a pass is
in flight, the schedule `burstSchedule` is an execution of the loop alone that
ends blocked in `select` after two additional passes, not one. -/
theorem coalescing_not_exactly_one :
    (burstState.map fun s =>
        (decide (s.pc = .retrying), s.d.ctxDone, s.d.syncNotify.buf, s.d.l1HeadCh.buf.length,
          passes s.trace)) = some (true, false, [], 2, 1) ∧
    burstSchedule.all Step.isLoop = true ∧
    ((burstState.bind (run burstSchedule)).map fun s =>
        (decide (quiescent s), passes s.trace)) = some (true, 1 + 2) := by
  decide

/-- C1 (amended): if N ≥ 1 notifications are queued on `l1HeadCh` while a
sync pass is in flight (`syncNotify` empty, context not cancelled) and then
only the loop moves, every execution that ends blocked in `select` has run at
least one and at most N additional sync passes. -/
theorem coalescing_bounds (N : Nat) (s s' : LoopState) (ss : List Step)
    (hN : 1 ≤ N) (hpc : s.pc = .retrying) (hctx : s.d.ctxDone = false)
    (hcap : s.d.syncNotify.cap = syncNotifyCap) (hsync : s.d.syncNotify.buf = [])
    (hheads : s.d.l1HeadCh.buf.length = N)
    (hloop : ∀ st ∈ ss, st.isLoop = true)
    (hrun : run ss s = some s') (hq : quiescent s') :
    passes s.trace + 1 ≤ passes s'.trace ∧ passes s'.trace ≤ passes s.trace + N := by
  have h0 : CoalesceInv N (passes s.trace) s :=
    ⟨hctx, Or.inl hpc, hcap, by rw [hsync, hheads]; simp, Or.inl ⟨hheads, hsync, rfl⟩⟩
  obtain ⟨_, _, _, hub, hlb⟩ := run_coalesceInv hloop h0 hrun
  obtain ⟨_, hs, hh, _⟩ := hq
  rw [hs, hh] at hub
  rw [hs, hh] at hlb
  simp at hub hlb
  constructor
  · rcases hlb with ⟨h1, _⟩ | h1
    · omega
    · exact h1
  · exact hub

/-- Witness for `coalescing_bounds`: one queued notification, exactly one
additional pass. -/
theorem coalescing_bounds_witness :
    passes oneHeadState.trace + 1 ≤ passes oneHeadEnd.trace ∧
      passes oneHeadEnd.trace ≤ passes oneHeadState.trace + 1 :=
  coalescing_bounds 1 oneHeadState oneHeadEnd
    [.attempt none 0 0, .selL1Head, .selSyncNotify, .attempt none 0 0]
    (by decide) rfl rfl rfl rfl rfl (by decide) (by decide) (by decide)

theorem slotInv_init (ctx : Bool) (h0 : Header) : SlotInv (initState ctx h0) := by
  constructor
  · rfl
  · simp [initState, initDriver, Chan.make]

/-- C2: the slot `syncNotify` starts as `InitFromConfig` makes it, empty with
capacity 1, and in every state reachable from there it holds at most one
pending request; `reqSync` on a full slot
changes nothing; and the `l1HeadCh` case of the `select` (receive, then
`reqSync`) is enabled whenever a notification is queued, full slot or not. -/
theorem syncNotify_single_slot (ctx : Bool) (h0 : Header) (ss : List Step) (s : LoopState)
    (hrun : run ss (initState ctx h0) = some s) :
    (∀ w cfg, (InitFromConfig w ctx cfg).d.syncNotify = (initState ctx h0).d.syncNotify) ∧
    s.d.syncNotify.buf.length ≤ 1 ∧
    (s.d.syncNotify.buf.length = 1 → reqSync s.d = s.d) ∧
    (s.pc = .selecting → s.d.l1HeadCh.buf ≠ [] →
      ∃ s', step .selL1Head s = some s' ∧ s'.d.syncNotify.buf.length = 1) := by
  obtain ⟨hc, hl⟩ := run_slotInv hrun (slotInv_init ctx h0)
  simp only [syncNotifyCap] at hc hl
  refine ⟨?_, hl, ?_, ?_⟩
  · intro w cfg
    unfold InitFromConfig
    dsimp only
    repeat' split
    all_goals rfl
  · intro h1
    unfold reqSync Chan.trySend
    rw [if_neg (by omega)]
  · intro hp hne
    cases hb : s.d.l1HeadCh.buf with
    | nil => exact absurd hb hne
    | cons x xs =>
      refine ⟨{ s with d := reqSync { s.d with l1HeadCh := ⟨xs, s.d.l1HeadCh.cap⟩ },
                        trace := s.trace ++ [Obs.recvHead x] }, ?_, ?_⟩
      · simp only [step, hp, if_true, Chan.recv?, hb]
      · show (s.d.syncNotify.trySend ()).buf.length = 1
        rw [trySend_unit_len]
        split <;> omega

/-- Witness for `syncNotify_single_slot`: two notifications consumed in a
row, the second `reqSync` meeting a full slot. -/
theorem syncNotify_single_slot_witness :
    twoHeadsDrained.d.syncNotify.buf.length ≤ 1 ∧ headsConsumed twoHeadsDrained.trace = 2 :=
  ⟨(syncNotify_single_slot false ⟨6, 60⟩ drainSchedule twoHeadsDrained (by decide)).2.1, by decide⟩

/-! ## Startup pass -/

theorem counters_append_single (t : List Obs) (a : Obs) :
    passes (t ++ [a]) = passes t + (if a = Obs.passStart then 1 else 0) ∧
    passesEnded (t ++ [a]) = passesEnded t + (if a.isPassEnd then 1 else 0) ∧
    headsConsumed (t ++ [a]) = headsConsumed t + (if a.isRecvHead then 1 else 0) ∧
    notifiesConsumed (t ++ [a]) = notifiesConsumed t + (if a = Obs.recvSyncNotify then 1 else 0) := by
  refine ⟨?_, ?_, ?_, ?_⟩
  · simp only [passes, List.count_append, List.count_singleton]
    by_cases h : a = Obs.passStart <;> simp [h]
  · simp only [passesEnded, List.countP_append, List.countP_singleton]
  · simp only [headsConsumed, List.countP_append, List.countP_singleton]
  · simp only [notifiesConsumed, List.count_append, List.count_singleton]
    by_cases h : a = Obs.recvSyncNotify <;> simp [h]

theorem counters_attemptStep (s : LoopState) (r : Option GoError) (e n : Nat)
    (hp : s.pc = .retrying) :
    headsConsumed (attemptStep s r e n).trace = headsConsumed s.trace ∧
    notifiesConsumed (attemptStep s r e n).trace = notifiesConsumed s.trace ∧
    (Obs.loopReturn ∈ (attemptStep s r e n).trace ↔ Obs.loopReturn ∈ s.trace) ∧
    (((attemptStep s r e n).pc = .retrying ∧
        passesEnded (attemptStep s r e n).trace = passesEnded s.trace) ∨
      ((attemptStep s r e n).pc = .selecting ∧
        passesEnded (attemptStep s r e n).trace = passesEnded s.trace + 1)) := by
  unfold attemptStep
  dsimp only
  split <;> split <;>
    simp [headsConsumed, notifiesConsumed, passesEnded, List.countP_append, List.count_append,
      Obs.isRecvHead, Obs.isPassEnd, hp]

theorem step_startupInv {st : Step} {s s' : LoopState} (hns : st.isSelect = false)
    (hi : StartupInv s) (h : step st s = some s') : StartupInv s' := by
  obtain ⟨hpc, hh, hn, hr, hb⟩ := hi
  have he := step_effect h
  cases st <;> simp only [StepEffect] at he <;> simp only [Step.isSelect] at hns <;>
    try (exact absurd hns (by decide))
  case headArrives hd => obtain ⟨_, rfl⟩ := he; exact ⟨hpc, hh, hn, hr, hb⟩
  case l1HeadUpdated hd => subst he; exact ⟨hpc, hh, hn, hr, hb⟩
  case cancel => subst he; exact ⟨hpc, hh, hn, hr, hb⟩
  case start =>
    obtain ⟨hp, rfl⟩ := he
    rw [hp] at hpc
    exact ⟨hpc, hh, hn, hr, hb⟩
  case closeState =>
    obtain ⟨_, rfl⟩ := he
    obtain ⟨c1, c2, c3, c4⟩ := counters_append_single s.trace Obs.stateClose
    refine ⟨?_, ?_, ?_, ?_, hb⟩
    · show (match s.pc with
        | .notStarted => _ | .startup => _ | .retrying => _ | .selecting => _ | .returned => False)
      simp only [c1, c2]
      simpa [Obs.isPassEnd] using hpc
    · show headsConsumed (s.trace ++ [Obs.stateClose]) = 0
      rw [c3]; simpa [Obs.isRecvHead] using hh
    · show notifiesConsumed (s.trace ++ [Obs.stateClose]) = 0
      rw [c4]; simpa using hn
    · show Obs.loopReturn ∉ s.trace ++ [Obs.stateClose]
      simpa using hr
  case closeWait =>
    obtain ⟨_, _, rfl⟩ := he
    obtain ⟨c1, c2, c3, c4⟩ := counters_append_single s.trace Obs.wgWaitReturn
    refine ⟨?_, ?_, ?_, ?_, hb⟩
    · show (match s.pc with
        | .notStarted => _ | .startup => _ | .retrying => _ | .selecting => _ | .returned => False)
      simp only [c1, c2]
      simpa [Obs.isPassEnd] using hpc
    · show headsConsumed (s.trace ++ [Obs.wgWaitReturn]) = 0
      rw [c3]; simpa [Obs.isRecvHead] using hh
    · show notifiesConsumed (s.trace ++ [Obs.wgWaitReturn]) = 0
      rw [c4]; simpa using hn
    · show Obs.loopReturn ∉ s.trace ++ [Obs.wgWaitReturn]
      simpa using hr
  case startupPass =>
    obtain ⟨hp, rfl⟩ := he
    rw [hp] at hpc
    obtain ⟨c1, c2, c3, c4⟩ := counters_append_single s.trace Obs.passStart
    refine ⟨?_, ?_, ?_, ?_, hb⟩
    · show passes (s.trace ++ [Obs.passStart]) = 1 ∧ passesEnded (s.trace ++ [Obs.passStart]) = 0
      rw [c1, c2]; simp [Obs.isPassEnd, hpc.1, hpc.2]
    · show headsConsumed (s.trace ++ [Obs.passStart]) = 0
      rw [c3]; simpa [Obs.isRecvHead] using hh
    · show notifiesConsumed (s.trace ++ [Obs.passStart]) = 0
      rw [c4]; simpa using hn
    · show Obs.loopReturn ∉ s.trace ++ [Obs.passStart]
      simpa using hr
  case attempt r e n =>
    obtain ⟨hp, rfl⟩ := he
    rw [hp] at hpc
    obtain ⟨c1, c2, c3, c4⟩ := counters_attemptStep s r e n hp
    refine ⟨?_, by rw [c1]; exact hh, by rw [c2]; exact hn, by rw [c3]; exact hr,
      by rw [attemptStep_d]; exact hb⟩
    rcases c4 with ⟨q1, q2⟩ | ⟨q1, q2⟩
    · rw [q1]; show passes _ = 1 ∧ passesEnded _ = 0
      rw [passes_attemptStep, q2]; exact hpc
    · rw [q1]; show passes _ = 1 ∧ passesEnded _ = 1
      rw [passes_attemptStep, q2, hpc.1, hpc.2]; exact ⟨rfl, rfl⟩

theorem startupInv_init (ctx : Bool) (h0 : Header) : StartupInv (initState ctx h0) := by
  refine ⟨⟨rfl, rfl⟩, rfl, rfl, ?_, rfl⟩
  simp [initState]

theorem run_startupInv {ss : List Step} {s s' : LoopState}
    (hns : ∀ st ∈ ss, st.isSelect = false) (hi : StartupInv s) (h : run ss s = some s') :
    StartupInv s' := by
  induction ss generalizing s with
  | nil => simp only [run, Option.some.injEq] at h; subst h; exact hi
  | cons st rest ih =>
    obtain ⟨s1, h1, h2⟩ := run_cons h
    exact ih (fun x hx => hns x (List.mem_cons_of_mem _ hx))
      (step_startupInv (hns st (List.mem_cons_self _ _)) hi h1) h2

theorem select_needs_selecting {sel : Step} {s s' : LoopState} (hsel : sel.isSelect = true)
    (h : step sel s = some s') : s.pc = .selecting := by
  have he := step_effect h
  cases sel <;> simp only [StepEffect] at he <;> simp only [Step.isSelect] at hsel <;>
    try (exact absurd hsel (by decide))
  all_goals exact he.1

/-- C3: on every run from a fresh driver, at the moment the loop executes its
first `select` exactly one sync pass has been started and has ended, nothing
has been consumed from `l1HeadCh` or `syncNotify`, and the loop has not acted
on cancellation. -/
theorem startup_pass_before_first_select (ctx : Bool) (h0 : Header) (ss : List Step)
    (sel : Step) (s s' : LoopState)
    (hns : ∀ st ∈ ss, st.isSelect = false) (hsel : sel.isSelect = true)
    (hrun : run ss (initState ctx h0) = some s) (hstep : step sel s = some s') :
    passes s.trace = 1 ∧ passesEnded s.trace = 1 ∧ headsConsumed s.trace = 0 ∧
      notifiesConsumed s.trace = 0 ∧ Obs.loopReturn ∉ s.trace ∧ s.d.syncNotify.buf = [] := by
  obtain ⟨hpc, hh, hn, hr, hb⟩ := run_startupInv hns (startupInv_init ctx h0) hrun
  rw [select_needs_selecting hsel hstep] at hpc
  exact ⟨hpc.1, hpc.2, hh, hn, hr, hb⟩

/-- Witness for `startup_pass_before_first_select`: even with the context
already cancelled and a notification queued, the startup pass comes first. -/
theorem startup_pass_before_first_select_witness :
    passes cancelledAfterStartup.trace = 1 ∧ passesEnded cancelledAfterStartup.trace = 1 ∧
      headsConsumed cancelledAfterStartup.trace = 0 ∧
      notifiesConsumed cancelledAfterStartup.trace = 0 ∧
      Obs.loopReturn ∉ cancelledAfterStartup.trace ∧
      cancelledAfterStartup.d.syncNotify.buf = [] :=
  startup_pass_before_first_select true ⟨6, 60⟩
    [.start, .headArrives ⟨7, 70⟩, .startupPass, .attempt none 0 0] .selCtxDone
    cancelledAfterStartup cancelledReturned (by decide) rfl (by decide) (by decide)

/-! ## Shutdown order -/

theorem attemptStep_mem (s : LoopState) (r : Option GoError) (e n : Nat) :
    (Obs.stateClose ∈ (attemptStep s r e n).trace ↔ Obs.stateClose ∈ s.trace) ∧
    (Obs.wgWaitReturn ∈ (attemptStep s r e n).trace ↔ Obs.wgWaitReturn ∈ s.trace) := by
  obtain ⟨a, b, ht, ha, _, hb⟩ := attemptStep_trace s r e n
  rw [ht]
  rcases ha with ha | ha <;> rcases hb with ⟨x, hb⟩ | ⟨x, hb⟩ <;> subst ha <;> subst hb <;> simp

theorem step_closeInv (st : Step) (s s' : LoopState) (hi : CloseInv s)
    (h : step st s = some s') : CloseInv s' := by
  obtain ⟨hwg, hcl, hwt⟩ := hi
  have he := step_effect h
  cases st <;> simp only [StepEffect] at he
  case headArrives hd => obtain ⟨_, rfl⟩ := he; exact ⟨hwg, hcl, hwt⟩
  case l1HeadUpdated hd => subst he; exact ⟨hwg, hcl, hwt⟩
  case cancel => subst he; exact ⟨hwg, hcl, hwt⟩
  case start =>
    obtain ⟨hp, rfl⟩ := he
    refine ⟨?_, hcl, hwt⟩
    rw [hp] at hwg
    show s.d.wg + 1 = liveLoops .startup
    rw [hwg]; rfl
  case closeState =>
    obtain ⟨hp, rfl⟩ := he
    refine ⟨hwg, fun _ => ⟨rfl, by simp⟩, ?_⟩
    intro hm
    have : Obs.wgWaitReturn ∈ s.trace := by simpa using hm
    rw [hwt this] at hp; cases hp
  case closeWait =>
    obtain ⟨hp, _, rfl⟩ := he
    refine ⟨hwg, fun _ => ⟨(hcl (by rw [hp]; decide)).1, ?_⟩, fun _ => rfl⟩
    have := (hcl (by rw [hp]; decide)).2
    simp [this]
  case startupPass =>
    obtain ⟨hp, rfl⟩ := he
    rw [hp] at hwg
    refine ⟨hwg, ?_, ?_⟩
    · intro hc; exact ⟨(hcl hc).1, by simp [(hcl hc).2]⟩
    · intro hm; exact hwt (by simpa using hm)
  case attempt r e n =>
    obtain ⟨hp, rfl⟩ := he
    obtain ⟨m1, m2⟩ := attemptStep_mem s r e n
    rw [hp] at hwg
    refine ⟨?_, ?_, ?_⟩
    · rw [attemptStep_d]
      rcases attemptStep_pc s r e n with h1 | h1
      · rw [h1, hp]; exact hwg
      · rw [h1]; exact hwg
    · rw [attemptStep_closePc, attemptStep_d, m1]; exact hcl
    · rw [attemptStep_closePc, m2]; exact hwt
  case selCtxDone =>
    obtain ⟨hp, _, rfl⟩ := he
    rw [hp] at hwg
    refine ⟨?_, ?_, ?_⟩
    · show s.d.wg - 1 = liveLoops .returned
      rw [hwg]; rfl
    · intro hc; exact ⟨(hcl hc).1, by simp [(hcl hc).2]⟩
    · intro hm; exact hwt (by simpa using hm)
  case selSyncNotify =>
    obtain ⟨hp, c, _, _, rfl⟩ := he
    rw [hp] at hwg
    refine ⟨hwg, ?_, ?_⟩
    · intro hc; exact ⟨(hcl hc).1, by simp [(hcl hc).2]⟩
    · intro hm; exact hwt (by simpa using hm)
  case selL1Head =>
    obtain ⟨hp, hd, c, _, _, rfl⟩ := he
    refine ⟨hwg, ?_, ?_⟩
    · intro hc; exact ⟨(hcl hc).1, by simp [(hcl hc).2]⟩
    · intro hm; exact hwt (by simpa using hm)

theorem closeInv_init (ctx : Bool) (h0 : Header) : CloseInv (initState ctx h0) := by
  refine ⟨rfl, ?_, ?_⟩
  · intro h; exact absurd rfl h
  · intro h; simp [initState] at h

/-- C4 (as stated, refuted): after `Start`, with the loop in the middle of
its startup pass, `Close` runs `d.state.Close()` at once; the wait on the
wait group has not returned and cannot return yet, and it cannot be executed
before `d.state.Close()` either. -/
theorem close_releases_before_waiting :
    ((run [.start, .startupPass, .closeState] (initState false ⟨6, 60⟩)).map fun s =>
        (s.d.stateClosed, decide (loopRunning s), decide (Obs.wgWaitReturn ∈ s.trace),
          (step .closeWait s).isSome)) = some (true, true, false, false) ∧
    (run [.start, .startupPass, .closeWait] (initState false ⟨6, 60⟩)).isSome = false := by
  decide

/-- C4 (amended): `Close` first calls `State.Close` and only then waits for
the event loop.  On every run from a fresh driver, whenever `wg.Wait` returns,
`State.Close` has already been called and the event loop is not running; and a
trace that records the return of the wait also records the earlier
`State.Close`. -/
theorem close_order (ctx : Bool) (h0 : Header) (ss : List Step) (s s' : LoopState)
    (hrun : run ss (initState ctx h0) = some s) (hwait : step .closeWait s = some s') :
    s.d.stateClosed = true ∧ Obs.stateClose ∈ s.trace ∧ Obs.wgWaitReturn ∉ s.trace ∧
      ¬ loopRunning s := by
  obtain ⟨hwg, hcl, hwt⟩ := run_induction step_closeInv hrun (closeInv_init ctx h0)
  obtain ⟨hp, hz, _⟩ := step_effect hwait
  obtain ⟨c1, c2⟩ := hcl (by rw [hp]; decide)
  refine ⟨c1, c2, ?_, ?_⟩
  · intro hm; rw [hwt hm] at hp; cases hp
  · intro hr
    rw [hz] at hwg
    rcases hr with hr | hr | hr <;> rw [hr] at hwg <;> cases hwg

/-- Witness for `close_order`: an orderly shutdown. -/
theorem close_order_witness :
    closingState.d.stateClosed = true ∧ Obs.stateClose ∈ closingState.trace ∧
      Obs.wgWaitReturn ∉ closingState.trace ∧ ¬ loopRunning closingState :=
  close_order false ⟨6, 60⟩
    [.start, .startupPass, .attempt none 0 0, .cancel, .closeState, .selCtxDone]
    closingState { closingState with closePc := .closed,
                                     trace := closingState.trace ++ [Obs.wgWaitReturn] }
    (by decide) (by decide)

/-! ## Loop exit -/

/-- C7: the loop returns only by taking the cancellation case of the
`select`, with the context cancelled.  A step that ends a sync pass, with or
without an error, leaves the loop at the `select`; a step in the middle of a
pass or the receipt of a head notification never makes the loop return. -/
theorem loop_returns_only_on_cancel (st : Step) (s s' : LoopState)
    (hstep : step st s = some s') (hnr : s.pc ≠ .returned) :
    (s'.pc = .returned → st = .selCtxDone ∧ s.pc = .selecting ∧ s.d.ctxDone = true) ∧
    (s.pc = .retrying → s'.pc = .retrying ∨ s'.pc = .selecting) ∧
    (st = .selL1Head → s'.pc = .selecting) := by
  have he := step_effect hstep
  cases st <;> simp only [StepEffect] at he
  case headArrives hd => obtain ⟨_, rfl⟩ := he; simp; exact ⟨fun h => absurd h hnr, fun h => Or.inl h⟩
  case l1HeadUpdated hd => subst he; simp; exact ⟨fun h => absurd h hnr, fun h => Or.inl h⟩
  case cancel => subst he; simp; exact ⟨fun h => absurd h hnr, fun h => Or.inl h⟩
  case start => obtain ⟨hp, rfl⟩ := he; simp [hp]
  case closeState => obtain ⟨_, rfl⟩ := he; simp; exact ⟨fun h => absurd h hnr, fun h => Or.inl h⟩
  case closeWait => obtain ⟨_, _, rfl⟩ := he; simp; exact ⟨fun h => absurd h hnr, fun h => Or.inl h⟩
  case startupPass => obtain ⟨hp, rfl⟩ := he; simp
  case attempt r e n =>
    obtain ⟨hp, rfl⟩ := he
    have hpc := attemptStep_pc s r e n
    rw [hp] at hpc
    refine ⟨?_, fun _ => hpc, fun h => by cases h⟩
    intro h; rcases hpc with h1 | h1 <;> rw [h1] at h <;> cases h
  case selCtxDone => obtain ⟨hp, hc, rfl⟩ := he; simp [hp, hc]
  case selSyncNotify => obtain ⟨hp, c, _, _, rfl⟩ := he; simp
  case selL1Head => obtain ⟨hp, hd, c, _, _, rfl⟩ := he; simp [reqSync, hp]

/-- Witness for `loop_returns_only_on_cancel`: a pass ending in a permanent
error leaves the loop at the `select`. -/
theorem loop_returns_only_on_cancel_witness :
    ((attemptStep oneHeadState (some ⟨.deepReorg, "reorg too deep", true⟩) 0 0).pc = .returned →
        Step.attempt (some ⟨.deepReorg, "reorg too deep", true⟩) 0 0 = .selCtxDone ∧
          oneHeadState.pc = .selecting ∧ oneHeadState.d.ctxDone = true) ∧
    (oneHeadState.pc = .retrying →
        (attemptStep oneHeadState (some ⟨.deepReorg, "reorg too deep", true⟩) 0 0).pc = .retrying ∨
        (attemptStep oneHeadState (some ⟨.deepReorg, "reorg too deep", true⟩) 0 0).pc = .selecting) ∧
    (Step.attempt (some ⟨.deepReorg, "reorg too deep", true⟩) 0 0 = .selL1Head →
        (attemptStep oneHeadState (some ⟨.deepReorg, "reorg too deep", true⟩) 0 0).pc = .selecting) :=
  loop_returns_only_on_cancel (.attempt (some ⟨.deepReorg, "reorg too deep", true⟩) 0 0)
    oneHeadState _ rfl (by decide)

/-! ## Retrying, fatal and transient errors -/

theorem targets_append (t u : List Obs) : targets (t ++ u) = targets t ++ targets u := by
  induction t with
  | nil => rfl
  | cons a t ih => cases a <;> simp [targets, ih]

theorem nextBackOff_within {el nx : Nat} (h : el + nx ≤ DefaultMaxElapsedTime) :
    NewExponentialBackOff.NextBackOff el nx = some nx := by
  unfold ExponentialBackOff.NextBackOff NewExponentialBackOff
  rw [if_neg]
  intro hc
  exact absurd h (by dsimp only at hc; omega)

theorem nextBackOff_exceeded {el nx : Nat} (h : DefaultMaxElapsedTime < el + nx) :
    NewExponentialBackOff.NextBackOff el nx = none := by
  unfold ExponentialBackOff.NextBackOff NewExponentialBackOff
  rw [if_pos]
  exact ⟨by decide, h⟩

/-- An attempt whose error is retried: `Sync` was called and the wrapper
sleeps. -/
theorem attemptStep_retried (s : LoopState) (err : GoError) (el nx : Nat)
    (hctx : s.d.ctxDone = false) (hperm : err.permanent = false)
    (hin : el + nx ≤ DefaultMaxElapsedTime) :
    attemptStep s (some err) el nx =
      { s with trace := s.trace ++ [Obs.syncCall s.d.l1Head, Obs.backoffSleep nx] } := by
  simp [attemptStep, doSync, hctx, retryIter, hperm, nextBackOff_within hin]

theorem permanentErr_of_not_permanent (e : GoError) (h : e.permanent = false) :
    e.permanentErr = e := by
  cases e with
  | mk k m p =>
    simp only at h
    subst h
    rfl

/-- An attempt whose error is permanent ends the pass whatever the clock
says: `Sync` was called once and the wrapped error is logged. -/
theorem attemptStep_permanent (s : LoopState) (err : GoError) (el nx : Nat)
    (hctx : s.d.ctxDone = false) (hp : err.permanent = true) :
    attemptStep s (some err) el nx =
      { s with pc := .selecting,
               trace := s.trace ++ [Obs.syncCall s.d.l1Head,
                 Obs.passEnd (some err.permanentErr)] } := by
  simp [attemptStep, doSync, hctx, retryIter, hp]

/-- An attempt whose error is not permanent but comes too late ends the pass:
`Sync` was called and the error itself is logged. -/
theorem attemptStep_exceeded (s : LoopState) (err : GoError) (el nx : Nat)
    (hctx : s.d.ctxDone = false) (hp : err.permanent = false)
    (ht : DefaultMaxElapsedTime < el + nx) :
    attemptStep s (some err) el nx =
      { s with pc := .selecting,
               trace := s.trace ++ [Obs.syncCall s.d.l1Head, Obs.passEnd (some err)] } := by
  simp [attemptStep, doSync, hctx, retryIter, hp, nextBackOff_exceeded ht]

/-- A successful attempt ends the pass without an error. -/
theorem attemptStep_success (s : LoopState) (el nx : Nat) (hctx : s.d.ctxDone = false) :
    attemptStep s none el nx =
      { s with pc := .selecting,
               trace := s.trace ++ [Obs.syncCall s.d.l1Head, Obs.passEnd none] } := by
  simp [attemptStep, doSync, hctx, retryIter]

/-- An attempt made after cancellation ends the pass without calling `Sync`. -/
theorem attemptStep_cancelled (s : LoopState) (r : Option GoError) (el nx : Nat)
    (hctx : s.d.ctxDone = true) :
    attemptStep s r el nx =
      { s with pc := .selecting, trace := s.trace ++ [Obs.ctxErrSeen, Obs.passEnd none] } := by
  simp [attemptStep, doSync, hctx, retryIter]

theorem run_failingAttempts (errs : List (GoError × Nat × Nat)) (s : LoopState)
    (hpc : s.pc = .retrying) (hctx : s.d.ctxDone = false)
    (hok : ∀ x ∈ errs, x.1.permanent = false ∧ x.2.1 + x.2.2 ≤ DefaultMaxElapsedTime) :
    ∃ s', run (failingAttempts errs) s = some s' ∧ s'.pc = .retrying ∧ s'.d = s.d ∧
      (targets s'.trace).length = (targets s.trace).length + errs.length ∧
      passes s'.trace = passes s.trace ∧ passesEnded s'.trace = passesEnded s.trace := by
  induction errs generalizing s with
  | nil => exact ⟨s, rfl, hpc, rfl, rfl, rfl, rfl⟩
  | cons x rest ih =>
    obtain ⟨hx1, hx2⟩ := hok x (List.mem_cons_self _ _)
    have hstep : step (.attempt (some x.1) x.2.1 x.2.2) s =
        some { s with trace := s.trace ++ [Obs.syncCall s.d.l1Head, Obs.backoffSleep x.2.2] } := by
      simp only [step, hpc, if_true, attemptStep_retried s x.1 x.2.1 x.2.2 hctx hx1 hx2]
    obtain ⟨s', h1, h2, h3, h4, h5, h6⟩ :=
      ih { s with trace := s.trace ++ [Obs.syncCall s.d.l1Head, Obs.backoffSleep x.2.2] }
        hpc hctx (fun y hy => hok y (List.mem_cons_of_mem _ hy))
    refine ⟨s', ?_, h2, h3, ?_, ?_, ?_⟩
    · simp only [failingAttempts, List.map_cons, run, hstep]
      exact h1
    · rw [h4]
      show (targets (s.trace ++ [Obs.syncCall s.d.l1Head, Obs.backoffSleep x.2.2])).length + _ = _
      rw [targets_append]
      simp [targets]; omega
    · rw [h5]
      show passes (s.trace ++ [Obs.syncCall s.d.l1Head, Obs.backoffSleep x.2.2]) = _
      rw [passes_append]; simp [passes]
    · rw [h6]
      show passesEnded (s.trace ++ [Obs.syncCall s.d.l1Head, Obs.backoffSleep x.2.2]) = _
      simp [passesEnded, List.countP_append, Obs.isPassEnd]

theorem run_append_some {ss1 ss2 : List Step} {s s1 : LoopState} (h : run ss1 s = some s1) :
    run (ss1 ++ ss2) s = run ss2 s1 := by
  induction ss1 generalizing s with
  | nil => simp only [run, Option.some.injEq] at h; subst h; rfl
  | cons st rest ih =>
    obtain ⟨s2, h1, h2⟩ := run_cons h
    simp only [List.cons_append, run, h1]
    exact ih h2

/-- Attempts that are all retried, read off a consistent clock with intervals
of at least `m`, fit in the maximum elapsed time. -/
theorem retried_attempts_bounded (m : Nat) (rest : List (GoError × Nat × Nat))
    (x : GoError × Nat × Nat) (hclock : clockConsistent (x :: rest))
    (hmin : ∀ y ∈ x :: rest, m ≤ y.2.2)
    (hok : ∀ y ∈ x :: rest, y.2.1 + y.2.2 ≤ DefaultMaxElapsedTime) :
    x.2.1 + (rest.length + 1) * m ≤ DefaultMaxElapsedTime := by
  induction rest generalizing x with
  | nil =>
    have h1 := hmin x (List.mem_cons_self _ _)
    have h2 := hok x (List.mem_cons_self _ _)
    simp only [List.length_nil, Nat.zero_add, Nat.one_mul]
    omega
  | cons y rest ih =>
    obtain ⟨hxy, hrest⟩ := hclock
    have h1 := hmin x (List.mem_cons_self _ _)
    have h3 := ih y hrest (fun z hz => hmin z (List.mem_cons_of_mem _ hz))
      (fun z hz => hok z (List.mem_cons_of_mem _ hz))
    have h4 : (rest.length + 1 + 1) * m = (rest.length + 1) * m + m := Nat.succ_mul _ _
    simp only [List.length_cons]
    omega

/-- C5 (as stated, refuted): one transient error whose attempt finishes 16
minutes into the pass ends the pass with that error; no attempt of `doSync`
has returned nil. -/
theorem retry_gives_up_after_max_elapsed :
    (step lateTimeout oneHeadState).map (fun s => (s.pc, s.trace)) =
      some (.selecting, [Obs.passStart, Obs.syncCall ⟨7, 70⟩,
        Obs.passEnd (some ⟨.transient, "rpc timeout", false⟩)]) := by
  decide

/-- C5 (amended): the policy sets no count of attempts but a maximum elapsed
time (15 minutes, the package default).  While the context is not cancelled,
any run of non-permanent errors whose attempts stay within that time is
retried, one `Sync` call each, and the pass then ends without error at the
first attempt that returns nil.  A pass ends with an error only at an attempt
whose error is permanent, the logged error being the one it wraps, or for
which the elapsed time plus the next interval exceeds the maximum, the logged
error being the one `doSync` returned.  On a clock that advances by at least
the interval slept, with intervals of at least `m`, a run of retried attempts
is no longer than the maximum elapsed time divided by `m`. -/
theorem retry_until_success_or_stop (s : LoopState) (errs : List (GoError × Nat × Nat))
    (e n : Nat) (hpc : s.pc = .retrying) (hctx : s.d.ctxDone = false)
    (hok : ∀ x ∈ errs, x.1.permanent = false ∧ x.2.1 + x.2.2 ≤ DefaultMaxElapsedTime) :
    (∃ s', run (failingAttempts errs ++ [.attempt none e n]) s = some s' ∧
      s'.pc = .selecting ∧ s'.trace.getLast? = some (Obs.passEnd none) ∧
      (targets s'.trace).length = (targets s.trace).length + errs.length + 1 ∧
      passes s'.trace = passes s.trace ∧ passesEnded s'.trace = passesEnded s.trace + 1) ∧
    (∀ r el nx err, (attemptStep s r el nx).trace.getLast? = some (Obs.passEnd (some err)) →
      ∃ e1, r = some e1 ∧
        ((e1.permanent = true ∧ err = e1.permanentErr) ∨
          (e1.permanent = false ∧ DefaultMaxElapsedTime < el + nx ∧ err = e1))) ∧
    (∀ m, clockConsistent errs → (∀ x ∈ errs, m ≤ x.2.2) →
      errs.length * m ≤ DefaultMaxElapsedTime) := by
  refine ⟨?_, ?_, ?_⟩
  · obtain ⟨s1, h1, h2, h3, h4, h5, h6⟩ := run_failingAttempts errs s hpc hctx hok
    have hctx1 : s1.d.ctxDone = false := by rw [h3]; exact hctx
    refine ⟨attemptStep s1 none e n, ?_, ?_, ?_, ?_, ?_, ?_⟩
    · rw [run_append_some h1]
      simp only [run, step, h2, if_true]
    · rw [attemptStep_success s1 e n hctx1]
    · rw [attemptStep_success s1 e n hctx1]
      simp
    · rw [attemptStep_success s1 e n hctx1]
      show (targets (s1.trace ++ _)).length = _
      rw [targets_append]; simp [targets]; omega
    · rw [passes_attemptStep, h5]
    · rw [attemptStep_success s1 e n hctx1]
      show passesEnded (s1.trace ++ _) = _
      simp [passesEnded, List.countP_append, Obs.isPassEnd] at h6 ⊢
      omega
  · intro r el nx err hl
    cases r with
    | none =>
      rw [attemptStep_success s el nx hctx] at hl
      simp at hl
    | some e1 =>
      cases hp : e1.permanent with
      | true =>
        rw [attemptStep_permanent s e1 el nx hctx hp] at hl
        simp at hl
        exact ⟨e1, rfl, Or.inl ⟨hp, hl.symm⟩⟩
      | false =>
        by_cases ht : DefaultMaxElapsedTime < el + nx
        · rw [attemptStep_exceeded s e1 el nx hctx hp ht] at hl
          simp at hl
          exact ⟨e1, rfl, Or.inr ⟨hp, ht, hl.symm⟩⟩
        · rw [attemptStep_retried s e1 el nx hctx hp (Nat.le_of_not_lt ht)] at hl
          simp at hl
  · intro m hclock hmin
    cases errs with
    | nil => simp
    | cons x rest =>
      have h := retried_attempts_bounded m rest x hclock hmin (fun y hy => (hok y hy).2)
      simp only [List.length_cons]
      omega

/-- Witness for `retry_until_success_or_stop`: three failures within the
first three seconds of the pass, read off a consistent clock with intervals of
at least 250 ms, then success. -/
theorem retry_until_success_or_stop_witness :
    (∃ s', run (failingAttempts [(⟨.transient, "rpc timeout", false⟩, 1000000, 500000000),
          (⟨.transient, "rpc timeout", false⟩, 600000000, 750000000),
          (⟨.protocolViolation, "id gap", false⟩, 1500000000, 1125000000)] ++
          [.attempt none 0 0])
        oneHeadState = some s' ∧
      s'.pc = .selecting ∧ s'.trace.getLast? = some (Obs.passEnd none) ∧
      (targets s'.trace).length = (targets oneHeadState.trace).length + 3 + 1 ∧
      passes s'.trace = passes oneHeadState.trace ∧
      passesEnded s'.trace = passesEnded oneHeadState.trace + 1) ∧
    (∀ r el nx err,
      (attemptStep oneHeadState r el nx).trace.getLast? = some (Obs.passEnd (some err)) →
      ∃ e1, r = some e1 ∧
        ((e1.permanent = true ∧ err = e1.permanentErr) ∨
          (e1.permanent = false ∧ DefaultMaxElapsedTime < el + nx ∧ err = e1))) ∧
    3 * 250000000 ≤ DefaultMaxElapsedTime :=
  have h := retry_until_success_or_stop oneHeadState
    [(⟨.transient, "rpc timeout", false⟩, 1000000, 500000000),
      (⟨.transient, "rpc timeout", false⟩, 600000000, 750000000),
      (⟨.protocolViolation, "id gap", false⟩, 1500000000, 1125000000)] 0 0 rfl rfl (by decide)
  ⟨h.1, h.2.1, h.2.2 250000000 (by decide) (by decide)⟩

/-- C6 (as stated, refuted): a transient error met when the pass has lasted 16
minutes is not retried.  The wrapper ends the pass after the one call of
`Sync` and the error is logged, exactly as for an error marked permanent: in
both runs the loop is at its `select`, `Sync` was called once and the pass has
ended with the error logged. -/
theorem transient_error_not_retried_at_limit :
    (step (.attempt (some ⟨.transient, "rpc timeout", false⟩) (16 * 60 * 1000000000) 60000000000)
        oneHeadState).map
      (fun s => (s.pc, targets s.trace, passesEnded s.trace, s.trace.getLast?)) =
      some (.selecting, [⟨7, 70⟩], 1,
        some (Obs.passEnd (some ⟨.transient, "rpc timeout", false⟩))) ∧
    (step (.attempt (some ⟨.deepReorg, "reorg too deep", true⟩) (16 * 60 * 1000000000)
        60000000000) oneHeadState).map
      (fun s => (s.pc, targets s.trace, passesEnded s.trace, s.trace.getLast?)) =
      some (.selecting, [⟨7, 70⟩], 1,
        some (Obs.passEnd (some ⟨.deepReorg, "reorg too deep", false⟩))) := by
  decide

/-- C6 (amended): the driver does not inspect the error: `doSync` returns
whatever error `Sync` returned, and what the wrapper does next depends on the
error only through its permanent mark, two errors with the same mark leading
to the same program counter and the same driver fields.  While the elapsed
time plus the next interval is within the maximum, an error that is not
permanent is retried: `Sync` has been called, the wrapper sleeps and the pass
goes on.  A permanent error, such as the deep-reorg error of `Sync`, ends the
pass at once whatever the clock says: the error it wraps is logged and the
loop is at its `select`, not returned.  Beyond the maximum an error that is
not permanent ends the pass in the same way. -/
theorem permanent_mark_decides_retry (s : LoopState) (e1 : GoError) (el nx : Nat)
    (hpc : s.pc = .retrying) (hctx : s.d.ctxDone = false) :
    (doSync s.d (some e1)).1 = some e1 ∧
    (∀ e2 : GoError, e1.permanent = e2.permanent →
      (attemptStep s (some e1) el nx).pc = (attemptStep s (some e2) el nx).pc ∧
      (attemptStep s (some e1) el nx).d = (attemptStep s (some e2) el nx).d) ∧
    (e1.permanent = false → el + nx ≤ DefaultMaxElapsedTime →
      attemptStep s (some e1) el nx =
        { s with trace := s.trace ++ [Obs.syncCall s.d.l1Head, Obs.backoffSleep nx] } ∧
      (attemptStep s (some e1) el nx).pc = .retrying) ∧
    (e1.permanent = true →
      attemptStep s (some e1) el nx =
        { s with pc := .selecting,
                 trace := s.trace ++ [Obs.syncCall s.d.l1Head,
                   Obs.passEnd (some e1.permanentErr)] }) ∧
    (e1.permanent = false → DefaultMaxElapsedTime < el + nx →
      attemptStep s (some e1) el nx =
        { s with pc := .selecting,
                 trace := s.trace ++ [Obs.syncCall s.d.l1Head, Obs.passEnd (some e1)] }) ∧
    attemptStep s (some deepReorgError) el nx =
      { s with pc := .selecting,
               trace := s.trace ++ [Obs.syncCall s.d.l1Head,
                 Obs.passEnd (some deepReorgError.permanentErr)] } ∧
    (attemptStep s (some e1) el nx).pc ≠ .returned ∧
    (attemptStep s (some e1) el nx).d.wg = s.d.wg := by
  have hpcs : ∀ e : GoError, (attemptStep s (some e) el nx).pc = .retrying ∨
      (attemptStep s (some e) el nx).pc = .selecting := by
    intro e
    cases hp : e.permanent with
    | true => rw [attemptStep_permanent s e el nx hctx hp]; exact Or.inr rfl
    | false =>
      by_cases ht : DefaultMaxElapsedTime < el + nx
      · rw [attemptStep_exceeded s e el nx hctx hp ht]; exact Or.inr rfl
      · rw [attemptStep_retried s e el nx hctx hp (Nat.le_of_not_lt ht)]; exact Or.inl hpc
  refine ⟨by simp [doSync, hctx], ?_,
    fun hp ht => ⟨attemptStep_retried s e1 el nx hctx hp ht,
      by rw [attemptStep_retried s e1 el nx hctx hp ht]; exact hpc⟩,
    fun hp => attemptStep_permanent s e1 el nx hctx hp,
    fun hp ht => attemptStep_exceeded s e1 el nx hctx hp ht,
    attemptStep_permanent s deepReorgError el nx hctx rfl, ?_, by rw [attemptStep_d]⟩
  · intro e2 hperm
    refine ⟨?_, by rw [attemptStep_d, attemptStep_d]⟩
    cases hp : e1.permanent with
    | true =>
      rw [attemptStep_permanent s e1 el nx hctx hp,
        attemptStep_permanent s e2 el nx hctx (by rw [← hperm]; exact hp)]
    | false =>
      by_cases ht : DefaultMaxElapsedTime < el + nx
      · rw [attemptStep_exceeded s e1 el nx hctx hp ht,
          attemptStep_exceeded s e2 el nx hctx (by rw [← hperm]; exact hp) ht]
      · rw [attemptStep_retried s e1 el nx hctx hp (Nat.le_of_not_lt ht),
          attemptStep_retried s e2 el nx hctx (by rw [← hperm]; exact hp) (Nat.le_of_not_lt ht)]
  · rcases hpcs e1 with h | h <;> rw [h] <;> decide

/-- Witness for `permanent_mark_decides_retry`: half a second into the pass a
timeout is retried and the deep-reorg error ends the pass. -/
theorem permanent_mark_decides_retry_witness :
    (attemptStep oneHeadState (some ⟨.transient, "rpc timeout", false⟩) 1000 500000000).pc =
      .retrying ∧
    attemptStep oneHeadState (some deepReorgError) 1000 500000000 =
      { oneHeadState with
        pc := .selecting,
        trace := oneHeadState.trace ++ [Obs.syncCall oneHeadState.d.l1Head,
          Obs.passEnd (some deepReorgError.permanentErr)] } :=
  have h := permanent_mark_decides_retry oneHeadState ⟨.transient, "rpc timeout", false⟩
    1000 500000000 rfl rfl
  ⟨(h.2.2.1 rfl (by decide)).2, h.2.2.2.2.2.1⟩

/-! ## Notification payloads -/

theorem targets_forgetPayload (t : List Obs) : targets (t.map Obs.forgetPayload) = targets t := by
  induction t with
  | nil => rfl
  | cons a t ih => cases a <;> simp [targets, Obs.forgetPayload, ih]

theorem attemptStep_forgetPayloads (s : LoopState) (r : Option GoError) (e n : Nat) :
    attemptStep s.forgetPayloads r e n = (attemptStep s r e n).forgetPayloads := by
  unfold attemptStep LoopState.forgetPayloads doSync
  dsimp only
  split <;> split <;> simp_all [Obs.forgetPayload]

theorem step_forgetPayloads (st : Step) (s : LoopState) :
    step st.forgetPayload s.forgetPayloads = (step st s).map LoopState.forgetPayloads := by
  cases st
  case attempt r e n =>
    simp only [Step.forgetPayload, step]
    have : s.forgetPayloads.pc = s.pc := rfl
    rw [this]
    split
    · simp [attemptStep_forgetPayloads]
    · rfl
  case selL1Head =>
    simp only [Step.forgetPayload, step]
    have : s.forgetPayloads.pc = s.pc := rfl
    rw [this]
    split
    · cases hb : s.d.l1HeadCh.buf with
      | nil => simp [Chan.recv?, LoopState.forgetPayloads, hb]
      | cons x xs =>
        simp [Chan.recv?, LoopState.forgetPayloads, hb, reqSync, Obs.forgetPayload]
    · rfl
  case selSyncNotify =>
    simp only [Step.forgetPayload, step]
    have : s.forgetPayloads.pc = s.pc := rfl
    rw [this]
    split
    · cases hb : s.d.syncNotify.buf with
      | nil => simp [Chan.recv?, LoopState.forgetPayloads, hb]
      | cons x xs => simp [Chan.recv?, LoopState.forgetPayloads, hb, Obs.forgetPayload]
    · rfl
  case headArrives hd =>
    simp only [Step.forgetPayload, step, Chan.send?]
    have : s.forgetPayloads.d.l1HeadCh.buf.length = s.d.l1HeadCh.buf.length := by
      simp [LoopState.forgetPayloads]
    rw [this]
    have hcap : s.forgetPayloads.d.l1HeadCh.cap = s.d.l1HeadCh.cap := rfl
    rw [hcap]
    split <;> simp [LoopState.forgetPayloads]
  all_goals
    simp only [Step.forgetPayload, step]
    first
      | rfl
      | (simp only [show s.forgetPayloads.pc = s.pc from rfl,
           show s.forgetPayloads.closePc = s.closePc from rfl,
           show s.forgetPayloads.d.wg = s.d.wg from rfl,
           show s.forgetPayloads.d.ctxDone = s.d.ctxDone from rfl]
         split <;> simp [LoopState.forgetPayloads, Obs.forgetPayload])

theorem run_forgetPayloads (ss : List Step) (s : LoopState) :
    run (ss.map Step.forgetPayload) s.forgetPayloads = (run ss s).map LoopState.forgetPayloads := by
  induction ss generalizing s with
  | nil => rfl
  | cons st rest ih =>
    simp only [List.map_cons, run, step_forgetPayloads]
    cases step st s with
    | none => rfl
    | some s1 => exact ih s1

theorem targets_of_run_forget (ss : List Step) (s : LoopState) :
    (run ss s).map (fun x => targets x.trace) =
      (run (ss.map Step.forgetPayload) s.forgetPayloads).map (fun x => targets x.trace) := by
  rw [run_forgetPayloads]
  cases run ss s with
  | none => rfl
  | some s1 =>
    simp only [Option.map_some']
    congr 1
    exact (targets_forgetPayload s1.trace).symm

/-- C8: two runs that differ only in the header values delivered on
`l1HeadCh` (queued at the start or delivered later) call `Sync` with the same
targets, and are enabled together; and every attempt that calls `Sync` passes
it the L1 head the state holds at that moment. -/
theorem sync_targets_ignore_payloads (ss1 ss2 : List Step) (s1 s2 : LoopState)
    (hss : ss1.map Step.forgetPayload = ss2.map Step.forgetPayload)
    (hs : s1.forgetPayloads = s2.forgetPayloads) :
    (run ss1 s1).map (fun x => targets x.trace) = (run ss2 s2).map (fun x => targets x.trace) ∧
    (∀ (s : LoopState) r e n, targets (attemptStep s r e n).trace =
      targets s.trace ++ (if s.d.ctxDone then [] else [s.d.l1Head])) := by
  constructor
  · rw [targets_of_run_forget ss1 s1, targets_of_run_forget ss2 s2, hss, hs]
  · intro s r e n
    obtain ⟨a, b, ht, ha, hiff, hb⟩ := attemptStep_trace s r e n
    rw [ht, targets_append]
    congr 1
    cases hc : s.d.ctxDone
    · have hne : a ≠ Obs.ctxErrSeen := fun h => by rw [hiff.mp h] at hc; cases hc
      rcases ha with ha | ha
      · exact absurd ha hne
      · subst ha
        rcases hb with ⟨x, hb⟩ | ⟨x, hb⟩ <;> subst hb <;> simp [targets]
    · have ha2 := hiff.mpr hc
      subst ha2
      rcases hb with ⟨x, hb⟩ | ⟨x, hb⟩ <;> subst hb <;> simp [targets]

/-- Witness for `sync_targets_ignore_payloads`: the same schedule with two
different delivered headers. -/
theorem sync_targets_ignore_payloads_witness :
    (run [.start, .startupPass, .headArrives ⟨7, 70⟩, .attempt none 0 0, .selL1Head,
          .l1HeadUpdated ⟨9, 90⟩, .selSyncNotify, .attempt none 0 0]
        (initState false ⟨6, 60⟩)).map (fun x => targets x.trace) =
    (run [.start, .startupPass, .headArrives ⟨8, 81⟩, .attempt none 0 0, .selL1Head,
          .l1HeadUpdated ⟨9, 90⟩, .selSyncNotify, .attempt none 0 0]
        (initState false ⟨6, 60⟩)).map (fun x => targets x.trace) :=
  (sync_targets_ignore_payloads _ _ _ _ (by decide) (by decide)).1

/-! ## Fail fast on an unfunded account -/

/-- C9: if the client and the state were built and `BalanceAt` reports a zero
balance for the throwaway blocks builder, `InitFromConfig` returns the error
"throwaway blocks builder has no fund", whatever the later calls would have
returned; it has not counted peers, built the `L2ChainSyncer` or subscribed to
L1 heads, and the wait group is untouched: no event loop was started. -/
theorem zero_balance_fails_fast (w : InitWorld) (ctxDone : Bool) (cfg : Config) (st : Header)
    (hclient : (NewClient w.rpc (clientConfigOf cfg)).err = none)
    (hstate : w.newState (NewClient w.rpc (clientConfigOf cfg)).client = .ok st)
    (hbal : w.balanceAt (NewClient w.rpc (clientConfigOf cfg)).client
      (w.pubkeyToAddress cfg.ThrowawayBlocksBuilderPrivKey) = .ok 0) :
    (InitFromConfig w ctxDone cfg).err = some noFundError ∧
    noFundError.msg = "throwaway blocks builder has no fund" ∧
    (InitFromConfig w ctxDone cfg).calls =
      [.rpcNewClient, .newState, .balanceAt (w.pubkeyToAddress cfg.ThrowawayBlocksBuilderPrivKey)] ∧
    (InitFromConfig w ctxDone cfg).d.l2ChainSyncer = none ∧
    (InitFromConfig w ctxDone cfg).d.l1HeadSub = false ∧
    (InitFromConfig w ctxDone cfg).d.wg = 0 := by
  simp [InitFromConfig, hclient, hstate, hbal, noFundError]

/-- Witness for `zero_balance_fails_fast`: every call succeeds, three peers
are connected, the balance is zero. -/
theorem zero_balance_fails_fast_witness :
    (InitFromConfig (healthyInitWorld 0 3) false sampleConfig).err = some noFundError ∧
    noFundError.msg = "throwaway blocks builder has no fund" ∧
    (InitFromConfig (healthyInitWorld 0 3) false sampleConfig).calls =
      [.rpcNewClient, .newState, .balanceAt 42] ∧
    (InitFromConfig (healthyInitWorld 0 3) false sampleConfig).d.l2ChainSyncer = none ∧
    (InitFromConfig (healthyInitWorld 0 3) false sampleConfig).d.l1HeadSub = false ∧
    (InitFromConfig (healthyInitWorld 0 3) false sampleConfig).d.wg = 0 :=
  zero_balance_fails_fast (healthyInitWorld 0 3) false sampleConfig ⟨6, 60⟩ rfl rfl rfl

/-! ## The engine client is optional -/

theorem length_eq_zero_iff_empty (s : String) : s.length = 0 ↔ s = "" := by
  constructor
  · intro h
    cases s with
    | mk l =>
      simp only [String.length, List.length_eq_zero] at h
      subst h; rfl
  · intro h; subst h; rfl

theorem finish_calls (w : RpcWorld) (c : Client) (calls : List RpcCall) :
    (NewClient.finish w c calls).calls = calls ++ [.ensureGenesisMatched] ∧
    (∀ c', (NewClient.finish w c calls).client = some c' → c' = c) ∧
    (w.ensureGenesisMatched c = none →
      (NewClient.finish w c calls).client = some c ∧ (NewClient.finish w c calls).err = none) := by
  unfold NewClient.finish
  split
  · rename_i e he
    refine ⟨rfl, ?_, ?_⟩
    · intro c' h; cases h
    · intro h; rw [h] at he; cases he
  · refine ⟨rfl, ?_, fun _ => ⟨rfl, rfl⟩⟩
    intro c' h; cases h; rfl

/-- An engine dial among the calls of `NewClient` means the guard held. -/
theorem newClient_engine_dial_guard (w : RpcWorld) (cfg : ClientConfig)
    (h : (NewClient w cfg).calls.any RpcCall.isDialEngine = true) :
    cfg.L2EngineEndpoint.length ≠ 0 ∧ cfg.JwtSecret.length ≠ 0 := by
  by_contra hcond
  unfold NewClient NewClient.finish at h
  repeat' split at h
  all_goals simp_all [RpcCall.isDialEngine]

/-- With the guard false, a returned client has a nil `L2Engine`. -/
theorem newClient_no_engine (w : RpcWorld) (cfg : ClientConfig)
    (hcond : ¬ (cfg.L2EngineEndpoint.length ≠ 0 ∧ cfg.JwtSecret.length ≠ 0))
    (c : Client) (h : (NewClient w cfg).client = some c) : c.L2Engine = none := by
  unfold NewClient NewClient.finish at h
  repeat' split at h
  all_goals simp_all
  all_goals (subst h; rfl)

/-- C10: `NewClient` dials the engine API client only if both
`L2EngineEndpoint` and `JwtSecret` are non-empty, and, once the steps before
the guard have succeeded, whenever both are.  If either is empty no engine
dial is made, a returned client has a nil `L2Engine`, and the call succeeds
when the earlier steps and the genesis check do. -/
theorem engine_client_optional (w : RpcWorld) (cfg : ClientConfig) :
    ((∃ c ∈ (NewClient w cfg).calls, c.isDialEngine = true) →
      cfg.L2EngineEndpoint ≠ "" ∧ cfg.JwtSecret ≠ "") ∧
    (reachesEngineGuard w cfg → cfg.L2EngineEndpoint ≠ "" → cfg.JwtSecret ≠ "" →
      RpcCall.dialEngine cfg.L2EngineEndpoint cfg.JwtSecret ∈ (NewClient w cfg).calls) ∧
    (cfg.L2EngineEndpoint = "" ∨ cfg.JwtSecret = "" →
      (∀ c ∈ (NewClient w cfg).calls, c.isDialEngine = false) ∧
      (∀ c, (NewClient w cfg).client = some c → c.L2Engine = none)) ∧
    (cfg.L2EngineEndpoint = "" ∨ cfg.JwtSecret = "" → reachesEngineGuard w cfg →
      (∀ c, w.ensureGenesisMatched c = none) →
      (NewClient w cfg).err = none ∧ ∃ c, (NewClient w cfg).client = some c ∧ c.L2Engine = none) := by
  have hlen1 := length_eq_zero_iff_empty cfg.L2EngineEndpoint
  have hlen2 := length_eq_zero_iff_empty cfg.JwtSecret
  have hguard : (∃ c ∈ (NewClient w cfg).calls, c.isDialEngine = true) →
      cfg.L2EngineEndpoint ≠ "" ∧ cfg.JwtSecret ≠ "" := by
    intro hex
    obtain ⟨g1, g2⟩ := newClient_engine_dial_guard w cfg (List.any_eq_true.mpr hex)
    exact ⟨fun h => g1 (hlen1.mpr h), fun h => g2 (hlen2.mpr h)⟩
  have hneg : cfg.L2EngineEndpoint = "" ∨ cfg.JwtSecret = "" →
      ¬ (cfg.L2EngineEndpoint.length ≠ 0 ∧ cfg.JwtSecret.length ≠ 0) := by
    rintro hemp ⟨h1, h2⟩
    rcases hemp with h | h
    · exact h1 (hlen1.mpr h)
    · exact h2 (hlen2.mpr h)
  refine ⟨hguard, ?_, ?_, ?_⟩
  · rintro ⟨a1, a2, a3, a4, a5, a6, a7, a8, h1, h2, h3, h4, h5, h6, h7, h8⟩ hn1 hn2
    have hcond : cfg.L2EngineEndpoint.length ≠ 0 ∧ cfg.JwtSecret.length ≠ 0 :=
      ⟨fun h => hn1 (hlen1.mp h), fun h => hn2 (hlen2.mp h)⟩
    simp only [NewClient, h1, h2, h3, h4, h5, h6, h7, h8, if_pos hcond]
    split
    · simp
    · rw [(finish_calls _ _ _).1]; simp
  · intro hemp
    refine ⟨?_, fun c hc => newClient_no_engine w cfg (hneg hemp) c hc⟩
    intro c hc
    cases hd : c.isDialEngine
    · rfl
    · obtain ⟨g1, g2⟩ := hguard ⟨c, hc, hd⟩
      rcases hemp with h | h
      · exact absurd h g1
      · exact absurd h g2
  · rintro hemp ⟨a1, a2, a3, a4, a5, a6, a7, a8, h1, h2, h3, h4, h5, h6, h7, h8⟩ hgen
    simp only [NewClient, h1, h2, h3, h4, h5, h6, h7, h8, if_neg (hneg hemp)]
    obtain ⟨q1, q2⟩ := (finish_calls w
      { L1 := a1, L2 := a3, L1RawRPC := a5, L2RawRPC := a6, L2Engine := none, TaikoL1 := a2,
        TaikoL2 := a4, L1ChainID := a7, L2ChainID := a8 }
      [.dialClient cfg.L1Endpoint, .newTaikoL1Client cfg.TaikoL1Address,
        .dialClient cfg.L2Endpoint, .newV1TaikoL2Client cfg.TaikoL2Address,
        .rawDial cfg.L1Endpoint, .rawDial cfg.L2Endpoint, .chainID a1, .chainID a3]).2.2 (hgen _)
    exact ⟨q2, _, q1, rfl⟩

/-- Witness for `engine_client_optional`: without engine endpoint and secret
the client is built with a nil `L2Engine`. -/
theorem engine_client_optional_witness :
    (NewClient healthyRpcWorld noEngineConfig).err = none ∧
      ∃ c, (NewClient healthyRpcWorld noEngineConfig).client = some c ∧ c.L2Engine = none :=
  (engine_client_optional healthyRpcWorld noEngineConfig).2.2.2 (Or.inl rfl)
    ⟨_, _, _, _, _, _, _, _, rfl, rfl, rfl, rfl, rfl, rfl, rfl, rfl⟩ (fun _ => rfl)

/-! ## Reorg window constants -/

/-- C18: `MaxReorgDepth` is 500 and `ReorgRollbackDepth` is 20; the batch size
does not exceed the maximum depth and divides it exactly, 500 = 25 * 20, so a
number of full batches stays within the maximum depth exactly when it is at
most 25, and 25 full batches reach depth 500. -/
theorem reorg_window_constants :
    MaxReorgDepth = 500 ∧ ReorgRollbackDepth = 20 ∧ ReorgRollbackDepth ≤ MaxReorgDepth ∧
    MaxReorgDepth = 25 * ReorgRollbackDepth ∧ MaxReorgDepth % ReorgRollbackDepth = 0 ∧
    MaxReorgDepth / ReorgRollbackDepth * ReorgRollbackDepth = MaxReorgDepth ∧
    (∀ k : Nat, k * ReorgRollbackDepth ≤ MaxReorgDepth ↔ k ≤ 25) := by
  refine ⟨rfl, rfl, by decide, rfl, rfl, rfl, ?_⟩
  intro k
  simp only [MaxReorgDepth, ReorgRollbackDepth]
  omega

/-! ## `doSync` -/

/-- C19: with the context already cancelled `doSync` returns nil whatever the
L1 head and whatever `Sync` would have returned, and reports no `Sync` call;
an attempt made in the middle of a retry sequence then ends the pass with no
error and without any `Sync` target being added. -/
theorem doSync_after_cancellation (s : LoopState) (syncResult : Option GoError) (el nx : Nat)
    (hctx : s.d.ctxDone = true) (hpc : s.pc = .retrying) :
    doSync s.d syncResult = (none, none) ∧
    (∀ (h : Header) (r : Option GoError),
      doSync { s.d with l1Head := h } r = doSync s.d syncResult) ∧
    step (.attempt syncResult el nx) s =
      some { s with pc := .selecting, trace := s.trace ++ [Obs.ctxErrSeen, Obs.passEnd none] } ∧
    targets (s.trace ++ [Obs.ctxErrSeen, Obs.passEnd none]) = targets s.trace := by
  refine ⟨by simp [doSync, hctx], ?_, ?_, ?_⟩
  · intro h r
    simp [doSync, hctx]
  · simp only [step, hpc, if_true, attemptStep_cancelled s syncResult el nx hctx]
  · rw [targets_append]
    simp [targets]

/-- Witness for `doSync_after_cancellation`: a pass whose first attempt failed
and whose context was cancelled during the backoff sleep ends at the next
attempt, without error and without a second `Sync` call. -/
theorem doSync_after_cancellation_witness :
    (run [.attempt (some ⟨.transient, "rpc timeout", false⟩) 1000 500, .cancel,
        .attempt (some ⟨.transient, "rpc timeout", false⟩) 2000 750] oneHeadState).map
      (fun s => (s.pc, targets s.trace, s.trace.getLast?)) =
      some (.selecting, [⟨7, 70⟩], some (Obs.passEnd none)) ∧
    doSync cancelledAfterStartup.d (some ⟨.transient, "rpc timeout", false⟩) = (none, none) :=
  ⟨by decide,
    (doSync_after_cancellation { cancelledAfterStartup with pc := .retrying }
      (some ⟨.transient, "rpc timeout", false⟩) 0 0 rfl rfl).1⟩

/-- C20: with the context not cancelled `doSync` calls `Sync` once, with the
L1 head the state holds, and returns what `Sync` returned: nil exactly when
`Sync` returned nil, and otherwise the very same error. -/
theorem doSync_propagates (s : LoopState) (syncResult : Option GoError) (el nx : Nat)
    (hctx : s.d.ctxDone = false) :
    doSync s.d syncResult = (syncResult, some s.d.l1Head) ∧
    ((doSync s.d syncResult).1 = none ↔ syncResult = none) ∧
    (∀ e, syncResult = some e → (doSync s.d syncResult).1 = some e) ∧
    targets (attemptStep s syncResult el nx).trace = targets s.trace ++ [s.d.l1Head] := by
  have h1 : doSync s.d syncResult = (syncResult, some s.d.l1Head) := by simp [doSync, hctx]
  refine ⟨h1, by rw [h1], fun e he => by rw [h1]; exact he, ?_⟩
  obtain ⟨a, b, ht, ha, hiff, hb⟩ := attemptStep_trace s syncResult el nx
  have hne : a ≠ Obs.ctxErrSeen := fun h => by rw [hiff.mp h] at hctx; cases hctx
  rw [ht, targets_append]
  rcases ha with ha | ha
  · exact absurd ha hne
  · subst ha
    rcases hb with ⟨x, hb⟩ | ⟨x, hb⟩ <;> subst hb <;> simp [targets]

/-- Witness for `doSync_propagates`: a protocol violation reported by `Sync`
comes back unchanged. -/
theorem doSync_propagates_witness :
    doSync oneHeadState.d (some ⟨.protocolViolation, "id gap", false⟩) =
      (some ⟨.protocolViolation, "id gap", false⟩, some oneHeadState.d.l1Head) :=
  (doSync_propagates oneHeadState (some ⟨.protocolViolation, "id gap", false⟩) 0 0 rfl).1

/-! ## Decoding the contract state -/

/-- C11: when the contract call succeeds with five outputs, `State` returns
them positionally with a nil error; when the call fails it returns the
all-zero struct with that same error, whatever `out` holds, even nothing. -/
theorem state_decoding (o0 o1 o2 o3 o4 : Nat) (e : GoError) (out : List Nat) :
    TaikoL1ClientCaller.State ⟨none, [o0, o1, o2, o3, o4]⟩ =
      some ({ StatusBits := o0, GenesisHeight := o1, LatestVerifiedHeight := o2,
              LatestVerifiedId := o3, NextBlockId := o4 }, none) ∧
    TaikoL1ClientCaller.State ⟨some e, out⟩ = some (⟨0, 0, 0, 0, 0⟩, some e) ∧
    TaikoL1ClientCaller.State ⟨some e, []⟩ = some (⟨0, 0, 0, 0, 0⟩, some e) :=
  ⟨rfl, rfl, rfl⟩

/-! ## The log iterator -/

/-- A failed iterator returns false at once and is left as it was. -/
theorem nextFuel_failed (unpack : Unpacker) (pick : Pick) (fuel : Nat)
    (it : TaikoL1ClientBlockProposedIterator) (e : GoError) (h : it.fail = some e) :
    NextFuel unpack pick (fuel + 1) it = .returned false it 0 := by
  simp [NextFuel, h]

/-- Once failed, the iterator answers false to every call of `Next`, keeps its
error and its event, and only gains logs. -/
theorem runIter_failed (unpack : Unpacker) (steps : List IterStep)
    (it : TaikoL1ClientBlockProposedIterator) (e : GoError) (h : it.fail = some e) :
    ∃ it', runIter unpack steps it = some (List.replicate (nextCalls steps) false, it') ∧
      it'.fail = some e ∧ it'.logs = it.logs ++ arrivedLogs steps ∧ it'.Event = it.Event := by
  induction steps generalizing it with
  | nil => exact ⟨it, rfl, h, by simp [arrivedLogs], rfl⟩
  | cons st rest ih =>
    cases st with
    | next pick =>
      obtain ⟨it', h1, h2, h3, h4⟩ := ih it h
      refine ⟨it', ?_, h2, ?_, h4⟩
      · simp only [runIter, TaikoL1ClientBlockProposedIterator.Next,
          nextFuel_failed unpack pick 1 it e h, h1, nextCalls, Option.map_some',
          List.replicate_succ]
      · rw [h3]; simp [arrivedLogs]
    | logArrives log =>
      obtain ⟨it', h1, h2, h3, h4⟩ := ih { it with logs := it.logs ++ [log] } h
      refine ⟨it', ?_, h2, ?_, h4⟩
      · simp only [runIter, nextCalls]; exact h1
      · rw [h3]; simp [arrivedLogs]
    | subEnds err =>
      obtain ⟨it', h1, h2, h3, h4⟩ :=
        ih { it with subErr := match it.subErr with
                               | none => some err
                               | some x => some x } h
      refine ⟨it', ?_, h2, ?_, h4⟩
      · simp only [runIter, nextCalls]; exact h1
      · rw [h3]; simp [arrivedLogs]

/-- C12: if `Next` takes a log whose unpacking fails with `e`, it returns
false and `Error` returns `e`; whatever happens afterwards (more logs arriving,
the subscription ending, any number of further calls of `Next`), every later
call returns false, no queued log is consumed, and `Error` still returns
`e`. -/
theorem iterator_failure_sticky (unpack : Unpacker) (pick : Pick)
    (it : TaikoL1ClientBlockProposedIterator) (log : Log) (rest : List Log)
    (ev : TaikoL1ClientBlockProposed) (e : GoError)
    (hfail : it.fail = none) (hlogs : it.logs = log :: rest)
    (hunpack : unpack TaikoL1ClientBlockProposed.new log = (ev, some e))
    (htake : it.done = true ∨ it.subErr = none ∨ it.subErr = some none ∨ pick = .log) :
    ∃ it' n, it.Next unpack pick = .returned false it' n ∧ it'.Error = some e ∧
      it'.logs = rest ∧
      ∀ steps : List IterStep, ∃ it'',
        runIter unpack steps it' = some (List.replicate (nextCalls steps) false, it'') ∧
        it''.Error = some e ∧ it''.logs = rest ++ arrivedLogs steps := by
  have hmain : ∃ it' n, it.Next unpack pick = .returned false it' n ∧ it'.fail = some e ∧
      it'.logs = rest := by
    cases hd : it.done
    · cases hs : it.subErr with
      | none =>
        exact ⟨⟨some ev, rest, none, false, some e⟩, 0,
          by simp [TaikoL1ClientBlockProposedIterator.Next, NextFuel, hfail, hlogs, hd, hs,
            deliverLog, hunpack], rfl, rfl⟩
      | some x =>
        cases pick with
        | log =>
          exact ⟨⟨some ev, rest, some x, false, some e⟩, 0,
            by simp [TaikoL1ClientBlockProposedIterator.Next, NextFuel, hfail, hlogs, hd, hs,
              deliverLog, hunpack], rfl, rfl⟩
        | err =>
          cases x with
          | none =>
            exact ⟨⟨some ev, rest, some none, true, some e⟩, 1,
              by simp [TaikoL1ClientBlockProposedIterator.Next, NextFuel, hfail, hlogs, hd, hs,
                deliverLog, hunpack, NextResult.afterSelfCall], rfl, rfl⟩
          | some e' =>
            rcases htake with h | h | h | h
            · rw [hd] at h; cases h
            · rw [hs] at h; cases h
            · rw [hs] at h; cases h
            · cases h
    · exact ⟨⟨some ev, rest, it.subErr, true, some e⟩, 0,
        by simp [TaikoL1ClientBlockProposedIterator.Next, NextFuel, hfail, hlogs, hd,
          deliverLog, hunpack], rfl, rfl⟩
  obtain ⟨it', n, h1, h2, h3⟩ := hmain
  refine ⟨it', n, h1, h2, h3, ?_⟩
  intro steps
  obtain ⟨it'', q1, q2, q3, _⟩ := runIter_failed unpack steps it' e h2
  exact ⟨it'', q1, q2, by rw [q3, h3]⟩

/-- Witness for `iterator_failure_sticky`: the second queued log has no data
and fails to unpack. -/
theorem iterator_failure_sticky_witness :
    ∃ it' n,
      (freshIterator [⟨101, 0, [2], []⟩, ⟨102, 0, [3], [102]⟩]).Next sampleUnpack .log =
        .returned false it' n ∧
      it'.Error = some ⟨.protocolViolation, "abi: cannot unmarshal empty data", false⟩ ∧
      it'.logs = [⟨102, 0, [3], [102]⟩] ∧
      ∀ steps : List IterStep, ∃ it'',
        runIter sampleUnpack steps it' = some (List.replicate (nextCalls steps) false, it'') ∧
        it''.Error = some ⟨.protocolViolation, "abi: cannot unmarshal empty data", false⟩ ∧
        it''.logs = [⟨102, 0, [3], [102]⟩] ++ arrivedLogs steps :=
  iterator_failure_sticky sampleUnpack .log
    (freshIterator [⟨101, 0, [2], []⟩, ⟨102, 0, [3], [102]⟩]) ⟨101, 0, [2], []⟩
    [⟨102, 0, [3], [102]⟩] TaikoL1ClientBlockProposed.new
    ⟨.protocolViolation, "abi: cannot unmarshal empty data", false⟩ rfl rfl rfl (Or.inr (Or.inl rfl))

/-- With `done` set, `Next` makes no call of itself: one level of fuel gives
the same result as any larger amount, and that result is a return. -/
theorem nextFuel_done (unpack : Unpacker) (pick : Pick) (k : Nat)
    (it : TaikoL1ClientBlockProposedIterator) (h : it.done = true) :
    NextFuel unpack pick (k + 1) it = NextFuel unpack pick 1 it ∧
      ∃ more it', NextFuel unpack pick 1 it = .returned more it' 0 := by
  constructor
  · simp only [NextFuel, h, if_true]
  · simp only [NextFuel, h, if_true]
    split
    · exact ⟨_, _, rfl⟩
    · split
      · unfold deliverLog
        split <;> exact ⟨_, _, rfl⟩
      · exact ⟨_, _, rfl⟩

/-- The result of `Next` does not depend on the fuel once there are two
levels, and it is never a lack of fuel. -/
theorem nextFuel_stable (unpack : Unpacker) (pick : Pick) (k : Nat)
    (it : TaikoL1ClientBlockProposedIterator) :
    NextFuel unpack pick (k + 2) it = it.Next unpack pick ∧
      it.Next unpack pick ≠ .outOfFuel := by
  have hrec : ∀ err, NextFuel unpack pick (k + 1) { it with done := true, fail := err } =
      NextFuel unpack pick 1 { it with done := true, fail := err } :=
    fun err => (nextFuel_done unpack pick k _ rfl).1
  have hne : ∀ err,
      (NextFuel unpack pick 1 { it with done := true, fail := err }).afterSelfCall ≠
        .outOfFuel := by
    intro err
    obtain ⟨more, it', h⟩ := (nextFuel_done unpack pick 0 { it with done := true, fail := err } rfl).2
    rw [h]
    simp [NextResult.afterSelfCall]
  constructor
  · unfold TaikoL1ClientBlockProposedIterator.Next
    rw [NextFuel, NextFuel]
    simp only [hrec]
  · unfold TaikoL1ClientBlockProposedIterator.Next
    rw [NextFuel]
    split
    · simp
    · split
      · split
        · unfold deliverLog; split <;> simp
        · simp
      · split
        · simp
        · unfold deliverLog; split <;> simp
        · exact hne _
        · split
          · unfold deliverLog; split <;> simp
          · exact hne _

/-! ## Overlapping sync passes -/

theorem Fleet.move_some {f f' : Fleet} {i : Nat} {src dst : FleetPc} {d : Driver}
    (h : f.move i src dst d = some f') :
    f'.loops.length = f.loops.length ∧ f'.outsideSyncs = f.outsideSyncs := by
  unfold Fleet.move at h
  split at h
  · cases h; simp
  · cases h

/-- A fleet step adds a goroutine only when it is `start`, and an outside
call only when it is `outsideSyncBegin`. -/
theorem fleetStep_counts {st : FleetStep} {f f' : Fleet} (h : fleetStep st f = some f') :
    f'.loops.length = f.loops.length + (if st = .start then 1 else 0) ∧
    (st ≠ .outsideSyncBegin → f'.outsideSyncs ≤ f.outsideSyncs) := by
  cases st <;> simp only [fleetStep] at h
  case start => cases h; simp
  case headArrives hd =>
    cases hs : f.d.l1HeadCh.send? hd <;> rw [hs] at h <;> simp at h
    subst h; simp
  case l1HeadUpdated hd => cases h; simp
  case cancel => cases h; simp
  case outsideSyncBegin => cases h; simp
  case outsideSyncEnd =>
    split at h <;> cases h
    simp
  case startupPass i =>
    obtain ⟨h1, h2⟩ := Fleet.move_some h
    simp [h1, h2]
  case syncBegin i =>
    split at h
    · obtain ⟨h1, h2⟩ := Fleet.move_some h
      simp [h1, h2]
    · cases h
  case skipSync i =>
    split at h
    · obtain ⟨h1, h2⟩ := Fleet.move_some h
      simp [h1, h2]
    · cases h
  case syncEnd i r e n =>
    split at h <;>
    · obtain ⟨h1, h2⟩ := Fleet.move_some h
      simp [h1, h2]
  case selCtxDone i =>
    split at h
    · obtain ⟨h1, h2⟩ := Fleet.move_some h
      simp [h1, h2]
    · cases h
  case selSyncNotify i =>
    split at h
    · obtain ⟨h1, h2⟩ := Fleet.move_some h
      simp [h1, h2]
    · cases h
  case selL1Head i =>
    split at h
    · obtain ⟨h1, h2⟩ := Fleet.move_some h
      simp [h1, h2]
    · cases h

theorem fleetRun_counts {steps : List FleetStep} {f f' : Fleet}
    (hout : ∀ st ∈ steps, st ≠ .outsideSyncBegin) (h : fleetRun steps f = some f') :
    f'.loops.length = f.loops.length + steps.count .start ∧ f'.outsideSyncs ≤ f.outsideSyncs := by
  induction steps generalizing f with
  | nil => simp only [fleetRun, Option.some.injEq] at h; subst h; simp
  | cons st rest ih =>
    simp only [fleetRun] at h
    cases hs : fleetStep st f with
    | none => rw [hs] at h; cases h
    | some f1 =>
      rw [hs] at h
      obtain ⟨c1, c2⟩ := fleetStep_counts hs
      obtain ⟨i1, i2⟩ := ih (fun x hx => hout x (List.mem_cons_of_mem _ hx)) h
      have c3 := c2 (hout st (List.mem_cons_self _ _))
      refine ⟨?_, le_trans i2 c3⟩
      rw [i1, c1, List.count_cons]
      by_cases hst : st = .start
      · subst hst; simp; omega
      · have : (st == FleetStep.start) = false := by simpa using hst
        simp [hst, this]

/-- C17 (as stated, refuted): after two calls of `Start` both event loops
call `Sync` at the same time; and with a single event loop, a caller holding
the pointer returned by `ChainSyncer` can call `Sync` while the loop's call is
executing. -/
theorem two_syncs_in_flight :
    ((fleetRun [.start, .start, .startupPass 0, .startupPass 1, .syncBegin 0, .syncBegin 1]
        (initFleet false ⟨6, 60⟩)).map fun f => (f.loops, f.outsideSyncs, syncsInFlight f)) =
      some ([.syncing, .syncing], 0, 2) ∧
    ((fleetRun [.start, .startupPass 0, .syncBegin 0, .outsideSyncBegin]
        (initFleet false ⟨6, 60⟩)).map fun f => (f.loops, f.outsideSyncs, syncsInFlight f)) =
      some ([.syncing], 1, 2) := by
  decide

/-- C17 (amended): if `Start` is called at most once and nobody calls `Sync`
through the pointer returned by `ChainSyncer`, then in every reachable state at
most one invocation of `Sync` is executing; the single event loop is then the
only caller, and it needs no lock. -/
theorem single_loop_no_overlap (ctx : Bool) (h0 : Header) (steps : List FleetStep) (f : Fleet)
    (hstart : steps.count .start ≤ 1) (hout : ∀ st ∈ steps, st ≠ .outsideSyncBegin)
    (hrun : fleetRun steps (initFleet ctx h0) = some f) :
    syncsInFlight f ≤ 1 := by
  obtain ⟨h1, h2⟩ := fleetRun_counts hout hrun
  have hlen : f.loops.length ≤ 1 := by
    rw [h1]; simp [initFleet]; exact hstart
  have hz : f.outsideSyncs = 0 := by
    simp [initFleet] at h2; exact h2
  have hc : f.loops.count .syncing ≤ f.loops.length := List.count_le_length _ _
  unfold syncsInFlight
  omega

/-- Witness for `single_loop_no_overlap`: one event loop in the middle of a
`Sync` call, with notifications arriving meanwhile. -/
theorem single_loop_no_overlap_witness :
    syncsInFlight ⟨{ initDriver false ⟨6, 60⟩ with
        l1HeadCh := ⟨[⟨7, 70⟩], l1HeadChCap⟩, wg := 1 }, [.syncing], 0⟩ ≤ 1 :=
  single_loop_no_overlap false ⟨6, 60⟩
    [.start, .startupPass 0, .headArrives ⟨7, 70⟩, .syncBegin 0] _
    (by decide) (by decide) (by decide)

/-! ## The Derivation Engine -/

theorem lastId_append (st : SyncerState) (c : List L2Block) (b : L2Block) :
    ({ st with chain := c ++ [b] } : SyncerState).lastId = b.id ∧
    ({ st with chain := c ++ [b] } : SyncerState).lastHash = b.hash := by
  simp [SyncerState.lastId, SyncerState.lastHash]

theorem submittedIds_append (a b : List GatewayCall) :
    submittedIds (a ++ b) = submittedIds a ++ submittedIds b := by
  induction a with
  | nil => rfl
  | cons x rest ih => cases x <;> simp [submittedIds, ih]

/-- The shape of a successful `deriveBlock`: the id was the next one, one
block was appended on top of the previous hash, and one payload with that id
was submitted and made canonical. -/
theorem deriveBlock_ok {g : ChainGateway} {st st1 : SyncerState} {m : LibDataBlockMetadata}
    {eff : List GatewayCall} (h : deriveBlock g st m = ⟨none, st1, eff⟩) :
    m.Id = st.lastId + 1 ∧
    ∃ b : L2Block, st1 = { st with chain := st.chain ++ [b] } ∧ b.id = m.Id ∧
      b.parentHash = st.lastHash ∧ b.l1Height = m.L1Height ∧ b.l1Hash = m.L1Hash ∧
      submittedIds eff = [m.Id] := by
  unfold deriveBlock at h
  split at h
  · cases h
  · rename_i hid
    refine ⟨by simpa using hid, ?_⟩
    split at h
    · cases h
    · dsimp only at h
      split at h
      · cases h
      · split at h
        · cases h
        · simp only [SyncResult.mk.injEq, true_and] at h
          obtain ⟨h1, h2⟩ := h
          subst h1; subst h2
          exact ⟨_, rfl, rfl, rfl, rfl, rfl, rfl⟩

/-- A failed `deriveBlock` leaves the state as it was and submits at most the
payload of that proposal. -/
theorem deriveBlock_err {g : ChainGateway} {st st1 : SyncerState} {m : LibDataBlockMetadata}
    {e : GoError} {eff : List GatewayCall} (h : deriveBlock g st m = ⟨some e, st1, eff⟩) :
    st1 = st ∧ (m.Id ≠ st.lastId + 1 → e = gapError ∧ eff = []) := by
  unfold deriveBlock at h
  split at h
  · simp only [SyncResult.mk.injEq, Option.some.injEq] at h
    obtain ⟨h1, h2, h3⟩ := h
    exact ⟨h2.symm, fun _ => ⟨h1.symm, h3.symm⟩⟩
  · rename_i hid
    refine ⟨?_, fun hne => absurd hne hid⟩
    split at h
    · simp only [SyncResult.mk.injEq] at h; exact h.2.1.symm
    · dsimp only at h
      split at h
      · simp only [SyncResult.mk.injEq] at h; exact h.2.1.symm
      · split at h
        · simp only [SyncResult.mk.injEq] at h; exact h.2.1.symm
        · cases h

/-- The shape of a successful `deriveAll`: one block per proposal, in order,
chained by parent hash onto the previous last block, each recording its
proposal's L1 height and hash; one payload per proposal; and the ids were the
consecutive ones. -/
theorem deriveAll_ok (g : ChainGateway) (events : List LibDataBlockMetadata) (st st1 : SyncerState)
    (eff : List GatewayCall) (h : deriveAll g events st = ⟨none, st1, eff⟩) :
    ∃ blocks : List L2Block, st1 = { st with chain := st.chain ++ blocks } ∧
      blocks.map (fun b => b.id) = events.map (fun m => m.Id) ∧
      chainedFrom st.lastHash blocks ∧
      blocks.map (fun b => (b.l1Height, b.l1Hash)) = events.map (fun m => (m.L1Height, m.L1Hash)) ∧
      submittedIds eff = events.map (fun m => m.Id) ∧
      events.map (fun m => m.Id) = List.range' (st.lastId + 1) events.length := by
  induction events generalizing st st1 eff with
  | nil =>
    simp only [deriveAll, SyncResult.mk.injEq, true_and] at h
    obtain ⟨h1, h2⟩ := h
    subst h1; subst h2
    exact ⟨[], by simp, rfl, trivial, rfl, rfl, rfl⟩
  | cons m rest ih =>
    simp only [deriveAll] at h
    cases hb : deriveBlock g st m with
    | mk err sta effa =>
      rw [hb] at h
      cases err with
      | some e => simp at h
      | none =>
        dsimp only at h
        cases hr : deriveAll g rest sta with
        | mk err2 stb effb =>
          rw [hr] at h
          simp only [SyncResult.mk.injEq] at h
          obtain ⟨h1, h2, h3⟩ := h
          subst h1; subst h2; subst h3
          obtain ⟨hid, b, hsta, hbid, hbp, hbh, hbx, hsub⟩ := deriveBlock_ok hb
          obtain ⟨blocks, q1, q2, q3, q4, q5, q6⟩ := ih sta stb effb hr
          subst hsta
          obtain ⟨l1, l2⟩ := lastId_append st st.chain b
          rw [l2] at q3
          rw [l1, hbid, hid] at q6
          refine ⟨b :: blocks, ?_, ?_, ⟨hbp, q3⟩, ?_, ?_, ?_⟩
          · rw [q1]; simp
          · simp [hbid, q2]
          · simp [hbh, hbx, q4]
          · rw [submittedIds_append, hsub, q5]; simp
          · simp only [List.map_cons, List.length_cons, List.range'_succ, hid, q6]

/-- With consecutive ids and a gateway that resolves, accepts and makes
canonical every payload, `deriveAll` succeeds. -/
theorem deriveAll_succeeds (g : ChainGateway) (events : List LibDataBlockMetadata)
    (st : SyncerState)
    (hres : ∀ m ∈ events, g.resolveCommit m ≠ .unresolved)
    (hsub : ∀ p, ∃ hash, g.submitExecutionPayload p = .ok hash)
    (hfc : ∀ hash, g.updateForkchoice hash = none)
    (hids : events.map (fun m => m.Id) = List.range' (st.lastId + 1) events.length) :
    (deriveAll g events st).err = none := by
  induction events generalizing st with
  | nil => rfl
  | cons m rest ih =>
    simp only [List.map_cons, List.length_cons, List.range'_succ, List.cons.injEq] at hids
    obtain ⟨hid, hrest⟩ := hids
    have hb : ∃ sta effa, deriveBlock g st m = ⟨none, sta, effa⟩ := by
      unfold deriveBlock
      rw [if_neg (by simpa using hid)]
      have hr := hres m (List.mem_cons_self _ _)
      split
      · rename_i hc; exact absurd hc hr
      · dsimp only
        split
        · rename_i e he
          obtain ⟨hash, hs⟩ := hsub _
          rw [hs] at he; cases he
        · simp only [hfc]
          exact ⟨_, _, rfl⟩
    obtain ⟨sta, effa, hb⟩ := hb
    obtain ⟨_, b, hsta, hbid, _⟩ := deriveBlock_ok hb
    have hnext : (deriveAll g rest sta).err = none := by
      apply ih sta (fun x hx => hres x (List.mem_cons_of_mem _ hx))
      rw [hsta, (lastId_append st st.chain b).1, hbid, hid]
      exact hrest
    simp only [deriveAll, hb]
    cases hr : deriveAll g rest sta with
    | mk err2 stb effb =>
      rw [hr] at hnext
      exact hnext

theorem deriveAll_cursor (g : ChainGateway) (events : List LibDataBlockMetadata)
    (st : SyncerState) :
    (deriveAll g events st).state.cursor = st.cursor ∧
    (deriveAll g events st).state.genesisHash = st.genesisHash := by
  induction events generalizing st with
  | nil => exact ⟨rfl, rfl⟩
  | cons m rest ih =>
    simp only [deriveAll]
    cases hb : deriveBlock g st m with
    | mk err sta effa =>
      cases err with
      | some e =>
        obtain ⟨h1, _⟩ := deriveBlock_err hb
        subst h1
        exact ⟨rfl, rfl⟩
      | none =>
        dsimp only
        obtain ⟨_, b, hsta, _⟩ := deriveBlock_ok hb
        obtain ⟨i1, i2⟩ := ih sta
        cases hr : deriveAll g rest sta with
        | mk err2 stb effb =>
          rw [hr] at i1 i2
          subst hsta
          exact ⟨i1, i2⟩

theorem deriveAll_lastId (g : ChainGateway) (events : List LibDataBlockMetadata)
    (st st1 : SyncerState) (eff : List GatewayCall)
    (h : deriveAll g events st = ⟨none, st1, eff⟩) : st1.lastId = st.lastId + events.length := by
  induction events generalizing st st1 eff with
  | nil =>
    simp only [deriveAll, SyncResult.mk.injEq, true_and] at h
    rw [← h.1]; rfl
  | cons m rest ih =>
    simp only [deriveAll] at h
    cases hb : deriveBlock g st m with
    | mk err sta effa =>
      rw [hb] at h
      cases err with
      | some e => simp at h
      | none =>
        dsimp only at h
        cases hr : deriveAll g rest sta with
        | mk err2 stb effb =>
          rw [hr] at h
          simp only [SyncResult.mk.injEq] at h
          obtain ⟨h1, h2, h3⟩ := h
          subst h1; subst h2
          obtain ⟨hid, b, hsta, hbid, _⟩ := deriveBlock_ok hb
          rw [ih sta stb effb hr, hsta, (lastId_append st st.chain b).1, hbid, hid]
          simp only [List.length_cons]
          omega

theorem deriveAll_append (g : ChainGateway) (pre rest : List LibDataBlockMetadata)
    (st st1 : SyncerState) (eff : List GatewayCall) (h : deriveAll g pre st = ⟨none, st1, eff⟩) :
    deriveAll g (pre ++ rest) st =
      ⟨(deriveAll g rest st1).err, (deriveAll g rest st1).state,
        eff ++ (deriveAll g rest st1).effects⟩ := by
  induction pre generalizing st st1 eff with
  | nil =>
    simp only [deriveAll, SyncResult.mk.injEq, true_and] at h
    obtain ⟨h1, h2⟩ := h
    subst h1; subst h2
    simp
  | cons m more ih =>
    simp only [deriveAll] at h
    cases hb : deriveBlock g st m with
    | mk err sta effa =>
      rw [hb] at h
      cases err with
      | some e => simp at h
      | none =>
        dsimp only at h
        cases hr : deriveAll g more sta with
        | mk err2 stb effb =>
          rw [hr] at h
          simp only [SyncResult.mk.injEq] at h
          obtain ⟨h1, h2, h3⟩ := h
          subst h1; subst h2; subst h3
          have hi := ih sta stb effb hr
          rw [List.cons_append]
          simp only [deriveAll, hb]
          rw [hi]
          simp only [List.append_assoc]

theorem reorgDetected_nil (g : ChainGateway) (st : SyncerState) (h : st.chain = []) :
    reorgDetected g st = false := by
  simp [reorgDetected, h]

/-- C13: on a syncer that has derived nothing yet, whenever `Sync` succeeds on
the proposals of the window, the derived chain has exactly one block per
proposal, in the order and with the ids of the proposals, each block's parent
hash being the hash of the block derived before it (the genesis hash for the
first), one payload was submitted per proposal, and the cursor is at the
target; and `Sync` does succeed when the ids are 1, 2, 3, ... and the gateway
resolves, accepts and makes canonical every payload. -/
theorem one_block_per_proposal (g : ChainGateway) (st : SyncerState) (target : Header)
    (events : List LibDataBlockMetadata)
    (hfresh : st.chain = []) (hwin : st.cursor < target.number)
    (hlogs : g.getBlockProposedLogs (st.cursor + 1) target.number = .ok events) :
    ((Sync g st target).err = none →
      (Sync g st target).state.chain.map (fun b => b.id) = events.map (fun m => m.Id) ∧
      (Sync g st target).state.chain.length = events.length ∧
      chainedFrom st.genesisHash (Sync g st target).state.chain ∧
      submittedIds (Sync g st target).effects = events.map (fun m => m.Id) ∧
      (Sync g st target).state.cursor = target.number) ∧
    ((∀ m ∈ events, g.resolveCommit m ≠ .unresolved) →
      (∀ p, ∃ hash, g.submitExecutionPayload p = .ok hash) →
      (∀ hash, g.updateForkchoice hash = none) →
      events.map (fun m => m.Id) = List.range' 1 events.length →
      (Sync g st target).err = none) := by
  have hsync : Sync g st target =
      match deriveAll g events st with
      | ⟨some e, st1, eff⟩ => ⟨some e, st1, eff⟩
      | ⟨none, st1, eff⟩ => ⟨none, { st1 with cursor := target.number }, eff⟩ := by
    simp only [Sync, reorgDetected_nil g st hfresh, syncForward, hlogs]
    rw [if_neg (Nat.not_le.mpr hwin)]
    simp
  have hlast : st.lastId = 0 ∧ st.lastHash = st.genesisHash := by
    simp [SyncerState.lastId, SyncerState.lastHash, hfresh]
  constructor
  · intro hok
    rw [hsync] at hok ⊢
    cases hd : deriveAll g events st with
    | mk err st1 eff =>
      rw [hd] at hok
      cases err with
      | some e => simp at hok
      | none =>
        dsimp only
        obtain ⟨blocks, q1, q2, q3, _, q5, _⟩ := deriveAll_ok g events st st1 eff hd
        subst q1
        have hc : st.chain ++ blocks = blocks := by rw [hfresh]; rfl
        rw [hlast.2] at q3
        refine ⟨?_, ?_, ?_, q5, rfl⟩
        · show (st.chain ++ blocks).map (fun b => b.id) = _
          rw [hc]; exact q2
        · show (st.chain ++ blocks).length = _
          rw [hc]
          have := congrArg List.length q2
          simpa using this
        · show chainedFrom st.genesisHash (st.chain ++ blocks)
          rw [hc]; exact q3
  · intro hres hsub hfc hids
    have hd := deriveAll_succeeds g events st hres hsub hfc (by rw [hlast.1]; exact hids)
    rw [hsync]
    cases hr : deriveAll g events st with
    | mk err st1 eff =>
      rw [hr] at hd
      dsimp only at hd
      subst hd
      rfl

/-- Witness for `one_block_per_proposal`: proposals 1, 2 and 3 at L1 heights
101, 102 and 104 give three chained blocks. -/
theorem one_block_per_proposal_witness :
    (Sync (gatewayOf [proposalAt 1 101 1010, proposalAt 2 102 1020, proposalAt 3 104 1040]
        canonBefore) freshSyncer ⟨110, 1100⟩).err = none ∧
    (Sync (gatewayOf [proposalAt 1 101 1010, proposalAt 2 102 1020, proposalAt 3 104 1040]
        canonBefore) freshSyncer ⟨110, 1100⟩).state = syncedTo110 :=
  ⟨(one_block_per_proposal
      (gatewayOf [proposalAt 1 101 1010, proposalAt 2 102 1020, proposalAt 3 104 1040] canonBefore)
      freshSyncer ⟨110, 1100⟩ [proposalAt 1 101 1010, proposalAt 2 102 1020, proposalAt 3 104 1040]
      rfl (by decide) rfl).2 (by decide) (fun p => ⟨1000 + p.id, rfl⟩) (fun _ => rfl)
      (by decide),
    by decide⟩

/-- C14: when the proposals before a gap have been derived and the next
proposal skips an id, `Sync` fails with the gap error; the payloads submitted
are those of the proposals before the gap and none carries the id after the
gap; the last derived id is the last contiguous one and the cursor has not
moved. -/
theorem gap_rejected (g : ChainGateway) (st st1 : SyncerState) (target : Header)
    (pre post : List LibDataBlockMetadata) (m : LibDataBlockMetadata) (eff : List GatewayCall)
    (hnormal : reorgDetected g st = false) (hwin : st.cursor < target.number)
    (hlogs : g.getBlockProposedLogs (st.cursor + 1) target.number = .ok (pre ++ m :: post))
    (hpre : deriveAll g pre st = ⟨none, st1, eff⟩)
    (hgap : st1.lastId + 1 < m.Id) :
    Sync g st target = ⟨some gapError, st1, eff⟩ ∧
    submittedIds eff = pre.map (fun x => x.Id) ∧
    m.Id ∉ submittedIds eff ∧
    st1.lastId = st.lastId + pre.length ∧
    st1.cursor = st.cursor := by
  have hm : deriveBlock g st1 m = ⟨some gapError, st1, []⟩ := by
    unfold deriveBlock
    rw [if_pos (Nat.ne_of_gt hgap)]
  have hall : deriveAll g (pre ++ m :: post) st = ⟨some gapError, st1, eff⟩ := by
    rw [deriveAll_append g pre (m :: post) st st1 eff hpre]
    simp only [deriveAll, hm, List.append_nil]
  obtain ⟨blocks, _, _, _, _, q5, q6⟩ := deriveAll_ok g pre st st1 eff hpre
  have hl := deriveAll_lastId g pre st st1 eff hpre
  have hc := (deriveAll_cursor g pre st).1
  rw [hpre] at hc
  refine ⟨?_, q5, ?_, hl, hc⟩
  · simp only [Sync, hnormal, syncForward, hlogs, hall]
    rw [if_neg (Nat.not_le.mpr hwin)]
    simp
  · rw [q5, q6]
    intro hmem
    rw [List.mem_range'_1] at hmem
    omega

/-- Witness for `gap_rejected`: the ids 1, 2, 4. -/
theorem gap_rejected_witness :
    Sync (gatewayOf [proposalAt 1 101 1010, proposalAt 2 102 1020, proposalAt 4 104 1040]
        canonBefore) freshSyncer ⟨110, 1100⟩ =
      ⟨some gapError,
        { freshSyncer with chain := [⟨1, 1001, 999, 101, 1010, false⟩,
                                     ⟨2, 1002, 1001, 102, 1020, false⟩] },
        [.submitPayload ⟨1, 999, 77, 5000000, 1101, [], false⟩, .forkchoice 1001,
         .submitPayload ⟨2, 1001, 77, 5000000, 1102, [], false⟩, .forkchoice 1002]⟩ ∧
    4 ∉ submittedIds [GatewayCall.submitPayload ⟨1, 999, 77, 5000000, 1101, [], false⟩,
      .forkchoice 1001, .submitPayload ⟨2, 1001, 77, 5000000, 1102, [], false⟩,
      .forkchoice 1002] :=
  have h := gap_rejected
    (gatewayOf [proposalAt 1 101 1010, proposalAt 2 102 1020, proposalAt 4 104 1040] canonBefore)
    freshSyncer
    { freshSyncer with chain := [⟨1, 1001, 999, 101, 1010, false⟩,
                                 ⟨2, 1002, 1001, 102, 1020, false⟩] }
    ⟨110, 1100⟩ [proposalAt 1 101 1010, proposalAt 2 102 1020] [] (proposalAt 4 104 1040)
    [.submitPayload ⟨1, 999, 77, 5000000, 1101, [], false⟩, .forkchoice 1001,
     .submitPayload ⟨2, 1001, 77, 5000000, 1102, [], false⟩, .forkchoice 1002]
    (by decide) (by decide) rfl (by decide) (by decide)
  ⟨h.1, h.2.2.1⟩

theorem findCommonAncestor_none (g : ChainGateway) (st : SyncerState)
    (hnone : ∀ depth, depth < MaxReorgDepth → depth ≤ st.cursor →
      recordedMatch g st (st.cursor - depth) = false) :
    findCommonAncestor g st = none := by
  unfold findCommonAncestor
  rw [List.findSome?_eq_none_iff]
  intro k hk
  unfold searchBatch
  rw [List.findSome?_eq_none_iff]
  intro j hj
  rw [List.mem_range] at hk hj
  have hd : k * ReorgRollbackDepth + j < MaxReorgDepth := by
    simp only [MaxReorgDepth, ReorgRollbackDepth] at hk hj ⊢
    omega
  rw [if_neg]
  rintro ⟨h1, h2⟩
  rw [hnone _ hd h1] at h2
  cases h2

/-- C16: when a reorg is detected and, within the `MaxReorgDepth` (500)
heights walked back from the cursor, no height has a recorded L1 hash that
matches the canonical chain, `Sync` returns the deep-reorg error whatever the
target, makes no control-plane call, and leaves the state, the cursor
included, as it is.  The error is terminal: `backoff.Retry` returns on it at
once whatever the clock says, so the pass that met it makes no second call of
`Sync` and ends with the error logged; and any further call of `Sync` on the
state left behind fails in the same way. -/
theorem deep_reorg_is_fatal (g : ChainGateway) (st : SyncerState) (target : Header)
    (hdet : reorgDetected g st = true)
    (hnone : ∀ depth, depth < MaxReorgDepth → depth ≤ st.cursor →
      recordedMatch g st (st.cursor - depth) = false) :
    Sync g st target = ⟨some deepReorgError, st, []⟩ ∧
    (Sync g st target).state.cursor = st.cursor ∧
    MaxReorgDepth = 500 ∧
    (∀ el nx, retryIter NewExponentialBackOff (Sync g st target).err el nx =
      .finished (some deepReorgError.permanentErr)) ∧
    (∀ (s : LoopState) (el nx : Nat), s.d.ctxDone = false →
      attemptStep s (doSync s.d (Sync g st target).err).1 el nx =
        { s with pc := .selecting,
                 trace := s.trace ++ [Obs.syncCall s.d.l1Head,
                   Obs.passEnd (some deepReorgError.permanentErr)] }) ∧
    (∀ target2, Sync g (Sync g st target).state target2 = ⟨some deepReorgError, st, []⟩) := by
  have h : ∀ t, Sync g st t = ⟨some deepReorgError, st, []⟩ := by
    intro t
    simp only [Sync, hdet, if_true, findCommonAncestor_none g st hnone]
  refine ⟨h target, by rw [h target], rfl, ?_, ?_, ?_⟩
  · intro el nx
    rw [h target]
    rfl
  · intro s el nx hctx
    rw [h target]
    have hd : (doSync s.d (some deepReorgError)).1 = some deepReorgError := by
      simp [doSync, hctx]
    rw [hd]
    exact attemptStep_permanent s deepReorgError el nx hctx rfl
  · intro target2
    rw [h target]
    exact h target2

theorem recordedMatch_syncedTo110 (h : Nat) :
    recordedMatch (gatewayOf [] canonReplaced) syncedTo110 h = false := by
  simp only [recordedMatch, syncedTo110, gatewayOf, canonReplaced, List.any_cons, List.any_nil,
    Bool.or_false, Bool.or_eq_false_iff, decide_eq_false_iff_not]
  omega

/-- Witness for `deep_reorg_is_fatal`: every L1 block has been replaced. -/
theorem deep_reorg_is_fatal_witness :
    Sync (gatewayOf [] canonReplaced) syncedTo110 ⟨120, 1207⟩ =
      ⟨some deepReorgError, syncedTo110, []⟩ ∧
    retryIter NewExponentialBackOff
      (Sync (gatewayOf [] canonReplaced) syncedTo110 ⟨120, 1207⟩).err 1000 500000000 =
      .finished (some deepReorgError.permanentErr) :=
  have h := deep_reorg_is_fatal (gatewayOf [] canonReplaced) syncedTo110 ⟨120, 1207⟩
    (by decide) (fun depth _ _ => recordedMatch_syncedTo110 _)
  ⟨h.1, h.2.2.2.1 1000 500000000⟩

/-! ## Bound on sync passes and pending requests -/

theorem headsConsumed_append (t u : List Obs) :
    headsConsumed (t ++ u) = headsConsumed t + headsConsumed u := by
  simp [headsConsumed, List.countP_append]

theorem step_passInv (st : Step) (s s' : LoopState) (hi : PassInv s ∧ SlotInv s)
    (h : step st s = some s') : PassInv s' ∧ SlotInv s' := by
  refine ⟨?_, step_slotInv h hi.2⟩
  obtain ⟨hp, hc, hl⟩ := hi
  unfold PassInv at hp ⊢
  have he := step_effect h
  cases st <;> simp only [StepEffect] at he
  case headArrives hd => obtain ⟨_, rfl⟩ := he; exact hp
  case l1HeadUpdated hd => subst he; exact hp
  case cancel => subst he; exact hp
  case start =>
    obtain ⟨hpc, rfl⟩ := he
    rw [hpc] at hp
    exact hp
  case closeState =>
    obtain ⟨_, rfl⟩ := he
    obtain ⟨c1, _, c3, _⟩ := counters_append_single s.trace Obs.stateClose
    show passes (s.trace ++ [Obs.stateClose]) + _ ≤ _ + headsConsumed (s.trace ++ [Obs.stateClose])
    rw [c1, c3]
    simpa [Obs.isRecvHead] using hp
  case closeWait =>
    obtain ⟨_, _, rfl⟩ := he
    obtain ⟨c1, _, c3, _⟩ := counters_append_single s.trace Obs.wgWaitReturn
    show passes (s.trace ++ [Obs.wgWaitReturn]) + _ ≤
      _ + headsConsumed (s.trace ++ [Obs.wgWaitReturn])
    rw [c1, c3]
    simpa [Obs.isRecvHead] using hp
  case startupPass =>
    obtain ⟨hpc, rfl⟩ := he
    rw [hpc] at hp
    obtain ⟨c1, _, c3, _⟩ := counters_append_single s.trace Obs.passStart
    show passes (s.trace ++ [Obs.passStart]) + _ ≤
      startupPasses .retrying + headsConsumed (s.trace ++ [Obs.passStart])
    rw [c1, c3]
    simp only [startupPasses, Obs.isRecvHead, if_true] at hp ⊢
    simp only [Bool.false_eq_true, if_false]
    omega
  case attempt r e n =>
    obtain ⟨hpc, rfl⟩ := he
    rw [hpc] at hp
    obtain ⟨c1, _⟩ := counters_attemptStep s r e n hpc
    rw [attemptStep_d, passes_attemptStep, c1]
    rcases attemptStep_pc s r e n with h1 | h1
    · rw [h1, hpc]; exact hp
    · rw [h1]; exact hp
  case selCtxDone =>
    obtain ⟨hpc, _, rfl⟩ := he
    rw [hpc] at hp
    obtain ⟨c1, _, c3, _⟩ := counters_append_single s.trace Obs.loopReturn
    show passes (s.trace ++ [Obs.loopReturn]) + _ ≤
      startupPasses .returned + headsConsumed (s.trace ++ [Obs.loopReturn])
    rw [c1, c3]
    simpa [Obs.isRecvHead, startupPasses] using hp
  case selSyncNotify =>
    obtain ⟨hpc, c, hb, _, rfl⟩ := he
    rw [hpc] at hp
    have hlen : s.d.syncNotify.buf.length = c.buf.length + 1 := by rw [hb]; simp
    show passes (s.trace ++ [Obs.recvSyncNotify, Obs.passStart]) + c.buf.length ≤
      startupPasses .retrying + headsConsumed (s.trace ++ [Obs.recvSyncNotify, Obs.passStart])
    rw [passes_append, headsConsumed_append]
    have e1 : passes [Obs.recvSyncNotify, Obs.passStart] = 1 := by simp [passes]
    have e2 : headsConsumed [Obs.recvSyncNotify, Obs.passStart] = 0 := by
      simp [headsConsumed, Obs.isRecvHead]
    simp only [startupPasses] at hp ⊢
    omega
  case selL1Head =>
    obtain ⟨hpc, hd, c, _, _, rfl⟩ := he
    have hts := trySend_unit_len s.d.syncNotify
    show passes (s.trace ++ [Obs.recvHead hd]) + (s.d.syncNotify.trySend ()).buf.length ≤
      startupPasses s.pc + headsConsumed (s.trace ++ [Obs.recvHead hd])
    rw [passes_append, headsConsumed_append, hts]
    have e1 : passes [Obs.recvHead hd] = 0 := by simp [passes]
    have e2 : headsConsumed [Obs.recvHead hd] = 1 := by simp [headsConsumed, Obs.isRecvHead]
    split <;> omega

theorem passInv_init (ctx : Bool) (h0 : Header) :
    PassInv (initState ctx h0) ∧ SlotInv (initState ctx h0) := by
  refine ⟨?_, slotInv_init ctx h0⟩
  simp [PassInv, initState, initDriver, Chan.make, passes, headsConsumed, startupPasses]

/-- The bound on the trace of the system with one event loop: in every state
reachable from a freshly initialised driver that is started once, the number of sync passes started is at most one more than the
number of head notifications consumed from `l1HeadCh`; counting the pending
request in `syncNotify` as well, the bound still holds, and before the startup
pass no pass has started at all. -/
theorem passes_bounded_by_notifications (ctx : Bool) (h0 : Header) (ss : List Step)
    (s : LoopState) (hrun : run ss (initState ctx h0) = some s) :
    passes s.trace ≤ 1 + headsConsumed s.trace ∧
    passes s.trace + s.d.syncNotify.buf.length ≤ 1 + headsConsumed s.trace ∧
    (s.pc = .notStarted ∨ s.pc = .startup → passes s.trace = 0) := by
  have hinv : PassInv s ∧ SlotInv s :=
    run_induction (P := fun x => PassInv x ∧ SlotInv x) step_passInv hrun (passInv_init ctx h0)
  have hp := hinv.1
  unfold PassInv at hp
  have hs : startupPasses s.pc ≤ 1 := by cases s.pc <;> simp [startupPasses]
  have hh : headsConsumed s.trace = 0 → startupPasses s.pc = 0 → passes s.trace = 0 := by
    intro a b; omega
  refine ⟨by omega, by omega, ?_⟩
  intro hpc
  have hz : startupPasses s.pc = 0 := by
    rcases hpc with h | h <;> rw [h] <;> rfl
  rw [hz] at hp
  -- before the startup pass nothing can have been consumed either
  have hpre : headsConsumed s.trace = 0 := by
    have key : (s.pc = .notStarted ∨ s.pc = .startup) → headsConsumed s.trace = 0 := by
      have := run_induction
        (P := fun x => (x.pc = .notStarted ∨ x.pc = .startup) → headsConsumed x.trace = 0)
        (by
          intro st a b hP hstep
          have he := step_effect hstep
          cases st <;> simp only [StepEffect] at he
          case headArrives hd => obtain ⟨_, rfl⟩ := he; exact hP
          case l1HeadUpdated hd => subst he; exact hP
          case cancel => subst he; exact hP
          case start =>
            obtain ⟨hq, rfl⟩ := he
            intro _; exact hP (Or.inl hq)
          case closeState =>
            obtain ⟨_, rfl⟩ := he
            intro hq
            show headsConsumed (a.trace ++ [Obs.stateClose]) = 0
            rw [headsConsumed_append, hP hq]; simp [headsConsumed, Obs.isRecvHead]
          case closeWait =>
            obtain ⟨_, _, rfl⟩ := he
            intro hq
            show headsConsumed (a.trace ++ [Obs.wgWaitReturn]) = 0
            rw [headsConsumed_append, hP hq]; simp [headsConsumed, Obs.isRecvHead]
          case startupPass =>
            obtain ⟨_, rfl⟩ := he
            intro hq; rcases hq with hq | hq <;> cases hq
          case attempt r e n =>
            obtain ⟨hq, rfl⟩ := he
            intro hq2
            rcases attemptStep_pc a r e n with h1 | h1
            · rw [h1, hq] at hq2; rcases hq2 with hq2 | hq2 <;> cases hq2
            · rw [h1] at hq2; rcases hq2 with hq2 | hq2 <;> cases hq2
          case selCtxDone =>
            obtain ⟨_, _, rfl⟩ := he
            intro hq; rcases hq with hq | hq <;> cases hq
          case selSyncNotify =>
            obtain ⟨_, c, _, _, rfl⟩ := he
            intro hq; rcases hq with hq | hq <;> cases hq
          case selL1Head =>
            obtain ⟨hq, hd, c, _, _, rfl⟩ := he
            intro hq2
            rcases hq2 with hq2 | hq2
            · have : a.pc = Pc.notStarted := hq2
              rw [hq] at this; cases this
            · have : a.pc = Pc.startup := hq2
              rw [hq] at this; cases this)
        hrun (by intro _; rfl)
      exact this
    exact key hpc
  omega

/-- C22: in every state reachable from a freshly initialised driver, the
step that consumes a head notification leaves exactly one request pending in
`syncNotify`, whether the slot was empty or full before; and the only step
that takes a request out of `syncNotify` is the one that starts a sync
pass. -/
theorem no_lost_wakeup (ctx : Bool) (h0 : Header) (ss : List Step) (s s' : LoopState)
    (st : Step) (hrun : run ss (initState ctx h0) = some s) (hstep : step st s = some s') :
    (st = .selL1Head → s'.d.syncNotify.buf = [()] ∧
      headsConsumed s'.trace = headsConsumed s.trace + 1) ∧
    (s'.d.syncNotify.buf.length < s.d.syncNotify.buf.length →
      st = .selSyncNotify ∧ passes s'.trace = passes s.trace + 1 ∧ s'.pc = .retrying) := by
  obtain ⟨hc, hl⟩ := run_slotInv hrun (slotInv_init ctx h0)
  simp only [syncNotifyCap] at hc hl
  have he := step_effect hstep
  cases st <;> simp only [StepEffect] at he
  case headArrives hd =>
    obtain ⟨_, rfl⟩ := he
    exact ⟨(fun h => by cases h), fun h => absurd h (lt_irrefl _)⟩
  case l1HeadUpdated hd =>
    subst he; exact ⟨(fun h => by cases h), fun h => absurd h (lt_irrefl _)⟩
  case cancel => subst he; exact ⟨(fun h => by cases h), fun h => absurd h (lt_irrefl _)⟩
  case start =>
    obtain ⟨_, rfl⟩ := he
    exact ⟨(fun h => by cases h), fun h => absurd h (lt_irrefl _)⟩
  case closeState =>
    obtain ⟨_, rfl⟩ := he
    exact ⟨(fun h => by cases h), fun h => absurd h (lt_irrefl _)⟩
  case closeWait =>
    obtain ⟨_, _, rfl⟩ := he
    exact ⟨(fun h => by cases h), fun h => absurd h (lt_irrefl _)⟩
  case startupPass =>
    obtain ⟨_, rfl⟩ := he
    exact ⟨(fun h => by cases h), fun h => absurd h (lt_irrefl _)⟩
  case attempt r e n =>
    obtain ⟨_, rfl⟩ := he
    refine ⟨(fun h => by cases h), fun h => ?_⟩
    rw [attemptStep_d] at h
    exact absurd h (lt_irrefl _)
  case selCtxDone =>
    obtain ⟨_, _, rfl⟩ := he
    exact ⟨(fun h => by cases h), fun h => absurd h (lt_irrefl _)⟩
  case selSyncNotify =>
    obtain ⟨_, c, _, _, rfl⟩ := he
    refine ⟨(fun h => by cases h), fun _ => ⟨rfl, ?_, rfl⟩⟩
    show passes (s.trace ++ [Obs.recvSyncNotify, Obs.passStart]) = _
    rw [passes_append]; simp [passes]
  case selL1Head =>
    obtain ⟨_, hd, c, _, _, rfl⟩ := he
    have hts := trySend_unit_len s.d.syncNotify
    refine ⟨fun _ => ⟨?_, ?_⟩, fun h => ?_⟩
    · show (s.d.syncNotify.trySend ()).buf = [()]
      have hlen : (s.d.syncNotify.trySend ()).buf.length = 1 := by
        rw [hts]; split <;> omega
      cases hb : (s.d.syncNotify.trySend ()).buf with
      | nil => rw [hb] at hlen; cases hlen
      | cons x xs =>
        rw [hb] at hlen
        cases xs with
        | nil => rfl
        | cons y ys => simp at hlen
    · show headsConsumed (s.trace ++ [Obs.recvHead hd]) = _
      rw [headsConsumed_append]; simp [headsConsumed, Obs.isRecvHead]
    · have h2 : (s.d.syncNotify.trySend ()).buf.length < s.d.syncNotify.buf.length := h
      rw [hts] at h2
      split at h2 <;> omega

/-- The bound is reached on the trace of the system with one event loop:
three passes after two consumed notifications. -/
theorem passes_bounded_by_notifications_witness :
    passes burstEnd.trace ≤ 1 + headsConsumed burstEnd.trace ∧ passes burstEnd.trace = 3 ∧
      headsConsumed burstEnd.trace = 2 :=
  ⟨(passes_bounded_by_notifications false ⟨6, 60⟩
      ([.start, .startupPass, .headArrives ⟨7, 70⟩, .headArrives ⟨8, 80⟩] ++ burstSchedule)
      burstEnd (by decide)).1, by decide, by decide⟩

/-- Witness for `no_lost_wakeup`: a notification consumed while the slot is
already full leaves exactly one request pending. -/
theorem no_lost_wakeup_witness :
    twoHeadsDrained.d.syncNotify.buf = [()] ∧
      headsConsumed twoHeadsDrained.trace = headsConsumed oneHeadDrained.trace + 1 :=
  (no_lost_wakeup false ⟨6, 60⟩
    [.start, .startupPass, .headArrives ⟨7, 70⟩, .headArrives ⟨8, 80⟩, .attempt none 0 0,
     .selL1Head]
    oneHeadDrained twoHeadsDrained .selL1Head (by decide) (by decide)).1 rfl

/-! ## `NewClient` is all-or-nothing -/

/-- The result pair of `NewClient` never holds both a client and an error, nor
neither. -/
theorem newClient_pair (w : RpcWorld) (cfg : ClientConfig) :
    ((NewClient w cfg).client.isSome = true ↔ (NewClient w cfg).err = none) := by
  unfold NewClient NewClient.finish
  repeat' split
  all_goals simp

/-- What `NewClient` does once the eight steps before the guard have
succeeded. -/
theorem newClient_after_guard (w : RpcWorld) (cfg : ClientConfig) (x : Dialled)
    (h : guardReachedWith w cfg x) :
    NewClient w cfg =
      if engineConfigured cfg then
        match w.dialEngine cfg.L2EngineEndpoint cfg.JwtSecret with
        | .error err =>
          ⟨none, some err, preGuardCalls cfg x ++ [.dialEngine cfg.L2EngineEndpoint cfg.JwtSecret]⟩
        | .ok l2AuthRPC =>
          NewClient.finish w (builtClient x (some l2AuthRPC))
            (preGuardCalls cfg x ++ [.dialEngine cfg.L2EngineEndpoint cfg.JwtSecret])
      else NewClient.finish w (builtClient x none) (preGuardCalls cfg x) := by
  obtain ⟨h1, h2, h3, h4, h5, h6, h7, h8⟩ := h
  simp only [NewClient, h1, h2, h3, h4, h5, h6, h7, h8, engineConfigured, preGuardCalls,
    builtClient]

/-- C25: `NewClient` returns a client exactly when it returns no error.  The
first step that fails ends the call with `(nil, err)`, the calls made being
those up to and including the failing one; and when every step has succeeded
but `ensureGenesisMatched` fails, the client that was built is dropped and
`(nil, err)` is returned. -/
theorem newClient_all_or_nothing (w : RpcWorld) (cfg : ClientConfig) :
    ((NewClient w cfg).client.isSome = true ↔ (NewClient w cfg).err = none) ∧
    (∀ e, w.dialClient cfg.L1Endpoint = .error e →
      NewClient w cfg = ⟨none, some e, [.dialClient cfg.L1Endpoint]⟩) ∧
    (∀ e l1RPC, w.dialClient cfg.L1Endpoint = .ok l1RPC →
      w.newTaikoL1Client cfg.TaikoL1Address l1RPC = .error e →
      NewClient w cfg =
        ⟨none, some e, [.dialClient cfg.L1Endpoint, .newTaikoL1Client cfg.TaikoL1Address]⟩) ∧
    (∀ e l1RPC taikoL1, w.dialClient cfg.L1Endpoint = .ok l1RPC →
      w.newTaikoL1Client cfg.TaikoL1Address l1RPC = .ok taikoL1 →
      w.dialClient cfg.L2Endpoint = .error e →
      NewClient w cfg =
        ⟨none, some e, [.dialClient cfg.L1Endpoint, .newTaikoL1Client cfg.TaikoL1Address,
          .dialClient cfg.L2Endpoint]⟩) ∧
    (∀ e l1RPC taikoL1 l2RPC, w.dialClient cfg.L1Endpoint = .ok l1RPC →
      w.newTaikoL1Client cfg.TaikoL1Address l1RPC = .ok taikoL1 →
      w.dialClient cfg.L2Endpoint = .ok l2RPC →
      w.newV1TaikoL2Client cfg.TaikoL2Address l2RPC = .error e →
      NewClient w cfg =
        ⟨none, some e, [.dialClient cfg.L1Endpoint, .newTaikoL1Client cfg.TaikoL1Address,
          .dialClient cfg.L2Endpoint, .newV1TaikoL2Client cfg.TaikoL2Address]⟩) ∧
    (∀ e l1RPC taikoL1 l2RPC taikoL2, w.dialClient cfg.L1Endpoint = .ok l1RPC →
      w.newTaikoL1Client cfg.TaikoL1Address l1RPC = .ok taikoL1 →
      w.dialClient cfg.L2Endpoint = .ok l2RPC →
      w.newV1TaikoL2Client cfg.TaikoL2Address l2RPC = .ok taikoL2 →
      w.rawDial cfg.L1Endpoint = .error e →
      NewClient w cfg =
        ⟨none, some e, [.dialClient cfg.L1Endpoint, .newTaikoL1Client cfg.TaikoL1Address,
          .dialClient cfg.L2Endpoint, .newV1TaikoL2Client cfg.TaikoL2Address,
          .rawDial cfg.L1Endpoint]⟩) ∧
    (∀ e l1RPC taikoL1 l2RPC taikoL2 l1RawRPC, w.dialClient cfg.L1Endpoint = .ok l1RPC →
      w.newTaikoL1Client cfg.TaikoL1Address l1RPC = .ok taikoL1 →
      w.dialClient cfg.L2Endpoint = .ok l2RPC →
      w.newV1TaikoL2Client cfg.TaikoL2Address l2RPC = .ok taikoL2 →
      w.rawDial cfg.L1Endpoint = .ok l1RawRPC →
      w.rawDial cfg.L2Endpoint = .error e →
      NewClient w cfg =
        ⟨none, some e, [.dialClient cfg.L1Endpoint, .newTaikoL1Client cfg.TaikoL1Address,
          .dialClient cfg.L2Endpoint, .newV1TaikoL2Client cfg.TaikoL2Address,
          .rawDial cfg.L1Endpoint, .rawDial cfg.L2Endpoint]⟩) ∧
    (∀ e l1RPC taikoL1 l2RPC taikoL2 l1RawRPC l2RawRPC, w.dialClient cfg.L1Endpoint = .ok l1RPC →
      w.newTaikoL1Client cfg.TaikoL1Address l1RPC = .ok taikoL1 →
      w.dialClient cfg.L2Endpoint = .ok l2RPC →
      w.newV1TaikoL2Client cfg.TaikoL2Address l2RPC = .ok taikoL2 →
      w.rawDial cfg.L1Endpoint = .ok l1RawRPC →
      w.rawDial cfg.L2Endpoint = .ok l2RawRPC →
      w.chainID l1RPC = .error e →
      NewClient w cfg =
        ⟨none, some e, [.dialClient cfg.L1Endpoint, .newTaikoL1Client cfg.TaikoL1Address,
          .dialClient cfg.L2Endpoint, .newV1TaikoL2Client cfg.TaikoL2Address,
          .rawDial cfg.L1Endpoint, .rawDial cfg.L2Endpoint, .chainID l1RPC]⟩) ∧
    (∀ e l1RPC taikoL1 l2RPC taikoL2 l1RawRPC l2RawRPC l1ChainID,
      w.dialClient cfg.L1Endpoint = .ok l1RPC →
      w.newTaikoL1Client cfg.TaikoL1Address l1RPC = .ok taikoL1 →
      w.dialClient cfg.L2Endpoint = .ok l2RPC →
      w.newV1TaikoL2Client cfg.TaikoL2Address l2RPC = .ok taikoL2 →
      w.rawDial cfg.L1Endpoint = .ok l1RawRPC →
      w.rawDial cfg.L2Endpoint = .ok l2RawRPC →
      w.chainID l1RPC = .ok l1ChainID →
      w.chainID l2RPC = .error e →
      NewClient w cfg =
        ⟨none, some e, [.dialClient cfg.L1Endpoint, .newTaikoL1Client cfg.TaikoL1Address,
          .dialClient cfg.L2Endpoint, .newV1TaikoL2Client cfg.TaikoL2Address,
          .rawDial cfg.L1Endpoint, .rawDial cfg.L2Endpoint, .chainID l1RPC, .chainID l2RPC]⟩) ∧
    (∀ e x, guardReachedWith w cfg x → engineConfigured cfg →
      w.dialEngine cfg.L2EngineEndpoint cfg.JwtSecret = .error e →
      NewClient w cfg =
        ⟨none, some e,
          preGuardCalls cfg x ++ [.dialEngine cfg.L2EngineEndpoint cfg.JwtSecret]⟩) ∧
    (∀ e x l2AuthRPC, guardReachedWith w cfg x → engineConfigured cfg →
      w.dialEngine cfg.L2EngineEndpoint cfg.JwtSecret = .ok l2AuthRPC →
      w.ensureGenesisMatched (builtClient x (some l2AuthRPC)) = some e →
      NewClient w cfg =
        ⟨none, some e,
          preGuardCalls cfg x ++ [.dialEngine cfg.L2EngineEndpoint cfg.JwtSecret,
            .ensureGenesisMatched]⟩) ∧
    (∀ e x, guardReachedWith w cfg x → ¬ engineConfigured cfg →
      w.ensureGenesisMatched (builtClient x none) = some e →
      NewClient w cfg = ⟨none, some e, preGuardCalls cfg x ++ [.ensureGenesisMatched]⟩) := by
  refine ⟨newClient_pair w cfg, ?_, ?_, ?_, ?_, ?_, ?_, ?_, ?_, ?_, ?_, ?_⟩
  · intro e h1
    simp only [NewClient, h1]
  · intro e a1 h1 h2
    simp only [NewClient, h1, h2]
  · intro e a1 a2 h1 h2 h3
    simp only [NewClient, h1, h2, h3]
  · intro e a1 a2 a3 h1 h2 h3 h4
    simp only [NewClient, h1, h2, h3, h4]
  · intro e a1 a2 a3 a4 h1 h2 h3 h4 h5
    simp only [NewClient, h1, h2, h3, h4, h5]
  · intro e a1 a2 a3 a4 a5 h1 h2 h3 h4 h5 h6
    simp only [NewClient, h1, h2, h3, h4, h5, h6]
  · intro e a1 a2 a3 a4 a5 a6 h1 h2 h3 h4 h5 h6 h7
    simp only [NewClient, h1, h2, h3, h4, h5, h6, h7]
  · intro e a1 a2 a3 a4 a5 a6 a7 h1 h2 h3 h4 h5 h6 h7 h8
    simp only [NewClient, h1, h2, h3, h4, h5, h6, h7, h8]
  · intro e x hx hcfg he
    rw [newClient_after_guard w cfg x hx, if_pos hcfg, he]
  · intro e x a hx hcfg he hg
    rw [newClient_after_guard w cfg x hx, if_pos hcfg, he]
    simp only [NewClient.finish, hg, List.append_assoc, List.singleton_append]
  · intro e x hx hcfg hg
    rw [newClient_after_guard w cfg x hx, if_neg hcfg]
    simp only [NewClient.finish, hg]

/-- Witness for `newClient_all_or_nothing`: every dial and binding succeeds,
the genesis check fails, and no client is returned. -/
theorem newClient_all_or_nothing_witness :
    NewClient genesisMismatchWorld engineConfig =
      ⟨none, some ⟨.construction, "genesis header hash mismatch", false⟩,
        preGuardCalls engineConfig ⟨7, 1, 11, 2, 107, 111, 1007, 1011⟩ ++
          [.dialEngine "http://engine" "secret", .ensureGenesisMatched]⟩ :=
  (newClient_all_or_nothing genesisMismatchWorld engineConfig).2.2.2.2.2.2.2.2.2.2.1
    ⟨.construction, "genesis header hash mismatch", false⟩ ⟨7, 1, 11, 2, 107, 111, 1007, 1011⟩ 213
    ⟨rfl, rfl, rfl, rfl, rfl, rfl, rfl, rfl⟩ (by decide) rfl rfl

/-! ## `InitFromConfig` step by step -/

theorem init_newClient_fails (w : InitWorld) (ctxDone : Bool) (cfg : Config) (e : GoError)
    (h : (NewClient w.rpc (clientConfigOf cfg)).err = some e) :
    (InitFromConfig w ctxDone cfg).err = some e ∧
    (InitFromConfig w ctxDone cfg).calls = [.rpcNewClient] ∧
    (InitFromConfig w ctxDone cfg).d.l1HeadSub = false := by
  simp [InitFromConfig, h]

theorem init_newState_fails (w : InitWorld) (ctxDone : Bool) (cfg : Config) (e : GoError)
    (h1 : (NewClient w.rpc (clientConfigOf cfg)).err = none)
    (h2 : w.newState (NewClient w.rpc (clientConfigOf cfg)).client = .error e) :
    (InitFromConfig w ctxDone cfg).err = some e ∧
    (InitFromConfig w ctxDone cfg).calls = [.rpcNewClient, .newState] ∧
    (InitFromConfig w ctxDone cfg).d.l1HeadSub = false := by
  simp [InitFromConfig, h1, h2]

theorem init_balanceAt_fails (w : InitWorld) (ctxDone : Bool) (cfg : Config) (st : Header)
    (e : GoError) (h : reachedBalance w cfg st)
    (h3 : w.balanceAt (NewClient w.rpc (clientConfigOf cfg)).client (builderAddress w cfg) =
      .error e) :
    (InitFromConfig w ctxDone cfg).err =
      some (wrapError "failed to get throwaway blocks builder balance" e) ∧
    (InitFromConfig w ctxDone cfg).calls =
      [.rpcNewClient, .newState, .balanceAt (builderAddress w cfg)] ∧
    (InitFromConfig w ctxDone cfg).d.l1HeadSub = false := by
  obtain ⟨h1, h2⟩ := h
  unfold builderAddress at h3 ⊢
  simp [InitFromConfig, h1, h2, h3]

theorem init_zero_balance (w : InitWorld) (ctxDone : Bool) (cfg : Config) (st : Header)
    (h : reachedBalance w cfg st)
    (h3 : w.balanceAt (NewClient w.rpc (clientConfigOf cfg)).client (builderAddress w cfg) =
      .ok 0) :
    (InitFromConfig w ctxDone cfg).err = some noFundError ∧
    (InitFromConfig w ctxDone cfg).calls =
      [.rpcNewClient, .newState, .balanceAt (builderAddress w cfg)] ∧
    (InitFromConfig w ctxDone cfg).d.l1HeadSub = false := by
  obtain ⟨h1, h2⟩ := h
  unfold builderAddress at h3 ⊢
  simp [InitFromConfig, h1, h2, h3]

theorem init_peerCount_fails (w : InitWorld) (ctxDone : Bool) (cfg : Config) (st : Header)
    (balance : Int) (e : GoError) (h : reachedPeerCount w cfg st balance)
    (h4 : w.peerCount (NewClient w.rpc (clientConfigOf cfg)).client = .error e) :
    (InitFromConfig w ctxDone cfg).err = some e ∧
    (InitFromConfig w ctxDone cfg).calls =
      [.rpcNewClient, .newState, .balanceAt (builderAddress w cfg), .peerCount] ∧
    (InitFromConfig w ctxDone cfg).d.l1HeadSub = false := by
  obtain ⟨⟨h1, h2⟩, h3, hz⟩ := h
  unfold builderAddress at h3 ⊢
  simp [InitFromConfig, h1, h2, h3, hz, h4]

theorem init_syncer_fails (w : InitWorld) (ctxDone : Bool) (cfg : Config) (st : Header)
    (balance : Int) (peers : Nat) (e : GoError) (h : reachedSyncer w cfg st balance peers)
    (h5 : w.newL2ChainSyncer (NewClient w.rpc (clientConfigOf cfg)).client st
      cfg.ThrowawayBlocksBuilderPrivKey cfg.P2PSyncVerifiedBlocks = some e) :
    (InitFromConfig w ctxDone cfg).err = some e ∧
    (InitFromConfig w ctxDone cfg).calls = callsThroughSyncer w cfg peers ∧
    (InitFromConfig w ctxDone cfg).d.l1HeadSub = false := by
  obtain ⟨⟨⟨h1, h2⟩, h3, hz⟩, h4⟩ := h
  unfold builderAddress at h3
  unfold callsThroughSyncer builderAddress
  simp [InitFromConfig, h1, h2, h3, hz, h4, h5]

theorem init_succeeds (w : InitWorld) (ctxDone : Bool) (cfg : Config) (st : Header)
    (balance : Int) (peers : Nat) (h : reachedSyncer w cfg st balance peers)
    (h5 : w.newL2ChainSyncer (NewClient w.rpc (clientConfigOf cfg)).client st
      cfg.ThrowawayBlocksBuilderPrivKey cfg.P2PSyncVerifiedBlocks = none) :
    (InitFromConfig w ctxDone cfg).err = none ∧
    (InitFromConfig w ctxDone cfg).calls = callsThroughSyncer w cfg peers ++ [.subL1HeadsFeed] ∧
    (InitFromConfig w ctxDone cfg).d.l1HeadSub = true ∧
    (InitFromConfig w ctxDone cfg).d.l2ChainSyncer =
      some ⟨cfg.ThrowawayBlocksBuilderPrivKey, cfg.P2PSyncVerifiedBlocks⟩ := by
  obtain ⟨⟨⟨h1, h2⟩, h3, hz⟩, h4⟩ := h
  unfold builderAddress at h3
  unfold callsThroughSyncer builderAddress
  simp [InitFromConfig, h1, h2, h3, hz, h4, h5]

theorem steps_of_calls (r : InitResult) (l : List InitCall) (h : r.calls = l) :
    r.steps = l.filter fun c => decide (c ≠ .logWarn) := by
  unfold InitResult.steps; rw [h]

theorem steps_callsThroughSyncer (w : InitWorld) (cfg : Config) (peers : Nat) :
    ((callsThroughSyncer w cfg peers).filter fun c => decide (c ≠ .logWarn)) =
      [.rpcNewClient, .newState, .balanceAt (builderAddress w cfg), .peerCount,
        .newL2ChainSyncer cfg.ThrowawayBlocksBuilderPrivKey cfg.P2PSyncVerifiedBlocks] ∧
    InitCall.subL1HeadsFeed ∉ callsThroughSyncer w cfg peers := by
  unfold callsThroughSyncer
  split <;> simp

/-- The facts about `InitFromConfig` that hold at every exit with an error
whose calls, warning apart, are a proper initial part of the step sequence. -/
theorem init_failed_summary (w : InitWorld) (cfg : Config) (r : InitResult) (e : GoError)
    (he : r.err = some e) (hsub : r.d.l1HeadSub = false)
    (hnot : InitCall.subL1HeadsFeed ∉ r.calls)
    (hpre : r.steps <+: initSequence w cfg) (hne : r.steps ≠ initSequence w cfg) :
    r.steps <+: initSequence w cfg ∧ (r.err = none ↔ r.steps = initSequence w cfg) ∧
    (r.err ≠ none → r.d.l1HeadSub = false ∧ InitCall.subL1HeadsFeed ∉ r.calls) := by
  refine ⟨hpre, ⟨fun h => ?_, fun h => absurd h hne⟩, fun _ => ⟨hsub, hnot⟩⟩
  rw [he] at h; cases h

/-- C23: `InitFromConfig` performs `rpc.NewClient`, `NewState`, `BalanceAt`
(with the zero-balance check), `PeerCount`, `NewL2ChainSyncer` and
`SubL1HeadsFeed` in this order and nothing else but the warning: its calls are
an initial part of that sequence, the whole of it exactly when it returns nil,
which happens exactly when every step succeeds and the balance is not zero.
Whenever it returns an error the subscription has not been made.  Each
failing step ends the call with the calls made so far. -/
theorem initFromConfig_sequential (w : InitWorld) (ctxDone : Bool) (cfg : Config) :
    ((InitFromConfig w ctxDone cfg).steps <+: initSequence w cfg ∧
      ((InitFromConfig w ctxDone cfg).err = none ↔
        (InitFromConfig w ctxDone cfg).steps = initSequence w cfg) ∧
      ((InitFromConfig w ctxDone cfg).err ≠ none →
        (InitFromConfig w ctxDone cfg).d.l1HeadSub = false ∧
        InitCall.subL1HeadsFeed ∉ (InitFromConfig w ctxDone cfg).calls)) ∧
    ((InitFromConfig w ctxDone cfg).err = none ↔ initSucceeds w cfg) ∧
    (∀ e, (NewClient w.rpc (clientConfigOf cfg)).err = some e →
      (InitFromConfig w ctxDone cfg).err = some e ∧
      (InitFromConfig w ctxDone cfg).calls = [.rpcNewClient]) ∧
    (∀ e, (NewClient w.rpc (clientConfigOf cfg)).err = none →
      w.newState (NewClient w.rpc (clientConfigOf cfg)).client = .error e →
      (InitFromConfig w ctxDone cfg).err = some e ∧
      (InitFromConfig w ctxDone cfg).calls = [.rpcNewClient, .newState]) ∧
    (∀ e st, reachedBalance w cfg st →
      w.balanceAt (NewClient w.rpc (clientConfigOf cfg)).client (builderAddress w cfg) =
        .error e →
      (InitFromConfig w ctxDone cfg).err =
        some (wrapError "failed to get throwaway blocks builder balance" e) ∧
      (InitFromConfig w ctxDone cfg).calls =
        [.rpcNewClient, .newState, .balanceAt (builderAddress w cfg)]) ∧
    (∀ st, reachedBalance w cfg st →
      w.balanceAt (NewClient w.rpc (clientConfigOf cfg)).client (builderAddress w cfg) =
        .ok 0 →
      (InitFromConfig w ctxDone cfg).err = some noFundError ∧
      (InitFromConfig w ctxDone cfg).calls =
        [.rpcNewClient, .newState, .balanceAt (builderAddress w cfg)]) ∧
    (∀ e st balance, reachedPeerCount w cfg st balance →
      w.peerCount (NewClient w.rpc (clientConfigOf cfg)).client = .error e →
      (InitFromConfig w ctxDone cfg).err = some e ∧
      (InitFromConfig w ctxDone cfg).calls =
        [.rpcNewClient, .newState, .balanceAt (builderAddress w cfg), .peerCount]) ∧
    (∀ e st balance peers, reachedSyncer w cfg st balance peers →
      w.newL2ChainSyncer (NewClient w.rpc (clientConfigOf cfg)).client st
        cfg.ThrowawayBlocksBuilderPrivKey cfg.P2PSyncVerifiedBlocks = some e →
      (InitFromConfig w ctxDone cfg).err = some e ∧
      (InitFromConfig w ctxDone cfg).calls = callsThroughSyncer w cfg peers) := by
  refine ⟨?_, ?_,
    fun e h => ⟨(init_newClient_fails w ctxDone cfg e h).1,
      (init_newClient_fails w ctxDone cfg e h).2.1⟩,
    fun e h1 h2 => ⟨(init_newState_fails w ctxDone cfg e h1 h2).1,
      (init_newState_fails w ctxDone cfg e h1 h2).2.1⟩,
    fun e st h h3 => ⟨(init_balanceAt_fails w ctxDone cfg st e h h3).1,
      (init_balanceAt_fails w ctxDone cfg st e h h3).2.1⟩,
    fun st h h3 => ⟨(init_zero_balance w ctxDone cfg st h h3).1,
      (init_zero_balance w ctxDone cfg st h h3).2.1⟩,
    fun e st b h h4 => ⟨(init_peerCount_fails w ctxDone cfg st b e h h4).1,
      (init_peerCount_fails w ctxDone cfg st b e h h4).2.1⟩,
    fun e st b p h h5 => ⟨(init_syncer_fails w ctxDone cfg st b p e h h5).1,
      (init_syncer_fails w ctxDone cfg st b p e h h5).2.1⟩⟩
  · -- order, completeness and the subscription
    cases hnc : (NewClient w.rpc (clientConfigOf cfg)).err with
    | some e =>
      obtain ⟨q1, q2, q3⟩ := init_newClient_fails w ctxDone cfg e hnc
      have hs := steps_of_calls _ _ q2
      exact init_failed_summary w cfg _ e q1 q3 (by rw [q2]; simp)
        (by rw [hs]; simp [initSequence]) (by rw [hs]; simp [initSequence])
    | none =>
      cases hst : w.newState (NewClient w.rpc (clientConfigOf cfg)).client with
      | error e =>
        obtain ⟨q1, q2, q3⟩ := init_newState_fails w ctxDone cfg e hnc hst
        have hs := steps_of_calls _ _ q2
        exact init_failed_summary w cfg _ e q1 q3 (by rw [q2]; simp)
          (by rw [hs]; simp [initSequence]) (by rw [hs]; simp [initSequence])
      | ok st =>
        have hrb : reachedBalance w cfg st := ⟨hnc, hst⟩
        cases hb : w.balanceAt (NewClient w.rpc (clientConfigOf cfg)).client
            (builderAddress w cfg) with
        | error e =>
          obtain ⟨q1, q2, q3⟩ := init_balanceAt_fails w ctxDone cfg st e hrb hb
          have hs := steps_of_calls _ _ q2
          exact init_failed_summary w cfg _ _ q1 q3 (by rw [q2]; simp)
            (by rw [hs]; simp [initSequence]) (by rw [hs]; simp [initSequence])
        | ok balance =>
          by_cases hz : balance = 0
          · subst hz
            obtain ⟨q1, q2, q3⟩ := init_zero_balance w ctxDone cfg st hrb hb
            have hs := steps_of_calls _ _ q2
            exact init_failed_summary w cfg _ _ q1 q3 (by rw [q2]; simp)
              (by rw [hs]; simp [initSequence]) (by rw [hs]; simp [initSequence])
          · have hrp : reachedPeerCount w cfg st balance := ⟨hrb, hb, hz⟩
            cases hp : w.peerCount (NewClient w.rpc (clientConfigOf cfg)).client with
            | error e =>
              obtain ⟨q1, q2, q3⟩ := init_peerCount_fails w ctxDone cfg st balance e hrp hp
              have hs := steps_of_calls _ _ q2
              exact init_failed_summary w cfg _ _ q1 q3 (by rw [q2]; simp)
                (by rw [hs]; simp [initSequence]) (by rw [hs]; simp [initSequence])
            | ok peers =>
              have hrs : reachedSyncer w cfg st balance peers := ⟨hrp, hp⟩
              obtain ⟨f1, f2⟩ := steps_callsThroughSyncer w cfg peers
              cases hsy : w.newL2ChainSyncer (NewClient w.rpc (clientConfigOf cfg)).client st
                  cfg.ThrowawayBlocksBuilderPrivKey cfg.P2PSyncVerifiedBlocks with
              | some e =>
                obtain ⟨q1, q2, q3⟩ := init_syncer_fails w ctxDone cfg st balance peers e hrs hsy
                have hs := steps_of_calls _ _ q2
                rw [f1] at hs
                exact init_failed_summary w cfg _ _ q1 q3 (by rw [q2]; exact f2)
                  (by rw [hs]; simp [initSequence]) (by rw [hs]; simp [initSequence])
              | none =>
                obtain ⟨q1, q2, q3, _⟩ := init_succeeds w ctxDone cfg st balance peers hrs hsy
                have hs := steps_of_calls _ _ q2
                rw [List.filter_append, f1] at hs
                have hs2 : (InitFromConfig w ctxDone cfg).steps = initSequence w cfg := by
                  rw [hs]; simp [initSequence]
                refine ⟨by rw [hs2], ⟨fun _ => hs2, fun _ => q1⟩, fun h => absurd q1 h⟩
  · -- success exactly when every step succeeds
    constructor
    · intro hok
      cases hnc : (NewClient w.rpc (clientConfigOf cfg)).err with
      | some e =>
        rw [(init_newClient_fails w ctxDone cfg e hnc).1] at hok; cases hok
      | none =>
        cases hst : w.newState (NewClient w.rpc (clientConfigOf cfg)).client with
        | error e =>
          rw [(init_newState_fails w ctxDone cfg e hnc hst).1] at hok; cases hok
        | ok st =>
          have hrb : reachedBalance w cfg st := ⟨hnc, hst⟩
          cases hb : w.balanceAt (NewClient w.rpc (clientConfigOf cfg)).client
              (builderAddress w cfg) with
          | error e =>
            rw [(init_balanceAt_fails w ctxDone cfg st e hrb hb).1] at hok; cases hok
          | ok balance =>
            by_cases hz : balance = 0
            · subst hz
              rw [(init_zero_balance w ctxDone cfg st hrb hb).1] at hok; cases hok
            · have hrp : reachedPeerCount w cfg st balance := ⟨hrb, hb, hz⟩
              cases hp : w.peerCount (NewClient w.rpc (clientConfigOf cfg)).client with
              | error e =>
                rw [(init_peerCount_fails w ctxDone cfg st balance e hrp hp).1] at hok
                cases hok
              | ok peers =>
                have hrs : reachedSyncer w cfg st balance peers := ⟨hrp, hp⟩
                cases hsy : w.newL2ChainSyncer (NewClient w.rpc (clientConfigOf cfg)).client st
                    cfg.ThrowawayBlocksBuilderPrivKey cfg.P2PSyncVerifiedBlocks with
                | some e =>
                  rw [(init_syncer_fails w ctxDone cfg st balance peers e hrs hsy).1] at hok
                  cases hok
                | none => exact ⟨hnc, st, balance, peers, hst, hb, hz, hp, hsy⟩
    · rintro ⟨hnc, st, balance, peers, hst, hb, hz, hp, hsy⟩
      exact (init_succeeds w ctxDone cfg st balance peers ⟨⟨⟨hnc, hst⟩, hb, hz⟩, hp⟩ hsy).1

/-- Witness for `initFromConfig_sequential`: a healthy world with a funded
builder runs the whole sequence and returns nil. -/
theorem initFromConfig_sequential_witness :
    (InitFromConfig (healthyInitWorld 5 3) false sampleConfig).err = none ∧
    (InitFromConfig (healthyInitWorld 5 3) false sampleConfig).steps =
      initSequence (healthyInitWorld 5 3) sampleConfig :=
  ⟨((initFromConfig_sequential (healthyInitWorld 5 3) false sampleConfig).2.1).mpr
      ⟨rfl, ⟨6, 60⟩, 5, 3, rfl, rfl, by decide, rfl, rfl⟩,
    ((initFromConfig_sequential (healthyInitWorld 5 3) false sampleConfig).1.2.1).mp
      (((initFromConfig_sequential (healthyInitWorld 5 3) false sampleConfig).2.1).mpr
        ⟨rfl, ⟨6, 60⟩, 5, 3, rfl, rfl, by decide, rfl, rfl⟩)⟩

/-! ## The peer count in `InitFromConfig` -/

/-- The returned error, the driver and the calls other than the warning are
the same whatever number of peers the L2 node reports. -/
theorem init_peerCount_irrelevant (w : InitWorld) (ctxDone : Bool) (cfg : Config)
    (p1 p2 : Nat) :
    (InitFromConfig (withPeerCount w p1) ctxDone cfg).err =
      (InitFromConfig (withPeerCount w p2) ctxDone cfg).err ∧
    (InitFromConfig (withPeerCount w p1) ctxDone cfg).d =
      (InitFromConfig (withPeerCount w p2) ctxDone cfg).d ∧
    (InitFromConfig (withPeerCount w p1) ctxDone cfg).steps =
      (InitFromConfig (withPeerCount w p2) ctxDone cfg).steps := by
  simp only [InitFromConfig, withPeerCount, InitResult.steps]
  cases (NewClient w.rpc (clientConfigOf cfg)).err with
  | some e => simp
  | none =>
    cases w.newState (NewClient w.rpc (clientConfigOf cfg)).client with
    | error e => simp
    | ok st =>
      cases w.balanceAt (NewClient w.rpc (clientConfigOf cfg)).client
          (w.pubkeyToAddress cfg.ThrowawayBlocksBuilderPrivKey) with
      | error e => simp
      | ok balance =>
        by_cases hz : balance = 0
        · simp [hz]
        · cases w.newL2ChainSyncer (NewClient w.rpc (clientConfigOf cfg)).client st
            cfg.ThrowawayBlocksBuilderPrivKey cfg.P2PSyncVerifiedBlocks with
          | some e =>
            simp only [hz, if_false, List.filter_append, true_and]
            split <;> split <;> simp
          | none =>
            simp only [hz, if_false, List.filter_append, true_and]
            split <;> split <;> simp

/-- C24: with `cfg.P2PSyncVerifiedBlocks` set and a peer count of 0,
`InitFromConfig` logs the warning right after `PeerCount` and goes on to call
`NewL2ChainSyncer` with the flag true; it returns what that call returns, and
on success holds a syncer built with the flag enabled and subscribes.  The
peer count never changes the returned error, the driver or the calls other
than the warning. -/
theorem no_peers_only_warns (w : InitWorld) (ctxDone : Bool) (cfg : Config) (st : Header)
    (balance : Int) (h : reachedPeerCount w cfg st balance)
    (hflag : cfg.P2PSyncVerifiedBlocks = true)
    (h0 : w.peerCount (NewClient w.rpc (clientConfigOf cfg)).client = .ok 0) :
    (InitFromConfig w ctxDone cfg).err =
      w.newL2ChainSyncer (NewClient w.rpc (clientConfigOf cfg)).client st
        cfg.ThrowawayBlocksBuilderPrivKey true ∧
    [.rpcNewClient, .newState, .balanceAt (builderAddress w cfg), .peerCount, .logWarn,
      .newL2ChainSyncer cfg.ThrowawayBlocksBuilderPrivKey true] <+:
      (InitFromConfig w ctxDone cfg).calls ∧
    (w.newL2ChainSyncer (NewClient w.rpc (clientConfigOf cfg)).client st
        cfg.ThrowawayBlocksBuilderPrivKey true = none →
      (InitFromConfig w ctxDone cfg).err = none ∧
      (InitFromConfig w ctxDone cfg).d.l2ChainSyncer =
        some ⟨cfg.ThrowawayBlocksBuilderPrivKey, true⟩ ∧
      (InitFromConfig w ctxDone cfg).d.l1HeadSub = true ∧
      (InitFromConfig w ctxDone cfg).calls =
        [.rpcNewClient, .newState, .balanceAt (builderAddress w cfg), .peerCount, .logWarn,
          .newL2ChainSyncer cfg.ThrowawayBlocksBuilderPrivKey true, .subL1HeadsFeed]) ∧
    (∀ p1 p2 : Nat,
      (InitFromConfig (withPeerCount w p1) ctxDone cfg).err =
        (InitFromConfig (withPeerCount w p2) ctxDone cfg).err ∧
      (InitFromConfig (withPeerCount w p1) ctxDone cfg).d =
        (InitFromConfig (withPeerCount w p2) ctxDone cfg).d ∧
      (InitFromConfig (withPeerCount w p1) ctxDone cfg).steps =
        (InitFromConfig (withPeerCount w p2) ctxDone cfg).steps) := by
  have hrs : reachedSyncer w cfg st balance 0 := ⟨h, h0⟩
  have hcalls : callsThroughSyncer w cfg 0 =
      [.rpcNewClient, .newState, .balanceAt (builderAddress w cfg), .peerCount, .logWarn,
        .newL2ChainSyncer cfg.ThrowawayBlocksBuilderPrivKey true] := by
    simp [callsThroughSyncer, hflag]
  refine ⟨?_, ?_, ?_, fun p1 p2 => init_peerCount_irrelevant w ctxDone cfg p1 p2⟩
  · cases hsy : w.newL2ChainSyncer (NewClient w.rpc (clientConfigOf cfg)).client st
        cfg.ThrowawayBlocksBuilderPrivKey true with
    | some e =>
      exact (init_syncer_fails w ctxDone cfg st balance 0 e hrs (by rw [hflag]; exact hsy)).1
    | none =>
      exact (init_succeeds w ctxDone cfg st balance 0 hrs (by rw [hflag]; exact hsy)).1
  · cases hsy : w.newL2ChainSyncer (NewClient w.rpc (clientConfigOf cfg)).client st
        cfg.ThrowawayBlocksBuilderPrivKey true with
    | some e =>
      rw [(init_syncer_fails w ctxDone cfg st balance 0 e hrs (by rw [hflag]; exact hsy)).2.1,
        hcalls]
    | none =>
      rw [(init_succeeds w ctxDone cfg st balance 0 hrs (by rw [hflag]; exact hsy)).2.1,
        hcalls]
      exact List.prefix_append _ _
  · intro hsy
    obtain ⟨q1, q2, q3, q4⟩ :=
      init_succeeds w ctxDone cfg st balance 0 hrs (by rw [hflag]; exact hsy)
    refine ⟨q1, ?_, q3, ?_⟩
    · rw [q4, hflag]
    · rw [q2, hcalls]; rfl

/-- Witness for `no_peers_only_warns`: a healthy world whose L2 node has no
peers, peer-assisted sync being configured. -/
theorem no_peers_only_warns_witness :
    (InitFromConfig (healthyInitWorld 5 0) false sampleConfig).err = none ∧
    (InitFromConfig (healthyInitWorld 5 0) false sampleConfig).d.l2ChainSyncer =
      some ⟨41, true⟩ ∧
    (InitFromConfig (healthyInitWorld 5 0) false sampleConfig).calls =
      [.rpcNewClient, .newState, .balanceAt 42, .peerCount, .logWarn,
        .newL2ChainSyncer 41 true, .subL1HeadsFeed] :=
  have h := (no_peers_only_warns (healthyInitWorld 5 0) false sampleConfig ⟨6, 60⟩ 5
    ⟨⟨rfl, rfl⟩, rfl, by decide⟩ rfl rfl).2.2.1 rfl
  ⟨h.1, h.2.1, h.2.2.2⟩

/-! ## What `Next` delivers -/

theorem deliverLog_effect (unpack : Unpacker) (it it0 : TaikoL1ClientBlockProposedIterator)
    (log : Log) (rest : List Log) (h : it0.logs = log :: rest) (hf : it.fail = none) :
    NextEffect unpack it0 (deliverLog unpack it log rest) := by
  unfold deliverLog
  split
  next ev e hu =>
    exact Or.inr ⟨log, rest, e, h, rfl, by simp [ParseBlockProposed, hu], rfl⟩
  next ev hu =>
    exact ⟨log, rest, h, rfl, by simp [ParseBlockProposed, hu], ⟨_, rfl, rfl⟩, hf⟩

theorem afterSelfCall_effect (unpack : Unpacker) (it it2 : TaikoL1ClientBlockProposedIterator)
    (r : NextResult) (hl : it2.logs = it.logs) (hd : it2.done = true)
    (h : NextEffect unpack it2 r) : NextEffect unpack it r.afterSelfCall := by
  cases r with
  | returned more it' n =>
    cases more
    · simpa [NextResult.afterSelfCall, NextEffect, hl] using h
    · simpa [NextResult.afterSelfCall, NextEffect, hl] using h
  | blocked =>
    obtain ⟨_, _, h3, _⟩ := h
    rw [hd] at h3; cases h3
  | outOfFuel => trivial

/-- Whatever the fuel, the result of `Next` is one of the effects above. -/
theorem nextFuel_effect (unpack : Unpacker) (pick : Pick) (fuel : Nat)
    (it : TaikoL1ClientBlockProposedIterator) :
    NextEffect unpack it (NextFuel unpack pick fuel it) := by
  induction fuel generalizing it with
  | zero => simp only [NextFuel]; trivial
  | succ k ih =>
    rw [NextFuel]
    split
    · exact Or.inl rfl
    next hf =>
      have hf' : it.fail = none := by simpa using hf
      split
      · split
        next log rest hl => exact deliverLog_effect unpack it it log rest hl hf'
        · exact Or.inl rfl
      next hd =>
        have hd' : it.done = false := by simpa using hd
        split
        next hl hs => exact ⟨hl, hs, hd', hf'⟩
        next log rest hl hs => exact deliverLog_effect unpack it it log rest hl hf'
        next err hl hs => exact afterSelfCall_effect unpack it { it with done := true, fail := err } _ rfl rfl (ih _)
        next log rest err hl hs =>
          split
          · exact deliverLog_effect unpack it it log rest hl hf'
          · exact afterSelfCall_effect unpack it { it with done := true, fail := err } _ rfl rfl (ih _)

theorem next_effect (unpack : Unpacker) (pick : Pick)
    (it : TaikoL1ClientBlockProposedIterator) :
    NextEffect unpack it (it.Next unpack pick) :=
  nextFuel_effect unpack pick 2 it

/-- A failed iterator delivers nothing and takes no log. -/
theorem deliveries_failed (unpack : Unpacker) (steps : List IterStep)
    (it : TaikoL1ClientBlockProposedIterator) (e : GoError) (h : it.fail = some e) :
    ∃ it', deliveries unpack steps it = some ([], it') ∧
      runIter unpack steps it = some (List.replicate (nextCalls steps) false, it') ∧
      it'.logs = it.logs ++ arrivedLogs steps := by
  induction steps generalizing it with
  | nil => exact ⟨it, rfl, rfl, by simp [arrivedLogs]⟩
  | cons st rest ih =>
    cases st with
    | next pick =>
      obtain ⟨it', h1, h2, h3⟩ := ih it h
      refine ⟨it', ?_, ?_, ?_⟩
      · simp only [deliveries, TaikoL1ClientBlockProposedIterator.Next,
          nextFuel_failed unpack pick 1 it e h, h1]
      · simp only [runIter, TaikoL1ClientBlockProposedIterator.Next,
          nextFuel_failed unpack pick 1 it e h, h2, nextCalls, Option.map_some',
          List.replicate_succ]
      · rw [h3]; simp [arrivedLogs]
    | logArrives log =>
      obtain ⟨it', h1, h2, h3⟩ := ih { it with logs := it.logs ++ [log] } h
      refine ⟨it', ?_, ?_, ?_⟩
      · simp only [deliveries]; exact h1
      · simp only [runIter, nextCalls]; exact h2
      · rw [h3]; simp [arrivedLogs]
    | subEnds err =>
      obtain ⟨it', h1, h2, h3⟩ :=
        ih { it with subErr := match it.subErr with
                               | none => some err
                               | some x => some x } h
      refine ⟨it', ?_, ?_, ?_⟩
      · simp only [deliveries]; exact h1
      · simp only [runIter, nextCalls]; exact h2
      · rw [h3]; simp [arrivedLogs]

/-- Over any moves, the events delivered are the parsed forms of an initial
part of the log channel's content, in order; at most one further log was taken
and failed to parse; the rest is still queued. -/
theorem deliveries_in_order (unpack : Unpacker) (steps : List IterStep)
    (it it' : TaikoL1ClientBlockProposedIterator)
    (ds : List (Option TaikoL1ClientBlockProposed))
    (h : deliveries unpack steps it = some (ds, it')) :
    ∃ taken dropped, taken ++ dropped ++ it'.logs = it.logs ++ arrivedLogs steps ∧
      dropped.length ≤ 1 ∧
      ds = taken.map (fun log => (ParseBlockProposed unpack log).1) ∧
      (∀ log ∈ taken, (ParseBlockProposed unpack log).2 = none) ∧
      ∃ rs, runIter unpack steps it = some (rs, it') ∧ rs.count true = ds.length := by
  induction steps generalizing it ds with
  | nil =>
    simp only [deliveries, Option.some.injEq, Prod.mk.injEq] at h
    obtain ⟨h1, h2⟩ := h
    subst h1; subst h2
    exact ⟨[], [], by simp [arrivedLogs], by simp, rfl, by simp, [], rfl, rfl⟩
  | cons st rest ih =>
    cases st with
    | logArrives log =>
      simp only [deliveries] at h
      obtain ⟨taken, dropped, q1, q2, q3, q4, rs, q5, q6⟩ := ih _ ds h
      refine ⟨taken, dropped, ?_, q2, q3, q4, rs, ?_, q6⟩
      · rw [q1]; simp [arrivedLogs]
      · simp only [runIter]; exact q5
    | subEnds err =>
      simp only [deliveries] at h
      obtain ⟨taken, dropped, q1, q2, q3, q4, rs, q5, q6⟩ := ih _ ds h
      refine ⟨taken, dropped, ?_, q2, q3, q4, rs, ?_, q6⟩
      · rw [q1]; simp [arrivedLogs]
      · simp only [runIter]; exact q5
    | next pick =>
      have heff := next_effect unpack pick it
      cases hN : it.Next unpack pick with
      | blocked => simp [deliveries, hN] at h
      | outOfFuel => simp [deliveries, hN] at h
      | returned more it1 n =>
        rw [hN] at heff
        cases more with
        | true =>
          obtain ⟨log, rest0, e1, e2, e3, _, _⟩ := heff
          simp only [deliveries, hN] at h
          cases hd : deliveries unpack rest it1 with
          | none => rw [hd] at h; cases h
          | some r =>
            obtain ⟨ds1, it2⟩ := r
            rw [hd] at h
            simp only [Option.map_some', Option.some.injEq, Prod.mk.injEq] at h
            obtain ⟨h1, h2⟩ := h
            subst h1; subst h2
            obtain ⟨taken, dropped, q1, q2, q3, q4, rs, q5, q6⟩ := ih it1 ds1 hd
            refine ⟨log :: taken, dropped, ?_, q2, ?_, ?_, true :: rs, ?_, ?_⟩
            · rw [e1, ← e2, List.cons_append, List.cons_append, List.cons_append, q1]
              simp [arrivedLogs]
            · rw [List.map_cons, ← q3, e3]
            · intro l hl
              rcases List.mem_cons.mp hl with hl | hl
              · rw [hl, e3]
              · exact q4 l hl
            · simp only [runIter, hN, q5, Option.map_some']
            · simp [q6]
        | false =>
          simp only [deliveries, hN] at h
          rcases heff with e1 | ⟨log, rest0, e, e1, e2, _, e4⟩
          · obtain ⟨taken, dropped, q1, q2, q3, q4, rs, q5, q6⟩ := ih it1 ds h
            refine ⟨taken, dropped, ?_, q2, q3, q4, false :: rs, ?_, ?_⟩
            · rw [q1, e1]; simp [arrivedLogs]
            · simp only [runIter, hN, q5, Option.map_some']
            · simp [q6]
          · obtain ⟨it2, f1, f2, f3⟩ := deliveries_failed unpack rest it1 e e4
            rw [f1] at h
            simp only [Option.some.injEq, Prod.mk.injEq] at h
            obtain ⟨h1, h2⟩ := h
            subst h1; subst h2
            refine ⟨[], [log], ?_, by simp, rfl, by simp,
              false :: List.replicate (nextCalls rest) false, ?_, ?_⟩
            · rw [f3, e1, e2]; simp [arrivedLogs]
            · simp only [runIter, hN, f2, Option.map_some']
            · simp [List.count_replicate]

/-- C26: whenever `Next` returns true, a log was at the head of the log
channel, it has been taken, and `it.Event` with a nil error is exactly what
`ParseBlockProposed` returns for that log, an event built anew whose `Raw` is
the log.  Over any moves the delivered events are the parsed forms of an
initial part of the channel's content in channel order, one for each call of
`Next` that returned true; at most one further log was taken, the one that
failed to parse, and all other logs are still queued. -/
theorem delivery_equals_parsing (unpack : Unpacker)
    (it : TaikoL1ClientBlockProposedIterator) :
    (∀ pick it' n, it.Next unpack pick = .returned true it' n →
      ∃ log rest, it.logs = log :: rest ∧ it'.logs = rest ∧
        ParseBlockProposed unpack log = (it'.Event, none) ∧
        ∃ ev, it'.Event = some ev ∧ ev.Raw = log) ∧
    (∀ steps ds it', deliveries unpack steps it = some (ds, it') →
      ∃ taken dropped, taken ++ dropped ++ it'.logs = it.logs ++ arrivedLogs steps ∧
        dropped.length ≤ 1 ∧
        ds = taken.map (fun log => (ParseBlockProposed unpack log).1) ∧
        (∀ log ∈ taken, (ParseBlockProposed unpack log).2 = none) ∧
        ∃ rs, runIter unpack steps it = some (rs, it') ∧ rs.count true = ds.length) := by
  constructor
  · intro pick it' n h
    have heff := next_effect unpack pick it
    rw [h] at heff
    obtain ⟨log, rest, e1, e2, e3, e4, _⟩ := heff
    exact ⟨log, rest, e1, e2, e3, e4⟩
  · intro steps ds it' h
    exact deliveries_in_order unpack steps it it' ds h

/-- Witness for `delivery_equals_parsing`: two queued logs and a third that
arrives are delivered in that order, each as its parsed form. -/
theorem delivery_equals_parsing_witness :
    ∃ it', deliveries sampleUnpack [.next .log, .logArrives ⟨103, 0, [4], [103]⟩, .next .log,
        .next .log] (freshIterator [⟨101, 0, [2], [101]⟩, ⟨102, 0, [3], [102]⟩]) =
      some ([(ParseBlockProposed sampleUnpack ⟨101, 0, [2], [101]⟩).1,
             (ParseBlockProposed sampleUnpack ⟨102, 0, [3], [102]⟩).1,
             (ParseBlockProposed sampleUnpack ⟨103, 0, [4], [103]⟩).1], it') ∧
    ∃ taken dropped,
      taken ++ dropped ++ it'.logs =
        [⟨101, 0, [2], [101]⟩, ⟨102, 0, [3], [102]⟩, ⟨103, 0, [4], [103]⟩] ∧
      dropped.length ≤ 1 ∧
      [(ParseBlockProposed sampleUnpack ⟨101, 0, [2], [101]⟩).1,
        (ParseBlockProposed sampleUnpack ⟨102, 0, [3], [102]⟩).1,
        (ParseBlockProposed sampleUnpack ⟨103, 0, [4], [103]⟩).1] =
        taken.map (fun log => (ParseBlockProposed sampleUnpack log).1) :=
  ⟨_, rfl,
    match (delivery_equals_parsing sampleUnpack
      (freshIterator [⟨101, 0, [2], [101]⟩, ⟨102, 0, [3], [102]⟩])).2
      [.next .log, .logArrives ⟨103, 0, [4], [103]⟩, .next .log, .next .log] _ _ rfl with
    | ⟨taken, dropped, q1, q2, q3, _⟩ => ⟨taken, dropped, q1, q2, q3⟩⟩

/-! ## Termination of `Next` -/

/-- How `Next` ends: it blocks, or it returns without calling itself, or it
returns after one call of itself, made with `done` set on a state in which
the call returned without calling itself. -/
theorem next_shape (unpack : Unpacker) (pick : Pick)
    (it : TaikoL1ClientBlockProposedIterator) :
    it.Next unpack pick = .blocked ∨
    (∃ more it', it.Next unpack pick = .returned more it' 0) ∨
    (∃ more it' err, it.Next unpack pick = .returned more it' 1 ∧ it.done = false ∧
      it.subErr = some err ∧
      NextFuel unpack pick 1 { it with done := true, fail := err } = .returned more it' 0) := by
  obtain ⟨ev0, logs, subErr, done, fail⟩ := it
  cases fail with
  | some e => exact Or.inr (Or.inl ⟨false, _, nextFuel_failed unpack pick 1 _ e rfl⟩)
  | none =>
    cases done with
    | true =>
      obtain ⟨h1, more, it', h2⟩ := nextFuel_done unpack pick 1 ⟨ev0, logs, subErr, true, none⟩ rfl
      refine Or.inr (Or.inl ⟨more, it', ?_⟩)
      unfold TaikoL1ClientBlockProposedIterator.Next
      rw [h1, h2]
    | false =>
      have hself : ∀ err : Option GoError, ∃ more it',
          (NextFuel unpack pick 1 ⟨ev0, logs, some err, true, err⟩).afterSelfCall =
            .returned more it' 1 ∧
          NextFuel unpack pick 1 ⟨ev0, logs, some err, true, err⟩ = .returned more it' 0 := by
        intro err
        obtain ⟨more, it', h⟩ :=
          (nextFuel_done unpack pick 0 ⟨ev0, logs, some err, true, err⟩ rfl).2
        exact ⟨more, it', by rw [h]; rfl, h⟩
      have hdeliver : ∀ (i : TaikoL1ClientBlockProposedIterator) (log : Log) (rest : List Log),
          ∃ more it', deliverLog unpack i log rest = .returned more it' 0 := by
        intro i log rest
        unfold deliverLog
        split <;> exact ⟨_, _, rfl⟩
      cases logs with
      | nil =>
        cases subErr with
        | none => exact Or.inl rfl
        | some err =>
          obtain ⟨more, it', h1, h2⟩ := hself err
          exact Or.inr (Or.inr ⟨more, it', err, h1, rfl, rfl, h2⟩)
      | cons log rest =>
        cases subErr with
        | none =>
          obtain ⟨more, it', h⟩ := hdeliver ⟨ev0, log :: rest, none, false, none⟩ log rest
          exact Or.inr (Or.inl ⟨more, it', h⟩)
        | some err =>
          cases pick with
          | log =>
            obtain ⟨more, it', h⟩ := hdeliver ⟨ev0, log :: rest, some err, false, none⟩ log rest
            exact Or.inr (Or.inl ⟨more, it', h⟩)
          | err =>
            obtain ⟨more, it', h1, h2⟩ := hself err
            exact Or.inr (Or.inr ⟨more, it', err, h1, rfl, rfl, h2⟩)

/-- C27: in every iterator state in which a log is queued or the
subscription has a result to deliver, `Next` returns, with the same result
for every bound of at least two levels on its calls of itself.  It calls
itself at most once; when it does, `done` was not set, and the call of itself
runs in the state with `done` set, where it returns without a further call
whatever the bound.  In any state with `done` set `Next` returns without
calling itself. -/
theorem next_terminates (unpack : Unpacker) (pick : Pick)
    (it : TaikoL1ClientBlockProposedIterator)
    (hready : it.logs ≠ [] ∨ it.subErr ≠ none) :
    (∃ more it' n, it.Next unpack pick = .returned more it' n ∧
      (∀ k, NextFuel unpack pick (k + 2) it = .returned more it' n) ∧
      n ≤ 1 ∧
      (n = 1 → it.done = false ∧ ∃ err, it.subErr = some err ∧
        ∀ k, NextFuel unpack pick (k + 1) { it with done := true, fail := err } =
          .returned more it' 0)) ∧
    (∀ it2 : TaikoL1ClientBlockProposedIterator, it2.done = true →
      ∃ more it', ∀ k, NextFuel unpack pick (k + 1) it2 = .returned more it' 0) := by
  constructor
  · rcases next_shape unpack pick it with h | ⟨more, it', h⟩ | ⟨more, it', err, h, hd, hs, hrec⟩
    · have heff := next_effect unpack pick it
      rw [h] at heff
      obtain ⟨h1, h2, _, _⟩ := heff
      rcases hready with hr | hr
      · exact absurd h1 hr
      · exact absurd h2 hr
    · refine ⟨more, it', 0, h, fun k => ?_, Nat.zero_le _, fun h0 => by cases h0⟩
      rw [(nextFuel_stable unpack pick k it).1, h]
    · refine ⟨more, it', 1, h, fun k => ?_, Nat.le_refl _, fun _ => ⟨hd, err, hs, fun k => ?_⟩⟩
      · rw [(nextFuel_stable unpack pick k it).1, h]
      · rw [(nextFuel_done unpack pick k { it with done := true, fail := err } rfl).1, hrec]
  · intro it2 hd
    obtain ⟨more, it', h⟩ := (nextFuel_done unpack pick 0 it2 hd).2
    exact ⟨more, it', fun k => by rw [(nextFuel_done unpack pick k it2 hd).1, h]⟩

/-- Witness for `next_terminates`: with one log queued and the subscription
ended, `Next` taking the error case calls itself once and delivers the log. -/
theorem next_terminates_witness :
    ({ freshIterator [⟨101, 0, [2], [101]⟩] with subErr := some none }.logs ≠ [] ∨
      { freshIterator [⟨101, 0, [2], [101]⟩] with subErr := some none }.subErr ≠ none) ∧
    ({ freshIterator [⟨101, 0, [2], [101]⟩] with subErr := some none }.Next sampleUnpack .err =
      .returned true
        { Event := (ParseBlockProposed sampleUnpack ⟨101, 0, [2], [101]⟩).1, logs := [],
          subErr := some none, done := true, fail := none } 1) ∧
    ∃ more it' n,
      { freshIterator [⟨101, 0, [2], [101]⟩] with subErr := some none }.Next sampleUnpack .err =
        .returned more it' n ∧
      (∀ k, NextFuel sampleUnpack .err (k + 2)
        { freshIterator [⟨101, 0, [2], [101]⟩] with subErr := some none } =
          .returned more it' n) ∧
      n ≤ 1 :=
  ⟨Or.inl (by decide), rfl,
    match (next_terminates sampleUnpack .err
      { freshIterator [⟨101, 0, [2], [101]⟩] with subErr := some none }
      (Or.inl (by decide))).1 with
    | ⟨more, it', n, q1, q2, q3, _⟩ => ⟨more, it', n, q1, q2, q3⟩⟩

/-! ## Bound on sync passes with any number of event loops -/

theorem Fleet.move_eq {f f' : Fleet} {i : Nat} {src dst : FleetPc} {d : Driver}
    (h : f.move i src dst d = some f') :
    f.loops[i]? = some src ∧ f'.d = d ∧ f'.loops = f.loops.set i dst := by
  unfold Fleet.move at h
  split at h
  · rename_i hs
    cases h
    exact ⟨hs, rfl, rfl⟩
  · cases h

theorem count_startup_set (l : List FleetPc) (i : Nat) (src dst : FleetPc)
    (h : l[i]? = some src) :
    (l.set i dst).count .startup + (if src = .startup then 1 else 0) =
      l.count .startup + (if dst = .startup then 1 else 0) := by
  induction l generalizing i with
  | nil => simp at h
  | cons x l ih =>
    cases i with
    | zero =>
      simp only [List.getElem?_cons_zero, Option.some.injEq] at h
      subst h
      simp only [List.set_cons_zero, List.count_cons, beq_iff_eq]
      omega
    | succ i =>
      simp only [List.getElem?_cons_succ] at h
      have := ih i h
      simp only [List.set_cons_succ, List.count_cons, beq_iff_eq]
      omega

/-- A move that neither leaves nor enters `startup` keeps the number of
goroutines that have not yet begun their startup pass. -/
theorem Fleet.move_count {f f' : Fleet} {i : Nat} {src dst : FleetPc} {d : Driver}
    (h : f.move i src dst d = some f') :
    f'.d = d ∧
    f'.loops.count .startup + (if src = .startup then 1 else 0) =
      f.loops.count .startup + (if dst = .startup then 1 else 0) := by
  obtain ⟨h1, h2, h3⟩ := Fleet.move_eq h
  exact ⟨h2, by rw [h3]; exact count_startup_set f.loops i src dst h1⟩

/-- What one fleet step does to the balance of passes, pending requests and
goroutines still before their startup pass. -/
theorem fleetStep_passBound {st : FleetStep} {f f' : Fleet} (h : fleetStep st f = some f') :
    (if st.startsPass = true then 1 else 0) + f'.d.syncNotify.buf.length +
        f'.loops.count .startup ≤
      f.d.syncNotify.buf.length + f.loops.count .startup +
        (if st = .start then 1 else 0) + (if st.consumesHead = true then 1 else 0) := by
  cases st <;> simp only [fleetStep] at h
  case start => cases h; simp [FleetStep.startsPass, FleetStep.consumesHead]; omega
  case headArrives hd =>
    cases hs : f.d.l1HeadCh.send? hd <;> rw [hs] at h <;> simp at h
    subst h; simp [FleetStep.startsPass, FleetStep.consumesHead]
  case l1HeadUpdated hd => cases h; simp [FleetStep.startsPass, FleetStep.consumesHead]
  case cancel => cases h; simp [FleetStep.startsPass, FleetStep.consumesHead]
  case outsideSyncBegin => cases h; simp [FleetStep.startsPass, FleetStep.consumesHead]
  case outsideSyncEnd =>
    split at h <;> cases h
    simp [FleetStep.startsPass, FleetStep.consumesHead]
  case startupPass i =>
    obtain ⟨h1, h2⟩ := Fleet.move_count h
    simp only [FleetStep.startsPass, FleetStep.consumesHead, h1]
    simp at h2 ⊢
    omega
  case syncBegin i =>
    split at h
    · obtain ⟨h1, h2⟩ := Fleet.move_count h
      simp only [FleetStep.startsPass, FleetStep.consumesHead, h1]
      simp at h2 ⊢
      omega
    · cases h
  case skipSync i =>
    split at h
    · obtain ⟨h1, h2⟩ := Fleet.move_count h
      simp only [FleetStep.startsPass, FleetStep.consumesHead, h1]
      simp at h2 ⊢
      omega
    · cases h
  case syncEnd i r e n =>
    split at h <;>
    · obtain ⟨h1, h2⟩ := Fleet.move_count h
      simp only [FleetStep.startsPass, FleetStep.consumesHead, h1]
      simp at h2 ⊢
      omega
  case selCtxDone i =>
    split at h
    · obtain ⟨h1, h2⟩ := Fleet.move_count h
      simp only [FleetStep.startsPass, FleetStep.consumesHead, h1]
      simp at h2 ⊢
      omega
    · cases h
  case selSyncNotify i =>
    split at h
    · rename_i x c hr
      obtain ⟨hb, _⟩ := Chan.recv?_some hr
      obtain ⟨h1, h2⟩ := Fleet.move_count h
      simp only [FleetStep.startsPass, FleetStep.consumesHead, h1, hb]
      simp at h2 ⊢
      omega
    · cases h
  case selL1Head i =>
    split at h
    · rename_i x c hr
      obtain ⟨h1, h2⟩ := Fleet.move_count h
      have hlen := trySend_unit_len f.d.syncNotify
      simp only [FleetStep.startsPass, FleetStep.consumesHead, h1, reqSync]
      simp at h2 ⊢
      split at hlen <;> omega
    · cases h

theorem fleetRun_passBound {ss : List FleetStep} {f f' : Fleet}
    (h : fleetRun ss f = some f') :
    fleetPasses ss + f'.d.syncNotify.buf.length + f'.loops.count .startup ≤
      f.d.syncNotify.buf.length + f.loops.count .startup + ss.count .start + fleetHeads ss := by
  induction ss generalizing f with
  | nil =>
    simp only [fleetRun, Option.some.injEq] at h
    subst h
    simp [fleetPasses, fleetHeads]
  | cons st rest ih =>
    simp only [fleetRun] at h
    cases hs : fleetStep st f with
    | none => rw [hs] at h; cases h
    | some f1 =>
      rw [hs] at h
      have h1 := fleetStep_passBound hs
      have h2 := ih h
      have hc : (st :: rest).count .start = rest.count .start + (if st = .start then 1 else 0) := by
        rw [List.count_cons]
        by_cases hst : st = .start
        · subst hst; simp
        · have : (st == FleetStep.start) = false := by simpa using hst
          simp [hst, this]
      have hp : fleetPasses (st :: rest) =
          fleetPasses rest + (if st.startsPass = true then 1 else 0) := by
        simp only [fleetPasses, List.countP_cons]
      have hh : fleetHeads (st :: rest) =
          fleetHeads rest + (if st.consumesHead = true then 1 else 0) := by
        simp only [fleetHeads, List.countP_cons]
      rw [hc, hp, hh]
      omega

/-- C21 (as stated, refuted): `Start` is called twice.  After both startup
passes two passes have started and no head notification has been consumed.
When a head then arrives, the second loop consumes it and the first loop
takes the request: the first loop has started two passes and has consumed no
notification, and three passes have started in all for one notification
consumed. -/
theorem second_start_breaks_pass_bound :
    (fleetRun [.start, .start, .startupPass 0, .startupPass 1]
        (initFleet false ⟨6, 60⟩)).isSome = true ∧
    fleetPasses [.start, .start, .startupPass 0, .startupPass 1] = 2 ∧
    fleetHeads [.start, .start, .startupPass 0, .startupPass 1] = 0 ∧
    (fleetRun twoLoopsSchedule (initFleet false ⟨6, 60⟩)).map (fun f => f.loops) =
      some [.retrying, .selecting] ∧
    fleetPassesOf 0 twoLoopsSchedule = 2 ∧ fleetHeadsOf 0 twoLoopsSchedule = 0 ∧
    fleetPasses twoLoopsSchedule = 3 ∧ fleetHeads twoLoopsSchedule = 1 := by
  decide

/-- C21 (amended): at every point of every execution, with any number of
calls of `Start`, the number of sync passes started by the event loops is at
most the number of calls of `Start` plus the number of head notifications
consumed from `l1HeadCh`, and this still holds with the request pending in
`syncNotify` counted as a pass; so when `Start` has been called once the
number of passes started is at most 1 + the number of notifications
consumed. -/
theorem passes_bounded_by_starts_and_notifications (ctx : Bool) (h0 : Header)
    (ss : List FleetStep) (f : Fleet) (hrun : fleetRun ss (initFleet ctx h0) = some f) :
    fleetPasses ss + f.d.syncNotify.buf.length ≤ ss.count .start + fleetHeads ss ∧
    fleetPasses ss ≤ ss.count .start + fleetHeads ss ∧
    (ss.count .start = 1 →
      fleetPasses ss + f.d.syncNotify.buf.length ≤ 1 + fleetHeads ss ∧
      fleetPasses ss ≤ 1 + fleetHeads ss) := by
  have h := fleetRun_passBound hrun
  simp only [initFleet, initDriver, Chan.make, List.length_nil, List.count_nil] at h
  refine ⟨by omega, by omega, fun h1 => ?_⟩
  rw [← h1]
  exact ⟨by omega, by omega⟩

/-- Witness for `passes_bounded_by_starts_and_notifications`: one call of
`Start`, two heads consumed one after the other and taken up by two passes;
three passes for two notifications, the bound being reached. -/
theorem passes_bounded_by_starts_and_notifications_witness :
    fleetPasses [.start, .headArrives ⟨7, 70⟩, .headArrives ⟨8, 80⟩, .startupPass 0,
      .syncBegin 0, .syncEnd 0 none 0 0, .selL1Head 0, .selSyncNotify 0, .syncBegin 0,
      .syncEnd 0 none 0 0, .selL1Head 0, .selSyncNotify 0] ≤
      1 + fleetHeads [.start, .headArrives ⟨7, 70⟩, .headArrives ⟨8, 80⟩, .startupPass 0,
        .syncBegin 0, .syncEnd 0 none 0 0, .selL1Head 0, .selSyncNotify 0, .syncBegin 0,
        .syncEnd 0 none 0 0, .selL1Head 0, .selSyncNotify 0] ∧
    fleetPasses [.start, .headArrives ⟨7, 70⟩, .headArrives ⟨8, 80⟩, .startupPass 0,
      .syncBegin 0, .syncEnd 0 none 0 0, .selL1Head 0, .selSyncNotify 0, .syncBegin 0,
      .syncEnd 0 none 0 0, .selL1Head 0, .selSyncNotify 0] = 3 :=
  ⟨((passes_bounded_by_starts_and_notifications false ⟨6, 60⟩
      [.start, .headArrives ⟨7, 70⟩, .headArrives ⟨8, 80⟩, .startupPass 0,
        .syncBegin 0, .syncEnd 0 none 0 0, .selL1Head 0, .selSyncNotify 0, .syncBegin 0,
        .syncEnd 0 none 0 0, .selL1Head 0, .selSyncNotify 0]
      ⟨{ initDriver false ⟨6, 60⟩ with wg := 1 }, [.retrying], 0⟩ (by decide)).2.2
      (by decide)).2, by decide⟩

end TaikoClient
